import Mathlib

/-! C2g-image: a three-stage concurrent image pipeline

A verification development for `main.go`: the driver (`main`), the
`downloader`, the `processor` and the `collector`, together with the parts of
the Go standard library they call (`path/filepath`, `image`, `image/color`,
channels, `sync.WaitGroup`, `sync.Mutex`).
-/

namespace C2g

/-! ## Strings and `path/filepath` (Unix) -/

/-- Go strings.  `path/filepath` inspects only the bytes `/` and `.`; in UTF-8
these bytes occur only as the characters themselves, so a character-level
model agrees with the byte-level functions. -/
abbrev GoString := List Char

/-- Go function `os.IsPathSeparator` on Unix. -/
def isPathSeparator (c : Char) : Bool := c == '/'

/-- Go function `filepath.Base`: the last element of `path`.  Trailing separators are
removed first; an empty path gives `"."`, a path of separators only gives
`"/"`.  (On Unix the volume name is empty.) -/
def Base (path : GoString) : GoString :=
  if path = [] then ['.']
  else
    -- Strip trailing slashes.
    let path1 := path.rdropWhile isPathSeparator
    -- Find the last element.
    let path2 := path1.rtakeWhile (fun c => !isPathSeparator c)
    -- If empty now, it had only slashes.
    if path2 = [] then ['/'] else path2

/-- The backtracking loop of `filepath.Clean` for a `..` element:
`out.w--; for out.w > dotdot && !os.IsPathSeparator(out.index(out.w)) { out.w-- }`,
started from `w` after the first decrement; returns the final `out.w`. -/
def cleanBacktrack (buf : List Char) (dotdot : Nat) : Nat → Nat
  | 0 => 0
  | w + 1 =>
    if dotdot < w + 1 ∧ !isPathSeparator (buf.getD (w + 1) '/') then cleanBacktrack buf dotdot w
    else w + 1

/-- The main loop `for r < n { switch ... }` of `filepath.Clean`.  The unread
part `path[r:]` is the list `path`; `out` is the written part of the lazy
buffer (`out.w = out.length`).  Every iteration consumes at least one
character, so `fuel = len(path) + 1` iterations are enough. -/
def cleanLoop (rooted : Bool) : Nat → List Char → List Char → Nat → List Char
  | 0, _, out, _ => out
  | fuel + 1, path, out, dotdot =>
    match path with
    | [] => out
    | c :: rest =>
      if isPathSeparator c then
        -- empty path element
        cleanLoop rooted fuel rest out dotdot
      else if c = '.' ∧ (rest = [] ∨ (rest.head?.map isPathSeparator) = some true) then
        -- . element
        cleanLoop rooted fuel rest out dotdot
      else if c = '.' ∧ rest.head? = some '.' ∧
          (rest.tail = [] ∨ (rest.tail.head?.map isPathSeparator) = some true) then
        -- .. element: remove to last separator
        if dotdot < out.length then
          -- can backtrack
          cleanLoop rooted fuel rest.tail
            (out.take (cleanBacktrack out dotdot (out.length - 1))) dotdot
        else if !rooted then
          -- cannot backtrack, but not rooted, so append .. element.
          let out1 := (if 0 < out.length then out ++ ['/'] else out) ++ ['.', '.']
          cleanLoop rooted fuel rest.tail out1 out1.length
        else
          cleanLoop rooted fuel rest.tail out dotdot
      else
        -- real path element: add slash if needed, copy element
        let out1 :=
          if (rooted ∧ out.length ≠ 1) ∨ (!rooted ∧ out.length ≠ 0) then out ++ ['/'] else out
        cleanLoop rooted fuel (path.dropWhile (fun c => !isPathSeparator c))
          (out1 ++ path.takeWhile (fun c => !isPathSeparator c)) dotdot

/-- Go function `filepath.Clean` on Unix (no volume name, `FromSlash` is the identity). -/
def Clean (path : GoString) : GoString :=
  if path = [] then ['.']
  else
    let rooted := (path.head?.map isPathSeparator) = some true
    let out :=
      if rooted then cleanLoop true (path.length + 1) path.tail ['/'] 1
      else cleanLoop false (path.length + 1) path [] 0
    -- Turn empty string into "."
    if out = [] then ['.'] else out

/-- Go function `strings.Join(elems, sep)`. -/
def stringsJoin (sep : GoString) : List GoString → GoString
  | [] => []
  | [e] => e
  | e :: es => e ++ sep ++ stringsJoin sep es

/-- Go function `filepath.Join` on Unix: the elements from the first non-empty one on,
joined by the separator and cleaned; `""` when all are empty. -/
def Join : List GoString → GoString
  | [] => []
  | e :: es => if e ≠ [] then Clean (stringsJoin ['/'] (e :: es)) else Join es

/-- The call `fmt.Sprintf("%s.png", fileName)`. -/
def sprintfPng (fileName : GoString) : GoString := fileName ++ ".png".toList

/-- The downloader's file name (lines 103-104):
`filepath.Join("input", fmt.Sprintf("%s.png", filepath.Base(url)))`. -/
def inputPath (url : GoString) : GoString :=
  let fileName := Base url
  Join ["input".toList, sprintfPng fileName]

/-- The collector's file name (lines 157-158):
`filepath.Join("output", fmt.Sprintf("%s.png", filepath.Base(imageData.URL)))`. -/
def outputPath (url : GoString) : GoString :=
  let fileName := Base url
  Join ["output".toList, sprintfPng fileName]

/-! ## `image/color` and `image` -/

/-- A `color.Color` value.  `Gray Y` is `color.Gray{Y}` (`Y` a `uint8`); any
other color is represented by the four `uint32` results of its `RGBA()`
method, which is all that `color.GrayModel` reads from it. -/
inductive Color where
  | Gray (Y : Nat)
  | Other (r g b a : Nat)
  deriving DecidableEq, Repr

/-- The `RGBA()` method.  For `color.Gray`:
`y := uint32(c.Y); y |= y << 8; return y, y, y, 0xffff`. -/
def Color.RGBA : Color → Nat × Nat × Nat × Nat
  | .Gray Y =>
    let y := Y % 2 ^ 32
    let y := y ||| ((y <<< 8) % 2 ^ 32)
    (y, y, y, 0xffff)
  | .Other r g b a => (r, g, b, a)

/-- A color as the standard image types produce it: a `uint8` gray value, or
alpha-premultiplied 16-bit channels. -/
def Color.Valid : Color → Prop
  | .Gray Y => Y < 256
  | .Other r g b a => r ≤ 0xffff ∧ g ≤ 0xffff ∧ b ≤ 0xffff ∧ a ≤ 0xffff

/-- The `Y` field of the `color.Gray` that `color.GrayModel.Convert` returns
(`grayModel` in `image/color`): a `color.Gray` is returned as it is, otherwise
`y := (19595*r + 38470*g + 7471*b + 1<<15) >> 24` in `uint32` arithmetic and
the result is `Gray{uint8(y)}`. -/
def grayModel (c : Color) : Nat :=
  match c with
  | .Gray Y => Y
  | .Other r g b _ =>
    let y := ((19595 * r + 38470 * g + 7471 * b + 2 ^ 15) % 2 ^ 32) >>> 24
    y % 256

/-- The luminance mapping in the words of the specification:
`Y = (19595*R + 38470*G + 7471*B + 2^15) >> 24` over the 16-bit channels. -/
def lumaSpec (rgba : Nat × Nat × Nat × Nat) : Nat :=
  (19595 * rgba.1 + 38470 * rgba.2.1 + 7471 * rgba.2.2.1 + 2 ^ 15) >>> 24

/-- An `image.Rectangle`. -/
structure Rectangle where
  MinX : Int
  MinY : Int
  MaxX : Int
  MaxY : Int
  deriving DecidableEq, Repr

/-- Go method `Rectangle.Dx`. -/
def Rectangle.Dx (r : Rectangle) : Int := r.MaxX - r.MinX

/-- Go method `Rectangle.Dy`. -/
def Rectangle.Dy (r : Rectangle) : Int := r.MaxY - r.MinY

/-- The test `Point{x, y}.In(r)`. -/
def Rectangle.Contains (r : Rectangle) (x y : Int) : Bool :=
  decide (r.MinX ≤ x) && decide (x < r.MaxX) && decide (r.MinY ≤ y) && decide (y < r.MaxY)

/-- The largest `int` (64-bit). -/
def maxInt : Int := 2 ^ 63 - 1

/-- The condition under which `image.NewGray(r)` allocates rather than
panics (`pixelBufferLength`): non-negative dimensions whose product fits an
`int`. -/
def Rectangle.Allocatable (r : Rectangle) : Prop :=
  0 ≤ r.Dx ∧ 0 ≤ r.Dy ∧ r.Dx * r.Dy ≤ maxInt

instance (r : Rectangle) : Decidable r.Allocatable := by
  unfold Rectangle.Allocatable; infer_instance

/-- An `image.Image` value: its `Bounds()` and its `At(x, y)`.  The images
that `image.Decode` returns have bounds `(0,0)-(w,h)` of a size that was
allocated, which `alloc` records. -/
structure Image where
  Bounds : Rectangle
  At : Int → Int → Color
  alloc : Bounds.Allocatable

/-- An `*image.Gray`: its `Rect` and its pixel store.  The store is indexed by
the point; `PixOffset` and the layout of `Pix` are not modelled.  Every gray
image was allocated by `NewGray`, which `alloc` records. -/
structure GrayImage where
  Rect : Rectangle
  Pix : Int → Int → Nat
  alloc : Rect.Allocatable

/-- Go function `image.NewGray(r)`: a zeroed gray image with the given bounds; `none`
stands for the panic on a rectangle with huge or negative dimensions. -/
def NewGray (r : Rectangle) : Option GrayImage :=
  if h : r.Allocatable then some { Rect := r, Pix := fun _ _ => 0, alloc := h } else none

/-- Go methods `(*image.Gray).GrayAt` / `At`: `color.Gray{}` outside the rectangle. -/
def GrayImage.At (p : GrayImage) (x y : Int) : Color :=
  if p.Rect.Contains x y then .Gray (p.Pix x y) else .Gray 0

/-- Go method `(*image.Gray).Set(x, y, c)`: nothing outside the rectangle, otherwise
`p.Pix[i] = color.GrayModel.Convert(c).(color.Gray).Y`. -/
def GrayImage.Set (p : GrayImage) (x y : Int) (c : Color) : GrayImage :=
  if p.Rect.Contains x y then
    { p with Pix := fun x1 y1 => if x1 = x ∧ y1 = y then grayModel c else p.Pix x1 y1 }
  else p

/-- A `*image.Gray` stored in a variable of type `image.Image`. -/
def GrayImage.toImage (p : GrayImage) : Image :=
  { Bounds := p.Rect, At := p.At, alloc := p.alloc }

/-- The body of the inner loop of the processor (lines 134-136) at `(x, y)`. -/
def grayPixel (src : Image) (y : Int) (grayImg : GrayImage) (x : Int) : GrayImage :=
  let originalColor := src.At x y
  let grayColor := Color.Gray (grayModel originalColor)
  grayImg.Set x y grayColor

/-- The inner loop of the processor (lines 133-137) for row `y`:
`for x := bounds.Min.X; x < bounds.Max.X; x++`. -/
def grayRow (src : Image) (grayImg : GrayImage) (y : Int) : GrayImage :=
  (List.range src.Bounds.Dx.toNat).foldl
    (fun (g : GrayImage) (i : Nat) => grayPixel src y g (src.Bounds.MinX + (i : Int)))
    grayImg

/-- The outer loop of the processor (lines 132-138):
`for y := bounds.Min.Y; y < bounds.Max.Y; y++`. -/
def grayLoops (src : Image) (grayImg : GrayImage) : GrayImage :=
  (List.range src.Bounds.Dy.toNat).foldl
    (fun (g : GrayImage) (j : Nat) => grayRow src g (src.Bounds.MinY + (j : Int)))
    grayImg

/-- Lines 130-138 of the processor: `image.NewGray(bounds)` followed by the
two loops; `none` when `NewGray` panics. -/
def grayscale (src : Image) : Option GrayImage :=
  (NewGray src.Bounds).map (grayLoops src)

/-- The image assigned to `imageData.Data` at line 139 for the source image
`src`: the result of the two loops on the gray image that `NewGray` allocates
for the bounds of `src`. -/
def grayImage (src : Image) : Image :=
  (grayLoops src { Rect := src.Bounds, Pix := fun _ _ => 0, alloc := src.alloc }).toImage

/-- The `ImageData` struct of the source: the original URL and the image. -/
structure ImageData where
  URL : GoString
  Data : Image

/-! ## The registry `processedImages` -/

/-- A Go `map[string]image.Image`, as the list of its entries; every key
occurs once. -/
abbrev Registry := List (GoString × Image)

/-- The assignment `m[k] = v`: the entry of `k` is overwritten when there is
one and added otherwise. -/
def mapInsert (k : GoString) (v : Image) : Registry → Registry
  | [] => [(k, v)]
  | (k1, v1) :: m => if k1 = k then (k, v) :: m else (k1, v1) :: mapInsert k v m

/-- The lookup `m[k]`. -/
def mapLookup (k : GoString) : Registry → Option Image
  | [] => none
  | (k1, v1) :: m => if k1 = k then some v1 else mapLookup k m

/-- The keys of the map. -/
def mapKeys (m : Registry) : List GoString := m.map Prod.fst

/-! ## The environment -/

/-- The bytes of a response body. -/
abbrev Bytes := List Nat

/-- What a call of `image.Decode` (line 94) does: it returns an image, it
returns an error, or it panics (a well-formed header that declares dimensions
for which the pixel buffer cannot be allocated makes the decoder panic in
`make`; nothing in the program recovers). -/
inductive Decoded where
  | image (img : Image)
  | error
  | panic

/-- The image of a successful decoding. -/
def Decoded.toOption : Decoded → Option Image
  | .image img => some img
  | .error => none
  | .panic => none

/-- The outcomes of the calls that leave the program.  `httpGet n url` is the
body that `http.Get(url)` delivers in iteration `n` of the downloader's loop
(`none`: an error); `decode` is what `image.Decode` does on that body; `osCreate path n` and `pngEncode path n` tell whether `os.Create` and
`png.Encode` succeed for `path` in iteration `n` of the loop that calls them;
`mkdirAll dir` tells whether `os.MkdirAll(dir, 0755)` succeeds. -/
structure World where
  mkdirAll : GoString → Bool
  httpGet : Nat → GoString → Option Bytes
  decode : Bytes → Decoded
  osCreate : GoString → Nat → Bool
  pngEncode : GoString → Nat → Bool

/-- Lines 86-98 for the identifier `url` in iteration `n`: the decoded image,
or `none` when `http.Get` or `image.Decode` does not deliver one. -/
def fetchDecode (w : World) (n : Nat) (url : GoString) : Option Image :=
  (w.httpGet n url).bind (fun body => (w.decode body).toOption)

/-! ## The goroutines as a transition system -/

/-- The four goroutines. -/
inductive Proc where
  | main
  | downloader
  | processor
  | collector
  deriving DecidableEq, Repr

/-- The three channels made at lines 34-40. -/
inductive Chan where
  | urlsCh
  | downloadedCh
  | processedCh
  deriving DecidableEq, Repr

/-- The capacity of `downloadedCh` (line 38); the other two channels are
unbuffered. -/
def downloadedCap : Nat := 10

/-- Where `main` stands.  `loop i` is the head of the loop of lines 65-67 with
`i` identifiers sent. -/
inductive MainPc where
  | wgAdd
  | goDownloader
  | goProcessor
  | goCollector
  | loop (i : Nat)
  | closeUrls
  | wgWait
  | print
  | returned
  deriving DecidableEq, Repr

/-- Where `downloader` stands, with its live local variables.  `n` is the
number of the loop iteration.  After a panic the goroutine runs its deferred
calls (`unwindDeferred`, `unwindCloseOut`, `unwindWgDone`) and then the
run-time system ends the process (`crash`). -/
inductive DlPc where
  | notStarted
  | mkdir
  | recv (n : Nat)
  | get (n : Nat) (url : GoString)
  | decode (n : Nat) (url : GoString) (body : Bytes)
  | send (n : Nat) (url : GoString) (img : Image)
  | create (n : Nat) (url : GoString) (img : Image)
  | encode (n : Nat) (url : GoString) (img : Image)
  | deferred
  | closeOut
  | wgDone
  | exited
  | unwindDeferred
  | unwindCloseOut
  | unwindWgDone
  | crash

/-- Where `processor` stands, with its live local variable.  After a panic
the goroutine runs its deferred calls (`unwindCloseOut`, `unwindWgDone`) and
then the run-time system ends the process (`crash`). -/
inductive PrPc where
  | notStarted
  | recv
  | convert (imageData : ImageData)
  | send (imageData : ImageData)
  | closeOut
  | wgDone
  | exited
  | unwindCloseOut
  | unwindWgDone
  | crash

/-- Where `collector` stands, with its live local variable.  `n` is the
number of the loop iteration.  The only call of the collector that can panic
is its last deferred call, `wg.Done()`, after which the run-time system ends
the process (`crash`). -/
inductive ColPc where
  | notStarted
  | mkdir
  | recv (n : Nat)
  | lock (n : Nat) (imageData : ImageData)
  | store (n : Nat) (imageData : ImageData)
  | unlock (n : Nat) (imageData : ImageData)
  | create (n : Nat) (imageData : ImageData)
  | encode (n : Nat) (imageData : ImageData)
  | deferred
  | wgDone
  | exited
  | crash

/-- Whether the process runs, was ended by `log.Fatal`, or crashed in a
run-time panic. -/
inductive Status where
  | running
  | fatal
  | panicked
  deriving DecidableEq, Repr

/-- What a step does; every step of an execution is logged as one event.
`panic p` is the start of a panic in goroutine `p`; `crash` is the end of the
process after the deferred calls of the panicking goroutine have run.
`sendUrl` and `sendP` are the communications on the two unbuffered channels
(send and receive happen together); `sendD` and `recvD` are the enqueue and
dequeue on the buffered channel. -/
inductive Event where
  | wgAdd (n : Nat)
  | go (p : Proc)
  | sendUrl (url : GoString)
  | rangeEnd (p : Proc)
  | close (c : Chan) (p : Proc)
  | wgWait
  | print (n : Nat)
  | mkdir (p : Proc) (ok : Bool)
  | httpGet (url : GoString) (ok : Bool)
  | decode (url : GoString) (ok : Bool)
  | sendD (imageData : ImageData)
  | recvD (imageData : ImageData)
  | convert (url : GoString)
  | sendP (imageData : ImageData)
  | lock
  | store (imageData : ImageData)
  | unlock
  | create (p : Proc) (path : GoString) (ok : Bool)
  | encode (p : Proc) (path : GoString) (ok : Bool)
  | deferred (p : Proc)
  | wgDone (p : Proc)
  | fatal (p : Proc)
  | panic (p : Proc)
  | crash

/-- The state of the program: the four control points, the channels, the
`WaitGroup` counter, the mutex, the map, and the log of the execution. -/
structure State where
  main : MainPc
  dl : DlPc
  pr : PrPc
  col : ColPc
  urlsClosed : Bool
  downloadedBuf : List ImageData
  downloadedClosed : Bool
  processedClosed : Bool
  wg : Nat
  mu : Bool
  processedImages : Registry
  status : Status
  trace : List Event

/-- The state in which `main` starts, after the channels are made
(lines 34-40). -/
def State.init : State :=
  { main := .wgAdd, dl := .notStarted, pr := .notStarted, col := .notStarted,
    urlsClosed := false, downloadedBuf := [], downloadedClosed := false,
    processedClosed := false, wg := 0, mu := false, processedImages := [],
    status := .running, trace := [] }

/-- Log an event. -/
def emit (e : Event) (s : State) : State := { s with trace := s.trace ++ [e] }

/-- A run-time error that ends the process at once: a panic in `main`,
which has no deferred calls, or the fatal error `sync: unlock of unlocked
mutex`, which is not a panic and runs no deferred call. -/
def State.panic (s : State) (p : Proc) : State :=
  { s with status := .panicked, trace := s.trace ++ [.panic p] }

/-- The end of the process after a panic in a stage, once the deferred calls
of the panicking goroutine have run. -/
def State.crash (s : State) : State :=
  { s with status := .panicked, trace := s.trace ++ [.crash] }

/-- The call `log.Fatal` in goroutine `p` ends the process. -/
def State.fatal (s : State) (p : Proc) : State :=
  { s with status := .fatal, trace := s.trace ++ [.fatal p] }

/-- One step of `main` (lines 43-72); `none` when it is blocked or has
returned.  The send of line 66 on the unbuffered `urlsCh` happens together
with the receive of the downloader's `range` (line 84). -/
def stepMain (images : List GoString) (s : State) : Option State :=
  match s.main with
  | .wgAdd => some (emit (.wgAdd 3)
      { s with wg := s.wg + 3, main := .goDownloader })
  | .goDownloader => some (emit (.go .downloader)
      { s with dl := .mkdir, main := .goProcessor })
  | .goProcessor => some (emit (.go .processor)
      { s with pr := .recv, main := .goCollector })
  | .goCollector => some (emit (.go .collector)
      { s with col := .mkdir, main := .loop 0 })
  | .loop i =>
    match images[i]? with
    | none => some (emit (.rangeEnd .main)
      { s with main := .closeUrls })
    | some url =>
      if s.urlsClosed then some (s.panic .main)
      else
        match s.dl with
        | .recv n => some (emit (.sendUrl url)
      { s with main := .loop (i + 1), dl := .get n url })
        | _ => none
  | .closeUrls =>
    if s.urlsClosed then some (s.panic .main)
    else some (emit (.close .urlsCh .main)
      { s with urlsClosed := true, main := .wgWait })
  | .wgWait => if s.wg = 0 then some (emit .wgWait
      { s with main := .print }) else none
  | .print => some (emit (.print s.processedImages.length)
      { s with main := .returned })
  | .returned => none

/-- One step of `downloader` (lines 79-118); `none` when it is blocked, not
started or has exited.  The deferred calls run in reverse order: the `Close`
calls of lines 91 and 113, then `close(out)`, then `wg.Done()`.  A panic
(in `image.Decode`, in a send on a closed channel, in the close of a closed
channel, in `wg.Done()` on a zero counter) runs the deferred calls that are
left, while the other goroutines go on, and then ends the process. -/
def stepDownloader (w : World) (s : State) : Option State :=
  match s.dl with
  | .notStarted => none
  | .mkdir =>
    if w.mkdirAll "input".toList then some (emit (.mkdir .downloader true)
      { s with dl := .recv 0 })
    else some (s.fatal .downloader)
  | .recv _ =>
    if s.urlsClosed then some (emit (.rangeEnd .downloader)
      { s with dl := .deferred })
    else none
  | .get n url =>
    match w.httpGet n url with
    | none => some (emit (.httpGet url false)
      { s with dl := .recv (n + 1) })
    | some body => some (emit (.httpGet url true)
      { s with dl := .decode n url body })
  | .decode n url body =>
    match w.decode body with
    | .panic => some (emit (.panic .downloader)
      { s with dl := .unwindDeferred })
    | .error => some (emit (.decode url false)
      { s with dl := .recv (n + 1) })
    | .image img => some (emit (.decode url true)
      { s with dl := .send n url img })
  | .send n url img =>
    if s.downloadedClosed then some (emit (.panic .downloader)
      { s with dl := .unwindDeferred })
    else if s.downloadedBuf.length < downloadedCap then
      some (emit (.sendD { URL := url, Data := img })
      { s with downloadedBuf := s.downloadedBuf ++ [{ URL := url, Data := img }], dl := .create n url img })
    else none
  | .create n url img =>
    if w.osCreate (inputPath url) n then
      some (emit (.create .downloader (inputPath url) true)
      { s with dl := .encode n url img })
    else some (emit (.create .downloader (inputPath url) false)
      { s with dl := .recv (n + 1) })
  | .encode n url _ =>
    some (emit (.encode .downloader (inputPath url) (w.pngEncode (inputPath url) n))
      { s with dl := .recv (n + 1) })
  | .deferred => some (emit (.deferred .downloader)
      { s with dl := .closeOut })
  | .closeOut =>
    if s.downloadedClosed then some (emit (.panic .downloader)
      { s with dl := .unwindWgDone })
    else some (emit (.close .downloadedCh .downloader)
      { s with downloadedClosed := true, dl := .wgDone })
  | .wgDone =>
    if s.wg = 0 then some (emit (.panic .downloader)
      { s with dl := .crash })
    else some (emit (.wgDone .downloader)
      { s with wg := s.wg - 1, dl := .exited })
  | .exited => none
  | .unwindDeferred => some (emit (.deferred .downloader)
      { s with dl := .unwindCloseOut })
  | .unwindCloseOut =>
    if s.downloadedClosed then some (emit (.panic .downloader)
      { s with dl := .unwindWgDone })
    else some (emit (.close .downloadedCh .downloader)
      { s with downloadedClosed := true, dl := .unwindWgDone })
  | .unwindWgDone =>
    if s.wg = 0 then some (emit (.panic .downloader)
      { s with dl := .crash })
    else some (emit (.wgDone .downloader)
      { s with wg := s.wg - 1, dl := .crash })
  | .crash => some s.crash

/-- One step of `processor` (lines 123-141).  The send of line 140 on the
unbuffered `processedCh` happens together with the receive of the collector's
`range` (line 150).  A panic runs the deferred calls that are left and then
ends the process. -/
def stepProcessor (s : State) : Option State :=
  match s.pr with
  | .notStarted => none
  | .recv =>
    match s.downloadedBuf with
    | imageData :: rest =>
      some (emit (.recvD imageData)
      { s with downloadedBuf := rest, pr := .convert imageData })
    | [] =>
      if s.downloadedClosed then some (emit (.rangeEnd .processor)
      { s with pr := .closeOut })
      else none
  | .convert imageData =>
    match grayscale imageData.Data with
    | none => some (emit (.panic .processor)
      { s with pr := .unwindCloseOut })
    | some grayImg =>
      some (emit (.convert imageData.URL)
      { s with pr := .send { imageData with Data := grayImg.toImage } })
  | .send imageData =>
    if s.processedClosed then some (emit (.panic .processor)
      { s with pr := .unwindCloseOut })
    else
      match s.col with
      | .recv n => some (emit (.sendP imageData)
      { s with pr := .recv, col := .lock n imageData })
      | _ => none
  | .closeOut =>
    if s.processedClosed then some (emit (.panic .processor)
      { s with pr := .unwindWgDone })
    else some (emit (.close .processedCh .processor)
      { s with processedClosed := true, pr := .wgDone })
  | .wgDone =>
    if s.wg = 0 then some (emit (.panic .processor)
      { s with pr := .crash })
    else some (emit (.wgDone .processor)
      { s with wg := s.wg - 1, pr := .exited })
  | .exited => none
  | .unwindCloseOut =>
    if s.processedClosed then some (emit (.panic .processor)
      { s with pr := .unwindWgDone })
    else some (emit (.close .processedCh .processor)
      { s with processedClosed := true, pr := .unwindWgDone })
  | .unwindWgDone =>
    if s.wg = 0 then some (emit (.panic .processor)
      { s with pr := .crash })
    else some (emit (.wgDone .processor)
      { s with wg := s.wg - 1, pr := .crash })
  | .crash => some s.crash

/-- One step of `collector` (lines 146-172).  `mu.Unlock()` on an unlocked
mutex is a fatal error, which ends the process at once; `wg.Done()` on a zero
counter panics, and as it is the last deferred call the process ends next. -/
def stepCollector (w : World) (s : State) : Option State :=
  match s.col with
  | .notStarted => none
  | .mkdir =>
    if w.mkdirAll "output".toList then some (emit (.mkdir .collector true)
      { s with col := .recv 0 })
    else some (s.fatal .collector)
  | .recv _ =>
    if s.processedClosed then some (emit (.rangeEnd .collector)
      { s with col := .deferred })
    else none
  | .lock n imageData =>
    if s.mu then none
    else some (emit .lock
      { s with mu := true, col := .store n imageData })
  | .store n imageData =>
    some (emit (.store imageData)
      { s with processedImages := mapInsert imageData.URL imageData.Data s.processedImages, col := .unlock n imageData })
  | .unlock n imageData =>
    if s.mu then some (emit .unlock
      { s with mu := false, col := .create n imageData })
    else some (s.panic .collector)
  | .create n imageData =>
    if w.osCreate (outputPath imageData.URL) n then
      some (emit (.create .collector (outputPath imageData.URL) true)
      { s with col := .encode n imageData })
    else some (emit (.create .collector (outputPath imageData.URL) false)
      { s with col := .recv (n + 1) })
  | .encode n imageData =>
    some (emit (.encode .collector (outputPath imageData.URL) (w.pngEncode (outputPath imageData.URL) n))
      { s with col := .recv (n + 1) })
  | .deferred => some (emit (.deferred .collector)
      { s with col := .wgDone })
  | .wgDone =>
    if s.wg = 0 then some (emit (.panic .collector)
      { s with col := .crash })
    else some (emit (.wgDone .collector)
      { s with wg := s.wg - 1, col := .exited })
  | .exited => none
  | .crash => some s.crash

/-- One step of goroutine `p` in state `s`, for the identifier list `images`
of line 51; `none` when `p` cannot move.  Nothing moves once the process has
ended: after `log.Fatal`, after the crash that follows a panic, or after
`main` has returned. -/
def step (w : World) (images : List GoString) (p : Proc) (s : State) : Option State :=
  if s.status ≠ .running ∨ s.main = .returned then none
  else
    match p with
    | .main => stepMain images s
    | .downloader => stepDownloader w s
    | .processor => stepProcessor s
    | .collector => stepCollector w s

/-- The state after the goroutines moved in the order `sched`, from `s`;
`none` when one of them could not move at its turn. -/
def run (w : World) (images : List GoString) : List Proc → State → Option State
  | [], s => some s
  | p :: sched, s => (step w images p s).bind (run w images sched)

/-- The states that executions reach. -/
inductive Reachable (w : World) (images : List GoString) : State → Prop where
  | init : Reachable w images State.init
  | step {s t : State} (p : Proc) :
      Reachable w images s → step w images p s = some t → Reachable w images t

/-- The state in which the three stages have exited and the driver has
returned from `wg.Wait()` and from `main`. -/
def State.Completed (s : State) : Prop :=
  s.main = .returned ∧ s.wg = 0 ∧ s.status = .running ∧
    (match s.dl with | .exited => True | _ => False) ∧
    (match s.pr with | .exited => True | _ => False) ∧
    (match s.col with | .exited => True | _ => False)

/-- The identifier list of lines 51-62. -/
def exampleImages : List GoString :=
  [ "https://images.unsplash.com/photo-1506748686214-e9df14d4d9d0".toList,
    "https://images.unsplash.com/photo-1517816743773-6e0fd518b4a6".toList,
    "https://images.unsplash.com/photo-1499084732479-de2c02d45fc4".toList,
    "https://images.unsplash.com/photo-1522202176988-66273c2fd55f".toList,
    "https://images.unsplash.com/photo-1507525428034-b723cf961d3e".toList,
    "https://images.unsplash.com/photo-1519125323398-675f0ddb6308".toList,
    "https://images.unsplash.com/photo-1470770841072-f978cf4d019e".toList,
    "https://images.unsplash.com/photo-1494790108377-be9c29b29330".toList,
    "https://images.unsplash.com/photo-1534528741775-53994a69daeb".toList,
    "https://images.unsplash.com/photo-1441974231531-c6227db76b6e".toList ]

/-! ## Observations of the control points -/

/-- The number of identifiers `main` has sent, of `K`. -/
def MainPc.sent (K : Nat) : MainPc → Nat
  | .wgAdd => 0
  | .goDownloader => 0
  | .goProcessor => 0
  | .goCollector => 0
  | .loop i => i
  | .closeUrls => K
  | .wgWait => K
  | .print => K
  | .returned => K

/-- What `main` has added to the `WaitGroup`. -/
def MainPc.added : MainPc → Nat
  | .wgAdd => 0
  | .goDownloader => 3
  | .goProcessor => 3
  | .goCollector => 3
  | .loop _ => 3
  | .closeUrls => 3
  | .wgWait => 3
  | .print => 3
  | .returned => 3

/-- Whether `main` has executed `go downloader(...)`. -/
def MainPc.spawnedDl : MainPc → Bool
  | .wgAdd => false
  | .goDownloader => false
  | .goProcessor => true
  | .goCollector => true
  | .loop _ => true
  | .closeUrls => true
  | .wgWait => true
  | .print => true
  | .returned => true

/-- Whether `main` has executed `go processor(...)`. -/
def MainPc.spawnedPr : MainPc → Bool
  | .wgAdd => false
  | .goDownloader => false
  | .goProcessor => false
  | .goCollector => true
  | .loop _ => true
  | .closeUrls => true
  | .wgWait => true
  | .print => true
  | .returned => true

/-- Whether `main` has executed `go collector(...)`. -/
def MainPc.spawnedCol : MainPc → Bool
  | .wgAdd => false
  | .goDownloader => false
  | .goProcessor => false
  | .goCollector => false
  | .loop _ => true
  | .closeUrls => true
  | .wgWait => true
  | .print => true
  | .returned => true

/-- Whether `main` has executed `close(urlsCh)`. -/
def MainPc.closedUrls : MainPc → Bool
  | .wgAdd => false
  | .goDownloader => false
  | .goProcessor => false
  | .goCollector => false
  | .loop _ => false
  | .closeUrls => false
  | .wgWait => true
  | .print => true
  | .returned => true

/-- Whether `main` has returned from `wg.Wait()`. -/
def MainPc.waited : MainPc → Bool
  | .wgAdd => false
  | .goDownloader => false
  | .goProcessor => false
  | .goCollector => false
  | .loop _ => false
  | .closeUrls => false
  | .wgWait => false
  | .print => true
  | .returned => true

/-- Whether the downloader was started. -/
def DlPc.started : DlPc → Bool
  | .notStarted => false
  | .mkdir => true
  | .recv _ => true
  | .get _ _ => true
  | .decode _ _ _ => true
  | .send _ _ _ => true
  | .create _ _ _ => true
  | .encode _ _ _ => true
  | .deferred => true
  | .closeOut => true
  | .wgDone => true
  | .exited => true
  | .unwindDeferred => true
  | .unwindCloseOut => true
  | .unwindWgDone => true
  | .crash => true

/-- The number of identifiers the downloader has received, of `K`. -/
def DlPc.recvCount (K : Nat) : DlPc → Nat
  | .notStarted => 0
  | .mkdir => 0
  | .recv n => n
  | .get n _ => n + 1
  | .decode n _ _ => n + 1
  | .send n _ _ => n + 1
  | .create n _ _ => n + 1
  | .encode n _ _ => n + 1
  | .deferred => K
  | .closeOut => K
  | .wgDone => K
  | .exited => K
  | .unwindDeferred => K
  | .unwindCloseOut => K
  | .unwindWgDone => K
  | .crash => K

/-- Whether the downloader has left its loop. -/
def DlPc.afterLoop : DlPc → Bool
  | .notStarted => false
  | .mkdir => false
  | .recv _ => false
  | .get _ _ => false
  | .decode _ _ _ => false
  | .send _ _ _ => false
  | .create _ _ _ => false
  | .encode _ _ _ => false
  | .deferred => true
  | .closeOut => true
  | .wgDone => true
  | .exited => true
  | .unwindDeferred => false
  | .unwindCloseOut => false
  | .unwindWgDone => false
  | .crash => false

/-- Whether the downloader has executed `close(out)`. -/
def DlPc.closedOut : DlPc → Bool
  | .notStarted => false
  | .mkdir => false
  | .recv _ => false
  | .get _ _ => false
  | .decode _ _ _ => false
  | .send _ _ _ => false
  | .create _ _ _ => false
  | .encode _ _ _ => false
  | .deferred => false
  | .closeOut => false
  | .wgDone => true
  | .exited => true
  | .unwindDeferred => false
  | .unwindCloseOut => false
  | .unwindWgDone => true
  | .crash => true

/-- What the downloader has taken from the `WaitGroup`. -/
def DlPc.done : DlPc → Nat
  | .notStarted => 0
  | .mkdir => 0
  | .recv _ => 0
  | .get _ _ => 0
  | .decode _ _ _ => 0
  | .send _ _ _ => 0
  | .create _ _ _ => 0
  | .encode _ _ _ => 0
  | .deferred => 0
  | .closeOut => 0
  | .wgDone => 0
  | .exited => 1
  | .unwindDeferred => 0
  | .unwindCloseOut => 0
  | .unwindWgDone => 0
  | .crash => 1

/-- Whether the processor was started. -/
def PrPc.started : PrPc → Bool
  | .notStarted => false
  | .recv => true
  | .convert _ => true
  | .send _ => true
  | .closeOut => true
  | .wgDone => true
  | .exited => true
  | .unwindCloseOut => true
  | .unwindWgDone => true
  | .crash => true

/-- Whether the processor has left its loop. -/
def PrPc.afterLoop : PrPc → Bool
  | .notStarted => false
  | .recv => false
  | .convert _ => false
  | .send _ => false
  | .closeOut => true
  | .wgDone => true
  | .exited => true
  | .unwindCloseOut => false
  | .unwindWgDone => false
  | .crash => false

/-- Whether the processor has executed `close(out)`. -/
def PrPc.closedOut : PrPc → Bool
  | .notStarted => false
  | .recv => false
  | .convert _ => false
  | .send _ => false
  | .closeOut => false
  | .wgDone => true
  | .exited => true
  | .unwindCloseOut => false
  | .unwindWgDone => true
  | .crash => true

/-- What the processor has taken from the `WaitGroup`. -/
def PrPc.done : PrPc → Nat
  | .notStarted => 0
  | .recv => 0
  | .convert _ => 0
  | .send _ => 0
  | .closeOut => 0
  | .wgDone => 0
  | .exited => 1
  | .unwindCloseOut => 0
  | .unwindWgDone => 0
  | .crash => 1

/-- Whether the collector was started. -/
def ColPc.started : ColPc → Bool
  | .notStarted => false
  | .mkdir => true
  | .recv _ => true
  | .lock _ _ => true
  | .store _ _ => true
  | .unlock _ _ => true
  | .create _ _ => true
  | .encode _ _ => true
  | .deferred => true
  | .wgDone => true
  | .exited => true
  | .crash => true

/-- Whether the collector has left its loop. -/
def ColPc.afterLoop : ColPc → Bool
  | .notStarted => false
  | .mkdir => false
  | .recv _ => false
  | .lock _ _ => false
  | .store _ _ => false
  | .unlock _ _ => false
  | .create _ _ => false
  | .encode _ _ => false
  | .deferred => true
  | .wgDone => true
  | .exited => true
  | .crash => false

/-- Whether the collector holds the mutex. -/
def ColPc.holdsLock : ColPc → Bool
  | .notStarted => false
  | .mkdir => false
  | .recv _ => false
  | .lock _ _ => false
  | .store _ _ => true
  | .unlock _ _ => true
  | .create _ _ => false
  | .encode _ _ => false
  | .deferred => false
  | .wgDone => false
  | .exited => false
  | .crash => false

/-- What the collector has taken from the `WaitGroup`. -/
def ColPc.done : ColPc → Nat
  | .notStarted => 0
  | .mkdir => 0
  | .recv _ => 0
  | .lock _ _ => 0
  | .store _ _ => 0
  | .unlock _ _ => 0
  | .create _ _ => 0
  | .encode _ _ => 0
  | .deferred => 0
  | .wgDone => 0
  | .exited => 1
  | .crash => 1

/-- Whether the downloader has panicked: it runs its deferred calls or has
run them. -/
def DlPc.unwinding : DlPc → Bool
  | .notStarted => false
  | .mkdir => false
  | .recv _ => false
  | .get _ _ => false
  | .decode _ _ _ => false
  | .send _ _ _ => false
  | .create _ _ _ => false
  | .encode _ _ _ => false
  | .deferred => false
  | .closeOut => false
  | .wgDone => false
  | .exited => false
  | .unwindDeferred => true
  | .unwindCloseOut => true
  | .unwindWgDone => true
  | .crash => true

/-- Whether the processor has panicked. -/
def PrPc.unwinding : PrPc → Bool
  | .notStarted => false
  | .recv => false
  | .convert _ => false
  | .send _ => false
  | .closeOut => false
  | .wgDone => false
  | .exited => false
  | .unwindCloseOut => true
  | .unwindWgDone => true
  | .crash => true

/-- Whether the collector has panicked. -/
def ColPc.unwinding : ColPc → Bool
  | .notStarted => false
  | .mkdir => false
  | .recv _ => false
  | .lock _ _ => false
  | .store _ _ => false
  | .unlock _ _ => false
  | .create _ _ => false
  | .encode _ _ => false
  | .deferred => false
  | .wgDone => false
  | .exited => false
  | .crash => true

attribute [simp] MainPc.sent.eq_1 MainPc.sent.eq_2 MainPc.sent.eq_3 MainPc.sent.eq_4
  MainPc.sent.eq_5 MainPc.sent.eq_6 MainPc.sent.eq_7 MainPc.sent.eq_8 MainPc.sent.eq_9

attribute [simp] MainPc.added.eq_1 MainPc.added.eq_2 MainPc.added.eq_3 MainPc.added.eq_4
  MainPc.added.eq_5 MainPc.added.eq_6 MainPc.added.eq_7 MainPc.added.eq_8 MainPc.added.eq_9

attribute [simp] MainPc.spawnedDl.eq_1 MainPc.spawnedDl.eq_2 MainPc.spawnedDl.eq_3
  MainPc.spawnedDl.eq_4 MainPc.spawnedDl.eq_5 MainPc.spawnedDl.eq_6 MainPc.spawnedDl.eq_7
  MainPc.spawnedDl.eq_8 MainPc.spawnedDl.eq_9

attribute [simp] MainPc.spawnedPr.eq_1 MainPc.spawnedPr.eq_2 MainPc.spawnedPr.eq_3
  MainPc.spawnedPr.eq_4 MainPc.spawnedPr.eq_5 MainPc.spawnedPr.eq_6 MainPc.spawnedPr.eq_7
  MainPc.spawnedPr.eq_8 MainPc.spawnedPr.eq_9

attribute [simp] MainPc.spawnedCol.eq_1 MainPc.spawnedCol.eq_2 MainPc.spawnedCol.eq_3
  MainPc.spawnedCol.eq_4 MainPc.spawnedCol.eq_5 MainPc.spawnedCol.eq_6 MainPc.spawnedCol.eq_7
  MainPc.spawnedCol.eq_8 MainPc.spawnedCol.eq_9

attribute [simp] MainPc.closedUrls.eq_1 MainPc.closedUrls.eq_2 MainPc.closedUrls.eq_3
  MainPc.closedUrls.eq_4 MainPc.closedUrls.eq_5 MainPc.closedUrls.eq_6 MainPc.closedUrls.eq_7
  MainPc.closedUrls.eq_8 MainPc.closedUrls.eq_9

attribute [simp] MainPc.waited.eq_1 MainPc.waited.eq_2 MainPc.waited.eq_3 MainPc.waited.eq_4
  MainPc.waited.eq_5 MainPc.waited.eq_6 MainPc.waited.eq_7 MainPc.waited.eq_8 MainPc.waited.eq_9

attribute [simp] DlPc.started.eq_1 DlPc.started.eq_2 DlPc.started.eq_3 DlPc.started.eq_4
  DlPc.started.eq_5 DlPc.started.eq_6 DlPc.started.eq_7 DlPc.started.eq_8 DlPc.started.eq_9
  DlPc.started.eq_10 DlPc.started.eq_11 DlPc.started.eq_12 DlPc.started.eq_13 DlPc.started.eq_14
  DlPc.started.eq_15 DlPc.started.eq_16

attribute [simp] DlPc.recvCount.eq_1 DlPc.recvCount.eq_2 DlPc.recvCount.eq_3 DlPc.recvCount.eq_4
  DlPc.recvCount.eq_5 DlPc.recvCount.eq_6 DlPc.recvCount.eq_7 DlPc.recvCount.eq_8
  DlPc.recvCount.eq_9 DlPc.recvCount.eq_10 DlPc.recvCount.eq_11 DlPc.recvCount.eq_12
  DlPc.recvCount.eq_13 DlPc.recvCount.eq_14 DlPc.recvCount.eq_15 DlPc.recvCount.eq_16

attribute [simp] DlPc.afterLoop.eq_1 DlPc.afterLoop.eq_2 DlPc.afterLoop.eq_3 DlPc.afterLoop.eq_4
  DlPc.afterLoop.eq_5 DlPc.afterLoop.eq_6 DlPc.afterLoop.eq_7 DlPc.afterLoop.eq_8
  DlPc.afterLoop.eq_9 DlPc.afterLoop.eq_10 DlPc.afterLoop.eq_11 DlPc.afterLoop.eq_12
  DlPc.afterLoop.eq_13 DlPc.afterLoop.eq_14 DlPc.afterLoop.eq_15 DlPc.afterLoop.eq_16

attribute [simp] DlPc.closedOut.eq_1 DlPc.closedOut.eq_2 DlPc.closedOut.eq_3 DlPc.closedOut.eq_4
  DlPc.closedOut.eq_5 DlPc.closedOut.eq_6 DlPc.closedOut.eq_7 DlPc.closedOut.eq_8
  DlPc.closedOut.eq_9 DlPc.closedOut.eq_10 DlPc.closedOut.eq_11 DlPc.closedOut.eq_12
  DlPc.closedOut.eq_13 DlPc.closedOut.eq_14 DlPc.closedOut.eq_15 DlPc.closedOut.eq_16

attribute [simp] DlPc.done.eq_1 DlPc.done.eq_2 DlPc.done.eq_3 DlPc.done.eq_4 DlPc.done.eq_5
  DlPc.done.eq_6 DlPc.done.eq_7 DlPc.done.eq_8 DlPc.done.eq_9 DlPc.done.eq_10 DlPc.done.eq_11
  DlPc.done.eq_12 DlPc.done.eq_13 DlPc.done.eq_14 DlPc.done.eq_15 DlPc.done.eq_16

attribute [simp] PrPc.started.eq_1 PrPc.started.eq_2 PrPc.started.eq_3 PrPc.started.eq_4
  PrPc.started.eq_5 PrPc.started.eq_6 PrPc.started.eq_7 PrPc.started.eq_8 PrPc.started.eq_9
  PrPc.started.eq_10

attribute [simp] PrPc.afterLoop.eq_1 PrPc.afterLoop.eq_2 PrPc.afterLoop.eq_3 PrPc.afterLoop.eq_4
  PrPc.afterLoop.eq_5 PrPc.afterLoop.eq_6 PrPc.afterLoop.eq_7 PrPc.afterLoop.eq_8
  PrPc.afterLoop.eq_9 PrPc.afterLoop.eq_10

attribute [simp] PrPc.closedOut.eq_1 PrPc.closedOut.eq_2 PrPc.closedOut.eq_3 PrPc.closedOut.eq_4
  PrPc.closedOut.eq_5 PrPc.closedOut.eq_6 PrPc.closedOut.eq_7 PrPc.closedOut.eq_8
  PrPc.closedOut.eq_9 PrPc.closedOut.eq_10

attribute [simp] PrPc.done.eq_1 PrPc.done.eq_2 PrPc.done.eq_3 PrPc.done.eq_4 PrPc.done.eq_5
  PrPc.done.eq_6 PrPc.done.eq_7 PrPc.done.eq_8 PrPc.done.eq_9 PrPc.done.eq_10

attribute [simp] ColPc.started.eq_1 ColPc.started.eq_2 ColPc.started.eq_3 ColPc.started.eq_4
  ColPc.started.eq_5 ColPc.started.eq_6 ColPc.started.eq_7 ColPc.started.eq_8 ColPc.started.eq_9
  ColPc.started.eq_10 ColPc.started.eq_11 ColPc.started.eq_12

attribute [simp] ColPc.afterLoop.eq_1 ColPc.afterLoop.eq_2 ColPc.afterLoop.eq_3
  ColPc.afterLoop.eq_4 ColPc.afterLoop.eq_5 ColPc.afterLoop.eq_6 ColPc.afterLoop.eq_7
  ColPc.afterLoop.eq_8 ColPc.afterLoop.eq_9 ColPc.afterLoop.eq_10 ColPc.afterLoop.eq_11
  ColPc.afterLoop.eq_12

attribute [simp] ColPc.holdsLock.eq_1 ColPc.holdsLock.eq_2 ColPc.holdsLock.eq_3
  ColPc.holdsLock.eq_4 ColPc.holdsLock.eq_5 ColPc.holdsLock.eq_6 ColPc.holdsLock.eq_7
  ColPc.holdsLock.eq_8 ColPc.holdsLock.eq_9 ColPc.holdsLock.eq_10 ColPc.holdsLock.eq_11
  ColPc.holdsLock.eq_12

attribute [simp] ColPc.done.eq_1 ColPc.done.eq_2 ColPc.done.eq_3 ColPc.done.eq_4 ColPc.done.eq_5
  ColPc.done.eq_6 ColPc.done.eq_7 ColPc.done.eq_8 ColPc.done.eq_9 ColPc.done.eq_10
  ColPc.done.eq_11 ColPc.done.eq_12

attribute [simp] DlPc.unwinding.eq_1 DlPc.unwinding.eq_2 DlPc.unwinding.eq_3 DlPc.unwinding.eq_4
  DlPc.unwinding.eq_5 DlPc.unwinding.eq_6 DlPc.unwinding.eq_7 DlPc.unwinding.eq_8
  DlPc.unwinding.eq_9 DlPc.unwinding.eq_10 DlPc.unwinding.eq_11 DlPc.unwinding.eq_12
  DlPc.unwinding.eq_13 DlPc.unwinding.eq_14 DlPc.unwinding.eq_15 DlPc.unwinding.eq_16

attribute [simp] PrPc.unwinding.eq_1 PrPc.unwinding.eq_2 PrPc.unwinding.eq_3 PrPc.unwinding.eq_4
  PrPc.unwinding.eq_5 PrPc.unwinding.eq_6 PrPc.unwinding.eq_7 PrPc.unwinding.eq_8
  PrPc.unwinding.eq_9 PrPc.unwinding.eq_10

attribute [simp] ColPc.unwinding.eq_1 ColPc.unwinding.eq_2 ColPc.unwinding.eq_3
  ColPc.unwinding.eq_4 ColPc.unwinding.eq_5 ColPc.unwinding.eq_6 ColPc.unwinding.eq_7
  ColPc.unwinding.eq_8 ColPc.unwinding.eq_9 ColPc.unwinding.eq_10 ColPc.unwinding.eq_11
  ColPc.unwinding.eq_12

/-- The control invariant: how the channels, the `WaitGroup` counter and the
mutex follow from where the four goroutines stand; the processor and the
collector never panic, and the process crashes only after a panic of the
downloader. -/
structure Inv (K : Nat) (s : State) : Prop where
  crashed : s.status = .panicked → s.dl = .crash
  spawnDl : s.main.spawnedDl = false → s.dl = .notStarted
  spawnPr : s.main.spawnedPr = false → s.pr = .notStarted
  spawnCol : s.main.spawnedCol = false → s.col = .notStarted
  startDl : s.main.spawnedDl = true → s.dl.started = true
  startPr : s.main.spawnedPr = true → s.pr.started = true
  startCol : s.main.spawnedCol = true → s.col.started = true
  addedDl : s.dl.started = true → s.main.added = 3
  addedPr : s.pr.started = true → s.main.added = 3
  addedCol : s.col.started = true → s.main.added = 3
  sentLe : s.main.sent K ≤ K
  urls : s.urlsClosed = s.main.closedUrls
  dlCount : s.dl.unwinding = false → s.dl.recvCount K = s.main.sent K
  dlClosed : s.downloadedClosed = s.dl.closedOut
  dlAfter : s.dl.afterLoop = true → s.urlsClosed = true
  prClosed : s.processedClosed = s.pr.closedOut
  prAfter : s.pr.afterLoop = true → s.downloadedClosed = true ∧ s.downloadedBuf = []
  colAfter : s.col.afterLoop = true → s.processedClosed = true
  wgEq : s.wg + s.dl.done + s.pr.done + s.col.done = s.main.added
  muEq : s.mu = s.col.holdsLock
  bufLe : s.downloadedBuf.length ≤ downloadedCap
  waited : s.main.waited = true → s.wg = 0
  prSound : s.pr.unwinding = false
  colSound : s.col.unwinding = false

/-! ## A measure of the work that is left -/

/-- The steps one unit costs the collector (lock, store, unlock, create,
encode). -/
def collectCost : Nat := 5

/-- The steps one unit in `downloadedCh` still costs: the receive, the
conversion and the send of the processor, and the collector's steps. -/
def bufferCost : Nat := 8

/-- The steps one identifier that is not yet sent still costs: the send, the
five steps of the downloader, and the cost of the unit in the buffer. -/
def urlCost : Nat := 14

/-- The steps `main` has left, with `K` identifiers, counting for every identifier
not yet sent the steps it costs all four goroutines. -/
def MainPc.rank (K : Nat) : MainPc → Nat
  | .wgAdd => urlCost * K + 8
  | .goDownloader => urlCost * K + 7
  | .goProcessor => urlCost * K + 6
  | .goCollector => urlCost * K + 5
  | .loop i => urlCost * (K - i) + 4
  | .closeUrls => 3
  | .wgWait => 2
  | .print => 1
  | .returned => 0

/-- The steps the downloader has left when no further identifier comes, counting for
the identifier in hand the steps it costs downstream. -/
def DlPc.rank : DlPc → Nat
  | .notStarted => 6
  | .mkdir => 5
  | .recv _ => 4
  | .get _ _ => 17
  | .decode _ _ _ => 16
  | .send _ _ _ => 15
  | .create _ _ _ => 6
  | .encode _ _ _ => 5
  | .deferred => 3
  | .closeOut => 2
  | .wgDone => 1
  | .exited => 0
  | .unwindDeferred => 3
  | .unwindCloseOut => 2
  | .unwindWgDone => 1
  | .crash => 0

/-- The steps the processor has left when no further unit comes, counting for the
unit in hand the steps it costs the collector. -/
def PrPc.rank : PrPc → Nat
  | .notStarted => 4
  | .recv => 3
  | .convert _ => 10
  | .send _ => 9
  | .closeOut => 2
  | .wgDone => 1
  | .exited => 0
  | .unwindCloseOut => 2
  | .unwindWgDone => 1
  | .crash => 0

/-- The steps the collector has left when no further unit comes. -/
def ColPc.rank : ColPc → Nat
  | .notStarted => 5
  | .mkdir => 4
  | .recv _ => 3
  | .lock _ _ => 8
  | .store _ _ => 7
  | .unlock _ _ => 6
  | .create _ _ => 5
  | .encode _ _ => 4
  | .deferred => 2
  | .wgDone => 1
  | .exited => 0
  | .crash => 0

attribute [simp] MainPc.rank.eq_1 MainPc.rank.eq_2 MainPc.rank.eq_3 MainPc.rank.eq_4
  MainPc.rank.eq_5 MainPc.rank.eq_6 MainPc.rank.eq_7 MainPc.rank.eq_8 MainPc.rank.eq_9

attribute [simp] DlPc.rank.eq_1 DlPc.rank.eq_2 DlPc.rank.eq_3 DlPc.rank.eq_4 DlPc.rank.eq_5
  DlPc.rank.eq_6 DlPc.rank.eq_7 DlPc.rank.eq_8 DlPc.rank.eq_9 DlPc.rank.eq_10 DlPc.rank.eq_11
  DlPc.rank.eq_12 DlPc.rank.eq_13 DlPc.rank.eq_14 DlPc.rank.eq_15 DlPc.rank.eq_16

attribute [simp] PrPc.rank.eq_1 PrPc.rank.eq_2 PrPc.rank.eq_3 PrPc.rank.eq_4 PrPc.rank.eq_5
  PrPc.rank.eq_6 PrPc.rank.eq_7 PrPc.rank.eq_8 PrPc.rank.eq_9 PrPc.rank.eq_10

attribute [simp] ColPc.rank.eq_1 ColPc.rank.eq_2 ColPc.rank.eq_3 ColPc.rank.eq_4 ColPc.rank.eq_5
  ColPc.rank.eq_6 ColPc.rank.eq_7 ColPc.rank.eq_8 ColPc.rank.eq_9 ColPc.rank.eq_10
  ColPc.rank.eq_11 ColPc.rank.eq_12

/-- An upper bound on the number of steps an execution can still take from
`s`, with `K` identifiers; `0` once the process has ended abnormally. -/
def State.measure (K : Nat) (s : State) : Nat :=
  match s.status with
  | .running =>
    1 + s.main.rank K + s.dl.rank + bufferCost * s.downloadedBuf.length + s.pr.rank + s.col.rank
  | .fatal => 0
  | .panicked => 0

/-! ## What the pipeline computes -/

/-- The effect of lines 130-139 on a unit: the URL is kept and `Data` is
replaced by the gray image. -/
def ImageData.gray (imageData : ImageData) : ImageData :=
  { imageData with Data := grayImage imageData.Data }

/-- The unit the downloader sends for `url` in iteration `n` (line 101), if
any: none when `http.Get` or `image.Decode` fails (lines 87-98). -/
def download (w : World) (n : Nat) (url : GoString) : List ImageData :=
  (fetchDecode w n url).toList.map (fun img => { URL := url, Data := img })

/-- The units the downloader sends for the identifiers `urls`, received from
iteration `n` on. -/
def downloads (w : World) : Nat → List GoString → List ImageData
  | _, [] => []
  | n, url :: urls => download w n url ++ downloads w (n + 1) urls

/-- The map after the collector stored the units `units` (line 154), one
after the other, starting from `m`. -/
def collect (m : Registry) (units : List ImageData) : Registry :=
  units.foldl (fun m imageData => mapInsert imageData.URL imageData.Data m) m

/-- The map that the pipeline computes for the identifier list `images`:
every identifier is fetched and decoded, the decoded images are converted,
and the results are stored in the order of the identifiers. -/
def expectedRegistry (w : World) (images : List GoString) : Registry :=
  collect [] ((downloads w 0 images).map ImageData.gray)

/-! ## Observations of the log -/

/-- The goroutines that take part in an event; the two communications on
unbuffered channels involve the sender and the receiver, and the end of the
process after a panic is the run-time system's, not a goroutine's. -/
def Event.actors : Event → List Proc
  | .wgAdd _ => [.main]
  | .go _ => [.main]
  | .sendUrl _ => [.main, .downloader]
  | .rangeEnd p => [p]
  | .close _ p => [p]
  | .wgWait => [.main]
  | .print _ => [.main]
  | .mkdir p _ => [p]
  | .httpGet _ _ => [.downloader]
  | .decode _ _ => [.downloader]
  | .sendD _ => [.downloader]
  | .recvD _ => [.processor]
  | .convert _ => [.processor]
  | .sendP _ => [.processor, .collector]
  | .lock => [.collector]
  | .store _ => [.collector]
  | .unlock => [.collector]
  | .create p _ _ => [p]
  | .encode p _ _ => [p]
  | .deferred p => [p]
  | .wgDone p => [p]
  | .fatal p => [p]
  | .panic p => [p]
  | .crash => []

/-- The last event of the log in which goroutine `p` took part. -/
def lastBy (p : Proc) (tr : List Event) : Option Event :=
  (tr.filter (fun e => decide (p ∈ e.actors))).getLast?

/-- The identifier of a send on `urlsCh`. -/
def Event.asSendUrl : Event → Option GoString
  | .sendUrl url => some url
  | _ => none

/-- The unit of a send on `downloadedCh`. -/
def Event.asSendD : Event → Option ImageData
  | .sendD imageData => some imageData
  | _ => none

/-- The unit of a receive from `downloadedCh`. -/
def Event.asRecvD : Event → Option ImageData
  | .recvD imageData => some imageData
  | _ => none

/-- The unit of a send on `processedCh`. -/
def Event.asSendP : Event → Option ImageData
  | .sendP imageData => some imageData
  | _ => none

/-- The unit of a store into the map. -/
def Event.asStore : Event → Option ImageData
  | .store imageData => some imageData
  | _ => none

/-- The path of a call of `os.Create` by goroutine `p`. -/
def Event.asCreate (p : Proc) : Event → Option GoString
  | .create q path _ => if q = p then some path else none
  | _ => none

/-- The goroutine of a close of channel `c`. -/
def Event.asClose (c : Chan) : Event → Option Proc
  | .close c1 p => if c1 = c then some p else none
  | _ => none

/-- The goroutine of a `wg.Done()`. -/
def Event.asDone : Event → Option Proc
  | .wgDone p => some p
  | _ => none

/-- The argument of a `wg.Add`. -/
def Event.asAdd : Event → Option Nat
  | .wgAdd n => some n
  | _ => none

/-- The number printed by line 72. -/
def Event.asPrint : Event → Option Nat
  | .print n => some n
  | _ => none

/-- The identifiers sent on `urlsCh`, in order. -/
def sendUrls (tr : List Event) : List GoString := tr.filterMap Event.asSendUrl

/-- The units sent on `downloadedCh`, in order. -/
def sendDs (tr : List Event) : List ImageData := tr.filterMap Event.asSendD

/-- The units received from `downloadedCh`, in order. -/
def recvDs (tr : List Event) : List ImageData := tr.filterMap Event.asRecvD

/-- The units sent on `processedCh` (and received by the collector), in
order. -/
def sendPs (tr : List Event) : List ImageData := tr.filterMap Event.asSendP

/-- The units stored into the map, in order. -/
def stores (tr : List Event) : List ImageData := tr.filterMap Event.asStore

/-- The paths for which goroutine `p` called `os.Create`, in order. -/
def creates (p : Proc) (tr : List Event) : List GoString := tr.filterMap (Event.asCreate p)

/-- The goroutines that closed channel `c`, in order. -/
def closers (c : Chan) (tr : List Event) : List Proc := tr.filterMap (Event.asClose c)

/-- The goroutines that called `wg.Done()`, in order. -/
def doneBy (tr : List Event) : List Proc := tr.filterMap Event.asDone

/-- The arguments of the calls of `wg.Add`, in order. -/
def adds (tr : List Event) : List Nat := tr.filterMap Event.asAdd

/-- The numbers printed, in order. -/
def prints (tr : List Event) : List Nat := tr.filterMap Event.asPrint

/-- The goroutine that writes to a channel. -/
def Chan.writer : Chan → Proc
  | .urlsCh => .main
  | .downloadedCh => .downloader
  | .processedCh => .processor

/-- The channel an event sends on, if it is a send. -/
def Event.sendsOn : Event → Option Chan
  | .sendUrl _ => some .urlsCh
  | .sendD _ => some .downloadedCh
  | .sendP _ => some .processedCh
  | _ => none

/-! ## Units in flight -/

/-- The unit the downloader is still to send in its current iteration. -/
def DlPc.pending (w : World) : DlPc → List ImageData
  | .notStarted => []
  | .mkdir => []
  | .recv _ => []
  | .get n url => download w n url
  | .decode _ url body =>
    (w.decode body).toOption.toList.map (fun img => { URL := url, Data := img })
  | .send _ url img => [{ URL := url, Data := img }]
  | .create _ _ _ => []
  | .encode _ _ _ => []
  | .deferred => []
  | .closeOut => []
  | .wgDone => []
  | .exited => []
  | .unwindDeferred => []
  | .unwindCloseOut => []
  | .unwindWgDone => []
  | .crash => []

/-- The path for which the downloader is still to call `os.Create` in its
current iteration, the unit being sent. -/
def DlPc.pendingCreate : DlPc → List GoString
  | .notStarted => []
  | .mkdir => []
  | .recv _ => []
  | .get _ _ => []
  | .decode _ _ _ => []
  | .send _ _ _ => []
  | .create _ url _ => [inputPath url]
  | .encode _ _ _ => []
  | .deferred => []
  | .closeOut => []
  | .wgDone => []
  | .exited => []
  | .unwindDeferred => []
  | .unwindCloseOut => []
  | .unwindWgDone => []
  | .crash => []

/-- The unit the processor is still to send, as it will be sent. -/
def PrPc.pending : PrPc → List ImageData
  | .notStarted => []
  | .recv => []
  | .convert imageData => [imageData.gray]
  | .send imageData => [imageData]
  | .closeOut => []
  | .wgDone => []
  | .exited => []
  | .unwindCloseOut => []
  | .unwindWgDone => []
  | .crash => []

/-- The unit the collector is still to store. -/
def ColPc.pending : ColPc → List ImageData
  | .notStarted => []
  | .mkdir => []
  | .recv _ => []
  | .lock _ imageData => [imageData]
  | .store _ imageData => [imageData]
  | .unlock _ _ => []
  | .create _ _ => []
  | .encode _ _ => []
  | .deferred => []
  | .wgDone => []
  | .exited => []
  | .crash => []

/-- The path for which the collector is still to call `os.Create` in its
current iteration. -/
def ColPc.pendingCreate : ColPc → List GoString
  | .notStarted => []
  | .mkdir => []
  | .recv _ => []
  | .lock _ imageData => [outputPath imageData.URL]
  | .store _ imageData => [outputPath imageData.URL]
  | .unlock _ imageData => [outputPath imageData.URL]
  | .create _ imageData => [outputPath imageData.URL]
  | .encode _ _ => []
  | .deferred => []
  | .wgDone => []
  | .exited => []
  | .crash => []

attribute [simp] DlPc.pending.eq_1 DlPc.pending.eq_2 DlPc.pending.eq_3 DlPc.pending.eq_4
  DlPc.pending.eq_5 DlPc.pending.eq_6 DlPc.pending.eq_7 DlPc.pending.eq_8 DlPc.pending.eq_9
  DlPc.pending.eq_10 DlPc.pending.eq_11 DlPc.pending.eq_12 DlPc.pending.eq_13 DlPc.pending.eq_14
  DlPc.pending.eq_15 DlPc.pending.eq_16

attribute [simp] DlPc.pendingCreate.eq_1 DlPc.pendingCreate.eq_2 DlPc.pendingCreate.eq_3
  DlPc.pendingCreate.eq_4 DlPc.pendingCreate.eq_5 DlPc.pendingCreate.eq_6 DlPc.pendingCreate.eq_7
  DlPc.pendingCreate.eq_8 DlPc.pendingCreate.eq_9 DlPc.pendingCreate.eq_10
  DlPc.pendingCreate.eq_11 DlPc.pendingCreate.eq_12 DlPc.pendingCreate.eq_13
  DlPc.pendingCreate.eq_14 DlPc.pendingCreate.eq_15 DlPc.pendingCreate.eq_16

attribute [simp] PrPc.pending.eq_1 PrPc.pending.eq_2 PrPc.pending.eq_3 PrPc.pending.eq_4
  PrPc.pending.eq_5 PrPc.pending.eq_6 PrPc.pending.eq_7 PrPc.pending.eq_8 PrPc.pending.eq_9
  PrPc.pending.eq_10

attribute [simp] ColPc.pending.eq_1 ColPc.pending.eq_2 ColPc.pending.eq_3 ColPc.pending.eq_4
  ColPc.pending.eq_5 ColPc.pending.eq_6 ColPc.pending.eq_7 ColPc.pending.eq_8 ColPc.pending.eq_9
  ColPc.pending.eq_10 ColPc.pending.eq_11 ColPc.pending.eq_12

attribute [simp] ColPc.pendingCreate.eq_1 ColPc.pendingCreate.eq_2 ColPc.pendingCreate.eq_3
  ColPc.pendingCreate.eq_4 ColPc.pendingCreate.eq_5 ColPc.pendingCreate.eq_6
  ColPc.pendingCreate.eq_7 ColPc.pendingCreate.eq_8 ColPc.pendingCreate.eq_9
  ColPc.pendingCreate.eq_10 ColPc.pendingCreate.eq_11 ColPc.pendingCreate.eq_12

/-- The data invariant: what was sent, received and stored so far, together
with the units in flight, is what the pipeline is to compute. -/
structure Flow (w : World) (images : List GoString) (s : State) : Prop where
  urlsSent : sendUrls s.trace = images.take (s.main.sent images.length)
  dlSent : downloads w 0 images = sendDs s.trace ++ (s.dl.pending w ++
      downloads w (s.main.sent images.length) (images.drop (s.main.sent images.length)))
  buf : sendDs s.trace = recvDs s.trace ++ s.downloadedBuf
  prSent : (recvDs s.trace).map ImageData.gray = sendPs s.trace ++ s.pr.pending
  colStored : sendPs s.trace = stores s.trace ++ s.col.pending
  registry : s.processedImages = collect [] (stores s.trace)
  dlCreates : (sendDs s.trace).map (fun imageData => inputPath imageData.URL)
      = creates .downloader s.trace ++ s.dl.pendingCreate
  colCreates : (sendPs s.trace).map (fun imageData => outputPath imageData.URL)
      = creates .collector s.trace ++ s.col.pendingCreate

/-- The log invariant: the closes, the `wg.Add` and `wg.Done()` calls and the
last events of the stages, as they follow from where the goroutines stand. -/
structure Hist (s : State) : Prop where
  closeU : closers .urlsCh s.trace = if s.urlsClosed = true then [.main] else []
  closeD : closers .downloadedCh s.trace = if s.downloadedClosed = true then [.downloader] else []
  closeP : closers .processedCh s.trace = if s.processedClosed = true then [.processor] else []
  added : adds s.trace = if s.main.added = 0 then [] else [3]
  doneMain : (doneBy s.trace).count .main = 0
  doneDl : (doneBy s.trace).count .downloader = s.dl.done
  donePr : (doneBy s.trace).count .processor = s.pr.done
  doneCol : (doneBy s.trace).count .collector = s.col.done
  sendLast : ∀ n url img, s.dl = .send n url img →
    lastBy .downloader s.trace = some (.decode url true)
  createLast : ∀ n url img, s.dl = .create n url img →
    lastBy .downloader s.trace = some (.sendD { URL := url, Data := img })
  exitDl : s.dl.done = 1 → lastBy .downloader s.trace = some (.wgDone .downloader)
  exitPr : s.pr.done = 1 → lastBy .processor s.trace = some (.wgDone .processor)
  exitCol : s.col.done = 1 → lastBy .collector s.trace = some (.wgDone .collector)
  printed : prints s.trace = if s.main = .returned then [s.processedImages.length] else []

/-- The condition under which a step logs the event `e` in state `s`, for
the events that the statements below are about. -/
def Event.guard (e : Event) (s : State) : Prop :=
  match e with
  | .print n => s.main = .print ∧ n = s.processedImages.length
  | .wgWait => s.main = .wgWait ∧ s.wg = 0
  | .sendUrl _ => (∃ i, s.main = .loop i) ∧ s.urlsClosed = false
  | .sendD imageData =>
    (∃ n, s.dl = .send n imageData.URL imageData.Data) ∧ s.downloadedClosed = false
  | .sendP imageData => s.pr = .send imageData ∧ s.processedClosed = false
  | .create .downloader path _ => ∃ n url img, s.dl = .create n url img ∧ path = inputPath url
  | .create .collector path _ => ∃ n imageData, s.col = .create n imageData ∧
      path = outputPath imageData.URL
  | .close .urlsCh p => p = .main ∧ s.main = .closeUrls
  | .close .downloadedCh p => p = .downloader ∧ (s.dl = .closeOut ∨ s.dl = .unwindCloseOut)
  | .close .processedCh p => p = .processor ∧ (s.pr = .closeOut ∨ s.pr = .unwindCloseOut)
  | .wgDone .downloader => s.dl = .wgDone ∨ s.dl = .unwindWgDone
  | .wgDone .processor => s.pr = .wgDone ∨ s.pr = .unwindWgDone
  | .wgDone .collector => s.col = .wgDone
  | .wgDone .main => False
  | .panic p => p = .downloader ∧ ∃ n url body, s.dl = .decode n url body
  | .create .main _ _ => False
  | .create .processor _ _ => False
  | _ => True

/-! ## Concrete environments and executions

Used to evaluate the model on the scenario of the specification and on the
inputs at which statements are checked. -/

/-- A decoded image of two pixels: a red one and a dark one. -/
def imgA : Image :=
  { Bounds := ⟨0, 0, 2, 1⟩,
    At := fun x _ => if x = 0 then .Other 65535 0 0 65535 else .Other 100 200 300 65535,
    alloc := by decide }

/-- The body that the fetch of `"a"` delivers. -/
def bytesA : Bytes := [137, 80, 78, 71]

/-- The environment of the scenario: the fetch of `"a"` succeeds and its body
decodes; every other fetch fails; the directories and the files can be
written. -/
def scenarioWorld : World :=
  { mkdirAll := fun _ => true,
    httpGet := fun _ url => if url = "a".toList then some bytesA else none,
    decode := fun body => if body = bytesA then .image imgA else .error,
    osCreate := fun _ _ => true,
    pngEncode := fun _ _ => true }

/-- The environment of the scenario, except that no file can be created or
encoded. -/
def persistFailWorld : World :=
  { scenarioWorld with osCreate := fun _ _ => false, pngEncode := fun _ _ => false }

/-- The environment of the scenario, except that `image.Decode` panics on
every body. -/
def decodePanicWorld : World :=
  { scenarioWorld with decode := fun _ => .panic }

/-- The environment of the scenario, except that the directory `output`
cannot be made. -/
def noOutputWorld : World :=
  { scenarioWorld with mkdirAll := fun dir => decide (dir ≠ "output".toList) }

/-- The state an execution from the start reaches with the goroutines moving
in the order `sched`; the start state when some goroutine cannot move at its
turn. -/
def exec (w : World) (images : List GoString) (sched : List Proc) : State :=
  (run w images sched State.init).getD State.init

/-- The identifiers of the scenario. -/
def idsAB : List GoString := ["a".toList, "b".toList]

/-- The identifier `"a"`, twice. -/
def idsAA : List GoString := ["a".toList, "a".toList]

/-- The identifier `"a"` alone. -/
def idsA : List GoString := ["a".toList]

/-- An execution of the scenario to the end: `main` moves when it can, then
the downloader, the processor and the collector. -/
def schedAB : List Proc :=
  [.main, .main, .main, .main, .downloader, .main, .downloader, .downloader, .downloader,
    .downloader, .downloader, .main, .main, .main, .downloader, .downloader, .downloader,
    .downloader, .downloader, .processor, .processor, .collector, .processor, .processor,
    .processor, .processor, .collector, .collector, .collector, .collector, .collector,
    .collector, .collector, .collector, .main, .main]

/-- An execution to the end for the identifiers `idsAA`. -/
def schedAA : List Proc :=
  [.main, .main, .main, .main, .downloader, .main, .downloader, .downloader, .downloader,
    .downloader, .downloader, .main, .main, .main, .downloader, .downloader, .downloader,
    .downloader, .downloader, .downloader, .downloader, .downloader, .downloader, .processor,
    .processor, .collector, .processor, .processor, .processor, .collector, .collector,
    .collector, .collector, .collector, .processor, .processor, .processor, .processor,
    .collector, .collector, .collector, .collector, .collector, .collector, .collector,
    .collector, .main, .main]

/-- An execution to the end for the identifier `"a"` alone. -/
def schedA : List Proc :=
  [.main, .main, .main, .main, .downloader, .main, .main, .main, .downloader, .downloader,
    .downloader, .downloader, .downloader, .downloader, .downloader, .downloader, .downloader,
    .processor, .processor, .collector, .processor, .processor, .processor, .processor,
    .collector, .collector, .collector, .collector, .collector, .collector, .collector,
    .collector, .main, .main]

/-- An execution of the scenario to the end when no file can be created. -/
def schedPersistFail : List Proc :=
  [.main, .main, .main, .main, .downloader, .main, .downloader, .downloader, .downloader,
    .downloader, .main, .main, .main, .downloader, .downloader, .downloader, .downloader,
    .downloader, .processor, .processor, .collector, .processor, .processor, .processor,
    .processor, .collector, .collector, .collector, .collector, .collector, .collector,
    .collector, .main, .main]

/-- An execution without identifiers in which `main` closes `urlsCh` and
then the collector calls `os.MkdirAll`. -/
def schedMkdir : List Proc :=
  [.main, .main, .main, .main, .main, .main, .collector]

/-- The beginning of `schedAB`, up to the send of the unit for `"a"` on
`downloadedCh`. -/
def schedSent : List Proc :=
  [.main, .main, .main, .main, .downloader, .main, .downloader, .downloader, .downloader]

/-- An execution to the end without identifiers. -/
def schedEmpty : List Proc :=
  [.main, .main, .main, .main, .main, .main, .downloader, .downloader, .downloader,
    .downloader, .downloader, .processor, .processor, .processor, .collector, .collector,
    .collector, .collector, .main, .main]

/-- An execution for the identifier `"a"` in which `main` sends it and
closes `urlsCh`, and the downloader then runs until the process ends. -/
def schedPanic : List Proc :=
  [.main, .main, .downloader, .main, .main, .main, .main, .main, .downloader, .downloader,
    .downloader, .downloader, .downloader, .downloader]

/-- An execution of the scenario in which the downloader runs as soon as it
has received `"a"`, up to its `close(out)`. -/
def schedPanicClose : List Proc :=
  [.main, .main, .downloader, .main, .main, .main, .downloader, .downloader, .downloader,
    .downloader]

/-! ## The grayscale conversion -/

theorem grayPixel_Rect (src : Image) (y : Int) (g : GrayImage) (x : Int) :
    (grayPixel src y g x).Rect = g.Rect := by
  unfold grayPixel GrayImage.Set
  split <;> rfl

theorem grayPixel_Pix (src : Image) (y : Int) (g : GrayImage) (x x1 y1 : Int) :
    (grayPixel src y g x).Pix x1 y1 =
      if x1 = x ∧ y1 = y ∧ g.Rect.Contains x y = true then grayModel (src.At x y)
      else g.Pix x1 y1 := by
  unfold grayPixel GrayImage.Set
  by_cases h : g.Rect.Contains x y = true
  · simp [h, grayModel]
  · simp [h]

theorem grayRowFold_Rect (src : Image) (y : Int) (n : Nat) (g : GrayImage) :
    ((List.range n).foldl
      (fun (g : GrayImage) (i : Nat) => grayPixel src y g (src.Bounds.MinX + (i : Int))) g).Rect
      = g.Rect := by
  induction n with
  | zero => rfl
  | succ n ih =>
    rw [List.range_succ, List.foldl_append, List.foldl_cons, List.foldl_nil, grayPixel_Rect, ih]

theorem grayRowFold_Pix (src : Image) (y : Int) (n : Nat) (g : GrayImage) (x1 y1 : Int) :
    ((List.range n).foldl
      (fun (g : GrayImage) (i : Nat) => grayPixel src y g (src.Bounds.MinX + (i : Int))) g).Pix
        x1 y1
      = if y1 = y ∧ src.Bounds.MinX ≤ x1 ∧ x1 < src.Bounds.MinX + (n : Int) ∧
            g.Rect.Contains x1 y = true
        then grayModel (src.At x1 y) else g.Pix x1 y1 := by
  induction n with
  | zero =>
    simp only [List.range_zero, List.foldl_nil]
    rw [if_neg]
    intro h
    have := h.2.2.1
    simp at this
    omega
  | succ n ih =>
    rw [List.range_succ, List.foldl_append, List.foldl_cons, List.foldl_nil, grayPixel_Pix,
      grayRowFold_Rect, ih]
    by_cases hx : x1 = src.Bounds.MinX + (n : Int)
    · subst hx
      by_cases hy : y1 = y
      · subst hy
        by_cases hc : g.Rect.Contains (src.Bounds.MinX + (n : Int)) y1 = true
        · simp [hc]
        · simp [hc]
      · simp [hy]
    · have e : (x1 < src.Bounds.MinX + ((n + 1 : Nat) : Int)) ↔ (x1 < src.Bounds.MinX + (n : Int)) := by
        push_cast; omega
      simp only [hx, false_and, if_false, e]

theorem grayRow_Rect (src : Image) (g : GrayImage) (y : Int) : (grayRow src g y).Rect = g.Rect :=
  grayRowFold_Rect src y _ g

theorem grayRow_Pix (src : Image) (g : GrayImage) (y x1 y1 : Int) :
    (grayRow src g y).Pix x1 y1 =
      if y1 = y ∧ src.Bounds.MinX ≤ x1 ∧ x1 < src.Bounds.MaxX ∧ g.Rect.Contains x1 y = true
      then grayModel (src.At x1 y) else g.Pix x1 y1 := by
  unfold grayRow
  rw [grayRowFold_Pix]
  have h := src.alloc.1
  unfold Rectangle.Dx at h ⊢
  rw [Int.toNat_of_nonneg h]
  have e : src.Bounds.MinX + (src.Bounds.MaxX - src.Bounds.MinX) = src.Bounds.MaxX := by omega
  rw [e]

theorem grayLoopsFold_Rect (src : Image) (n : Nat) (g : GrayImage) :
    ((List.range n).foldl
      (fun (g : GrayImage) (j : Nat) => grayRow src g (src.Bounds.MinY + (j : Int))) g).Rect
      = g.Rect := by
  induction n with
  | zero => rfl
  | succ n ih =>
    rw [List.range_succ, List.foldl_append, List.foldl_cons, List.foldl_nil, grayRow_Rect, ih]

theorem grayLoopsFold_Pix (src : Image) (n : Nat) (g : GrayImage) (x1 y1 : Int) :
    ((List.range n).foldl
      (fun (g : GrayImage) (j : Nat) => grayRow src g (src.Bounds.MinY + (j : Int))) g).Pix
        x1 y1
      = if src.Bounds.MinY ≤ y1 ∧ y1 < src.Bounds.MinY + (n : Int) ∧
            src.Bounds.MinX ≤ x1 ∧ x1 < src.Bounds.MaxX ∧ g.Rect.Contains x1 y1 = true
        then grayModel (src.At x1 y1) else g.Pix x1 y1 := by
  induction n with
  | zero =>
    simp only [List.range_zero, List.foldl_nil]
    rw [if_neg]
    intro h
    have := h.2.1
    simp at this
    omega
  | succ n ih =>
    rw [List.range_succ, List.foldl_append, List.foldl_cons, List.foldl_nil, grayRow_Pix,
      grayLoopsFold_Rect, ih]
    by_cases hy : y1 = src.Bounds.MinY + (n : Int)
    · subst hy
      by_cases hc : src.Bounds.MinX ≤ x1 ∧ x1 < src.Bounds.MaxX ∧
          g.Rect.Contains x1 (src.Bounds.MinY + (n : Int)) = true
      · have : src.Bounds.MinY + (n : Int) < src.Bounds.MinY + ((n + 1 : Nat) : Int) := by
          push_cast; omega
        simp [hc, this]
      · have h2 : ¬ (src.Bounds.MinY ≤ src.Bounds.MinY + (n : Int) ∧
            src.Bounds.MinY + (n : Int) < src.Bounds.MinY + ((n + 1 : Nat) : Int) ∧
            src.Bounds.MinX ≤ x1 ∧ x1 < src.Bounds.MaxX ∧
            g.Rect.Contains x1 (src.Bounds.MinY + (n : Int)) = true) := by
          intro h; exact hc ⟨h.2.2.1, h.2.2.2.1, h.2.2.2.2⟩
        have h3 : ¬ (src.Bounds.MinY + (n : Int) = src.Bounds.MinY + (n : Int) ∧
            src.Bounds.MinX ≤ x1 ∧ x1 < src.Bounds.MaxX ∧
            g.Rect.Contains x1 (src.Bounds.MinY + (n : Int)) = true) := by
          intro h; exact hc h.2
        have h4 : ¬ (src.Bounds.MinY ≤ src.Bounds.MinY + (n : Int) ∧
            src.Bounds.MinY + (n : Int) < src.Bounds.MinY + (n : Int) ∧
            src.Bounds.MinX ≤ x1 ∧ x1 < src.Bounds.MaxX ∧
            g.Rect.Contains x1 (src.Bounds.MinY + (n : Int)) = true) := by
          intro h; omega
        rw [if_neg h3, if_neg h4, if_neg h2]
    · have e : (y1 < src.Bounds.MinY + ((n + 1 : Nat) : Int)) ↔ (y1 < src.Bounds.MinY + (n : Int)) := by
        push_cast; omega
      simp only [hy, false_and, if_false, e]

theorem grayImage_Bounds (src : Image) : (grayImage src).Bounds = src.Bounds := by
  unfold grayImage GrayImage.toImage grayLoops
  exact grayLoopsFold_Rect src _ _

theorem grayImage_At (src : Image) (x y : Int) :
    (grayImage src).At x y =
      if src.Bounds.Contains x y = true then Color.Gray (grayModel (src.At x y))
      else Color.Gray 0 := by
  have hb := grayImage_Bounds src
  unfold grayImage GrayImage.toImage at hb ⊢
  simp only at hb ⊢
  unfold GrayImage.At
  rw [hb]
  by_cases hc : src.Bounds.Contains x y = true
  · rw [if_pos hc, if_pos hc]
    unfold grayLoops
    rw [grayLoopsFold_Pix]
    have h := src.alloc.2.1
    rw [Int.toNat_of_nonneg h]
    unfold Rectangle.Dy
    have hc2 := hc
    unfold Rectangle.Contains at hc2
    simp only [Bool.and_eq_true, decide_eq_true_eq] at hc2
    have : src.Bounds.MinY ≤ y ∧ y < src.Bounds.MinY + (src.Bounds.MaxY - src.Bounds.MinY) ∧
        src.Bounds.MinX ≤ x ∧ x < src.Bounds.MaxX ∧ src.Bounds.Contains x y = true :=
      ⟨by omega, by omega, by omega, by omega, hc⟩
    rw [if_pos this]
  · rw [if_neg hc, if_neg hc]

theorem grayscale_eq (src : Image) :
    grayscale src = some (grayLoops src { Rect := src.Bounds, Pix := fun _ _ => 0, alloc := src.alloc }) := by
  unfold grayscale NewGray
  rw [dif_pos src.alloc]
  rfl


set_option maxRecDepth 100000 in
theorem gray_RGBA (Y : Nat) (h : Y ≤ 255) :
    (Color.Gray Y).RGBA = (Y * 257, Y * 257, Y * 257, 0xffff) := by
  have key : ∀ y : Fin 256,
      (((y : Nat) % 2 ^ 32) ||| ((((y : Nat) % 2 ^ 32) <<< 8) % 2 ^ 32)) = (y : Nat) * 257 := by
    decide
  have := key ⟨Y, by omega⟩
  simp only at this
  simp only [Color.RGBA, this]

theorem lumaSpec_gray (Y : Nat) (h : Y ≤ 255) :
    lumaSpec (Y * 257, Y * 257, Y * 257, 0xffff) = Y := by
  unfold lumaSpec
  simp only [Nat.shiftRight_eq_div_pow]
  omega

theorem grayModel_eq_lumaSpec (c : Color) (h : c.Valid) :
    grayModel c = lumaSpec c.RGBA ∧ grayModel c ≤ 255 := by
  cases c with
  | Gray Y =>
    have hY : Y ≤ 255 := by
      have : Y < 256 := h
      omega
    rw [gray_RGBA Y hY, lumaSpec_gray Y hY]
    exact ⟨rfl, hY⟩
  | Other r g b a =>
    obtain ⟨hr, hg, hb, _⟩ := h
    have hsum : 19595 * r + 38470 * g + 7471 * b + 2 ^ 15 < 2 ^ 32 := by omega
    unfold grayModel lumaSpec Color.RGBA
    simp only [Nat.mod_eq_of_lt hsum, Nat.shiftRight_eq_div_pow]
    have hdiv : (19595 * r + 38470 * g + 7471 * b + 2 ^ 15) / 2 ^ 24 ≤ 255 := by omega
    rw [Nat.mod_eq_of_lt (by omega)]
    exact ⟨rfl, hdiv⟩

theorem grayModel_lt (c : Color) (h : c.Valid) : grayModel c < 256 := by
  have := (grayModel_eq_lumaSpec c h).2
  omega

/-! ## The derived file names -/

theorem Base_cases (path : GoString) :
    Base path = ['/'] ∨ (Base path ≠ [] ∧ ∀ c ∈ Base path, isPathSeparator c = false) := by
  unfold Base
  by_cases h : path = []
  · right
    simp [h, isPathSeparator]
  · simp only [if_neg h]
    by_cases h2 : (path.rdropWhile isPathSeparator).rtakeWhile (fun c => !isPathSeparator c) = []
    · left; simp [h2]
    · right
      simp only [if_neg h2]
      refine ⟨h2, ?_⟩
      intro c hc
      have := List.mem_rtakeWhile_imp hc
      simpa using this

theorem takeWhile_noSep (l : List Char) (h : ∀ c ∈ l, isPathSeparator c = false) :
    l.takeWhile (fun c => !isPathSeparator c) = l := by
  rw [List.takeWhile_eq_self_iff]
  intro c hc
  simp [h c hc]

theorem dropWhile_noSep (l : List Char) (h : ∀ c ∈ l, isPathSeparator c = false) :
    l.dropWhile (fun c => !isPathSeparator c) = [] := by
  rw [List.dropWhile_eq_nil_iff]
  intro c hc
  simp [h c hc]

theorem takeWhile_noSep_append (l r : List Char) (h : ∀ c ∈ l, isPathSeparator c = false) :
    (l ++ '/' :: r).takeWhile (fun c => !isPathSeparator c) = l := by
  induction l with
  | nil => simp [isPathSeparator]
  | cons a l ih =>
    have ha := h a (List.mem_cons_self _ _)
    simp only [List.cons_append, List.takeWhile_cons, ha, Bool.not_false, if_true]
    rw [ih (fun c hc => h c (List.mem_cons_of_mem _ hc))]

theorem dropWhile_noSep_append (l r : List Char) (h : ∀ c ∈ l, isPathSeparator c = false) :
    (l ++ '/' :: r).dropWhile (fun c => !isPathSeparator c) = '/' :: r := by
  induction l with
  | nil => simp [isPathSeparator]
  | cons a l ih =>
    have ha := h a (List.mem_cons_self _ _)
    simp only [List.cons_append, List.dropWhile_cons, ha, Bool.not_false, if_true]
    rw [ih (fun c hc => h c (List.mem_cons_of_mem _ hc))]

/-- cleaning `dir/name` for a plain directory name and a plain file name of
at least three characters leaves the path as it is. -/
theorem cleanLoop_dir_name (d : Char) (ds name : List Char) (fuel : Nat)
    (hd : d ≠ '.') (hdir : ∀ c ∈ d :: ds, isPathSeparator c = false)
    (hname : ∀ c ∈ name, isPathSeparator c = false) (hlen : 3 ≤ name.length) :
    cleanLoop false (fuel + 4) ((d :: ds) ++ '/' :: name) [] 0 = (d :: ds) ++ '/' :: name := by
  have hd0 := hdir d (List.mem_cons_self _ _)
  -- first element: the directory
  have e1 : cleanLoop false (fuel + 4) ((d :: ds) ++ '/' :: name) [] 0
      = cleanLoop false (fuel + 3) ('/' :: name) (d :: ds) 0 := by
    conv_lhs => rw [List.cons_append, cleanLoop]
    simp only [hd0, hd, false_and, if_false, Bool.false_eq_true]
    rw [← List.cons_append, takeWhile_noSep_append _ _ hdir, dropWhile_noSep_append _ _ hdir]
    simp
  -- the separator
  have e2 : cleanLoop false (fuel + 3) ('/' :: name) (d :: ds) 0
      = cleanLoop false (fuel + 2) name (d :: ds) 0 := by
    rw [cleanLoop]
    simp [isPathSeparator]
  -- second element: the file name
  have e3 : cleanLoop false (fuel + 2) name (d :: ds) 0
      = (d :: ds) ++ '/' :: name := by
    match name, hname, hlen with
    | a :: b :: c :: rest, hname, _ =>
      have ha := hname a (by simp)
      have hb := hname b (by simp)
      have hc := hname c (by simp)
      conv_lhs => rw [cleanLoop]
      simp only [ha, hb, hc, List.head?_cons, Option.map_some', List.tail_cons,
        Bool.false_eq_true, if_false, reduceCtorEq, false_or, and_false, Option.some.injEq]
      rw [takeWhile_noSep _ hname, dropWhile_noSep _ hname]
      conv_lhs => rw [cleanLoop]
      simp
  rw [e1, e2, e3]

theorem Join_dir_name (d : Char) (ds name : List Char)
    (hd : d ≠ '.') (hdir : ∀ c ∈ d :: ds, isPathSeparator c = false)
    (hname : ∀ c ∈ name, isPathSeparator c = false) (hlen : 3 ≤ name.length) :
    Join [d :: ds, name] = (d :: ds) ++ '/' :: name := by
  have hd0 := hdir d (List.mem_cons_self _ _)
  unfold Join Clean
  simp only [ne_eq, reduceCtorEq, not_false_eq_true, if_true, stringsJoin]
  have hne : (d :: ds) ++ ['/'] ++ name ≠ [] := by simp
  rw [if_neg hne]
  have hroot : ¬ (((d :: ds) ++ ['/'] ++ name).head?.map isPathSeparator = some true) := by
    simp [hd0]
  simp only [hroot, if_false]
  have hl : ((d :: ds) ++ ['/'] ++ name).length + 1 = (ds.length + name.length - 1) + 4 := by
    simp; omega
  rw [hl]
  have e : (d :: ds) ++ ['/'] ++ name = (d :: ds) ++ '/' :: name := by simp
  rw [e, cleanLoop_dir_name d ds name _ hd hdir hname hlen]
  simp


/-- C10: for every identifier the two derived paths are `input/<name>` and
`output/<name>` with one and the same `<name>`, which is non-empty, contains
no separator and is neither `.` nor `..`. -/
theorem C10_derived_paths_are_direct_children (id : GoString) :
    ∃ name : GoString,
      inputPath id = "input/".toList ++ name ∧
      outputPath id = "output/".toList ++ name ∧
      name ≠ [] ∧ '/' ∉ name ∧ name ≠ ".".toList ∧ name ≠ "..".toList := by
  rcases Base_cases id with h | ⟨hne, hsep⟩
  · refine ⟨".png".toList, ?_, ?_, by decide, by decide, by decide, by decide⟩
    · unfold inputPath
      simp only [h]
      decide
    · unfold outputPath
      simp only [h]
      decide
  · have hname : ∀ c ∈ Base id ++ ".png".toList, isPathSeparator c = false := by
      intro c hc
      rcases List.mem_append.1 hc with h1 | h1
      · exact hsep c h1
      · have hpng : ∀ c ∈ ".png".toList, isPathSeparator c = false := by decide
        exact hpng c h1
    have hlen : 3 ≤ (Base id ++ ".png".toList).length := by
      rw [List.length_append]
      have : (".png".toList).length = 4 := by decide
      omega
    refine ⟨Base id ++ ".png".toList, ?_, ?_, ?_, ?_, ?_, ?_⟩
    · unfold inputPath sprintfPng
      have := Join_dir_name 'i' "nput".toList (Base id ++ ".png".toList) (by decide)
        (by decide) hname hlen
      exact this
    · unfold outputPath sprintfPng
      have := Join_dir_name 'o' "utput".toList (Base id ++ ".png".toList) (by decide)
        (by decide) hname hlen
      exact this
    · intro h; rw [h] at hlen; simp at hlen
    · intro h
      have := hname '/' h
      simp [isPathSeparator] at this
    · intro h; rw [h] at hlen; revert hlen; decide
    · intro h; rw [h] at hlen; revert hlen; decide

/-! ## The control invariant is preserved by every step -/

theorem inv_init (K : Nat) : Inv K State.init := by
  constructor <;> simp [State.init]

theorem dlDone_le (pc : DlPc) : pc.done ≤ 1 := by cases pc <;> simp
theorem prDone_le (pc : PrPc) : pc.done ≤ 1 := by cases pc <;> simp
theorem colDone_le (pc : ColPc) : pc.done ≤ 1 := by cases pc <;> simp

theorem MainPc.sent_of_closedUrls (K : Nat) (pc : MainPc) (h : pc.closedUrls = true) :
    pc.sent K = K := by
  cases pc <;> simp_all

theorem getElem?_lt {α : Type} {l : List α} {i : Nat} {a : α} (h : l[i]? = some a) :
    i + 1 ≤ l.length := by
  have := (List.getElem?_eq_some.1 h).1
  omega

theorem inv_stepMain {K : Nat} {images : List GoString} {s t : State} (hK : K = images.length)
    (hinv : Inv K s) (h : stepMain images s = some t) : Inv K t := by
  have h1 := dlDone_le s.dl
  have h2 := prDone_le s.pr
  have h3 := colDone_le s.col
  obtain ⟨i1, i2, i3, i4, j2, j3, j4, i5, i6, i7, i8, i9, i10, i11, i12, i13, i14, i15, i16, i17, i18,
    i19, k1, k2⟩ := hinv
  unfold stepMain at h
  split at h <;> (try split at h) <;> (try split at h) <;> (try split at h)
  all_goals (first | (cases h; done) | cases h)
  all_goals (try have hlt := getElem?_lt ‹images[_]? = some _›)
  all_goals simp_all [emit, State.panic, State.crash, State.fatal]
  all_goals constructor
  all_goals first
    | (simp [*]; done)
    | (simp [*]; omega)
    | omega
    | (simp_all; done)
    | (simp_all; omega)

theorem grayscale_ne_none (src : Image) : grayscale src ≠ none := by
  unfold grayscale NewGray
  rw [dif_pos src.alloc]
  simp

set_option maxHeartbeats 1000000 in
theorem inv_stepDownloader {K : Nat} {w : World} {s t : State}
    (hinv : Inv K s) (h : stepDownloader w s = some t) : Inv K t := by
  have h1 := dlDone_le s.dl
  have h2 := prDone_le s.pr
  have h3 := colDone_le s.col
  have h4 := MainPc.sent_of_closedUrls K s.main
  obtain ⟨i1, i2, i3, i4, j2, j3, j4, i5, i6, i7, i8, i9, i10, i11, i12, i13, i14, i15, i16, i17, i18,
    i19, k1, k2⟩ := hinv
  unfold stepDownloader at h
  split at h <;> (try split at h) <;> (try split at h)
  all_goals (first | (cases h; done) | cases h)
  all_goals simp_all [emit, State.panic, State.crash, State.fatal]
  all_goals constructor
  all_goals first
    | (simp [*]; done)
    | (simp [*]; omega)
    | omega
    | (simp_all; done)
    | (simp_all; omega)

set_option maxHeartbeats 1000000 in
theorem inv_stepProcessor {K : Nat} {s t : State}
    (hinv : Inv K s) (h : stepProcessor s = some t) : Inv K t := by
  have h1 := dlDone_le s.dl
  have h2 := prDone_le s.pr
  have h3 := colDone_le s.col
  obtain ⟨i1, i2, i3, i4, j2, j3, j4, i5, i6, i7, i8, i9, i10, i11, i12, i13, i14, i15, i16, i17, i18,
    i19, k1, k2⟩ := hinv
  unfold stepProcessor at h
  split at h <;> (try split at h) <;> (try split at h)
  all_goals (first | (cases h; done) | cases h)
  all_goals (try have hg := grayscale_ne_none ‹ImageData›.Data)
  all_goals simp_all [emit, State.panic, State.crash, State.fatal]
  all_goals constructor
  all_goals first
    | (simp [*]; done)
    | (simp [*]; omega)
    | omega
    | (simp_all; done)
    | (simp_all; omega)

set_option maxHeartbeats 1000000 in
theorem inv_stepCollector {K : Nat} {w : World} {s t : State}
    (hinv : Inv K s) (h : stepCollector w s = some t) : Inv K t := by
  have h1 := dlDone_le s.dl
  have h2 := prDone_le s.pr
  have h3 := colDone_le s.col
  obtain ⟨i1, i2, i3, i4, j2, j3, j4, i5, i6, i7, i8, i9, i10, i11, i12, i13, i14, i15, i16, i17, i18,
    i19, k1, k2⟩ := hinv
  unfold stepCollector at h
  split at h <;> (try split at h) <;> (try split at h)
  all_goals (first | (cases h; done) | cases h)
  all_goals simp_all [emit, State.panic, State.crash, State.fatal]
  all_goals constructor
  all_goals first
    | (simp [*]; done)
    | (simp [*]; omega)
    | omega
    | (simp_all; done)
    | (simp_all; omega)

/-! ## Every step uses up some of the work that is left -/

theorem Reachable.inv {w : World} {images : List GoString} {s : State}
    (h : Reachable w images s) : Inv images.length s := by
  induction h with
  | init => exact inv_init _
  | step p _ hstep ih =>
    unfold C2g.step at hstep
    split at hstep
    · cases hstep
    · cases p
      · exact inv_stepMain rfl ih hstep
      · exact inv_stepDownloader ih hstep
      · exact inv_stepProcessor ih hstep
      · exact inv_stepCollector ih hstep

theorem measure_stepMain {K : Nat} {images : List GoString} {s t : State}
    (hK : K = images.length) (hs : s.status = .running) (hinv : Inv K s)
    (h : stepMain images s = some t) : t.measure K < s.measure K := by
  have i2 := hinv.spawnDl
  have i3 := hinv.spawnPr
  have i4 := hinv.spawnCol
  clear hinv
  unfold stepMain at h
  split at h <;> (try split at h) <;> (try split at h) <;> (try split at h)
  all_goals (first | (cases h; done) | cases h)
  all_goals (try have hlt := getElem?_lt ‹images[_]? = some _›)
  all_goals simp_all [emit, State.panic, State.crash, State.fatal, State.measure, urlCost, bufferCost]
  all_goals omega

theorem measure_stepDownloader {K : Nat} {w : World} {s t : State} (hs : s.status = .running)
    (h : stepDownloader w s = some t) : t.measure K < s.measure K := by
  unfold stepDownloader at h
  split at h <;> (try split at h) <;> (try split at h)
  all_goals (first | (cases h; done) | cases h)
  all_goals simp_all [emit, State.panic, State.crash, State.fatal, State.measure, urlCost, bufferCost]
  all_goals omega

theorem measure_stepProcessor {K : Nat} {s t : State} (hs : s.status = .running)
    (h : stepProcessor s = some t) : t.measure K < s.measure K := by
  unfold stepProcessor at h
  split at h <;> (try split at h) <;> (try split at h)
  all_goals (first | (cases h; done) | cases h)
  all_goals simp_all [emit, State.panic, State.crash, State.fatal, State.measure, urlCost, bufferCost]
  all_goals omega

theorem measure_stepCollector {K : Nat} {w : World} {s t : State} (hs : s.status = .running)
    (h : stepCollector w s = some t) : t.measure K < s.measure K := by
  unfold stepCollector at h
  split at h <;> (try split at h) <;> (try split at h)
  all_goals (first | (cases h; done) | cases h)
  all_goals simp_all [emit, State.panic, State.crash, State.fatal, State.measure, urlCost, bufferCost]
  all_goals omega

theorem measure_step {w : World} {images : List GoString} {p : Proc} {s t : State}
    (hinv : Inv images.length s) (h : step w images p s = some t) : t.measure images.length < s.measure images.length := by
  unfold step at h
  split at h
  · cases h
  · rename_i hc
    have hs : s.status = .running := by
      by_contra hne
      exact hc (Or.inl hne)
    cases p
    · exact measure_stepMain rfl hs hinv h
    · exact measure_stepDownloader hs h
    · exact measure_stepProcessor hs h
    · exact measure_stepCollector hs h

/-! ## No reachable state is stuck before the end -/

theorem main_enabled_or_blocked (images : List GoString) (s : State) :
    (∃ t, stepMain images s = some t) ∨
      (∃ i url, s.main = .loop i ∧ images[i]? = some url ∧ s.urlsClosed = false ∧
        ∀ n, s.dl ≠ .recv n) ∨
      (s.main = .wgWait ∧ s.wg ≠ 0) ∨ s.main = .returned := by
  unfold stepMain
  split <;> (try split) <;> (try split) <;> (try split)
  all_goals simp_all

theorem downloader_enabled_or_blocked (w : World) (s : State) :
    (∃ t, stepDownloader w s = some t) ∨ s.dl = .notStarted ∨
      (∃ n, s.dl = .recv n ∧ s.urlsClosed = false) ∨
      (∃ n url img, s.dl = .send n url img ∧ s.downloadedClosed = false ∧
        downloadedCap ≤ s.downloadedBuf.length) ∨
      s.dl = .exited := by
  unfold stepDownloader
  split <;> (try split) <;> (try split)
  all_goals simp_all

theorem processor_enabled_or_blocked (s : State) :
    (∃ t, stepProcessor s = some t) ∨ s.pr = .notStarted ∨
      (s.pr = .recv ∧ s.downloadedBuf = [] ∧ s.downloadedClosed = false) ∨
      (∃ u, s.pr = .send u ∧ s.processedClosed = false ∧ ∀ n, s.col ≠ .recv n) ∨
      s.pr = .exited := by
  unfold stepProcessor
  split <;> (try split) <;> (try split)
  all_goals simp_all

theorem collector_enabled_or_blocked (w : World) (s : State) :
    (∃ t, stepCollector w s = some t) ∨ s.col = .notStarted ∨
      (∃ n, s.col = .recv n ∧ s.processedClosed = false) ∨
      (∃ n u, s.col = .lock n u ∧ s.mu = true) ∨
      s.col = .exited := by
  unfold stepCollector
  split <;> (try split) <;> (try split)
  all_goals simp_all

theorem step_of_running {w : World} {images : List GoString} {s : State} (p : Proc)
    (hs : s.status = .running) (hm : s.main ≠ .returned) :
    step w images p s =
      match p with
      | .main => stepMain images s
      | .downloader => stepDownloader w s
      | .processor => stepProcessor s
      | .collector => stepCollector w s := by
  have hc : ¬ (s.status ≠ .running ∨ s.main = .returned) := by
    intro h
    rcases h with h | h
    · exact h hs
    · exact hm h
  unfold step
  rw [if_neg hc]
  all_goals (cases p <;> rfl)

set_option maxHeartbeats 4000000 in
theorem progress {w : World} {images : List GoString} {s : State}
    (hinv : Inv images.length s) (hs : s.status = .running) (hm : s.main ≠ .returned) :
    ∃ p t, step w images p s = some t := by
  rcases collector_enabled_or_blocked w s with ⟨t, ht⟩ | hc
  · exact ⟨.collector, t, by rw [step_of_running _ hs hm]; exact ht⟩
  rcases processor_enabled_or_blocked s with ⟨t, ht⟩ | hp
  · exact ⟨.processor, t, by rw [step_of_running _ hs hm]; exact ht⟩
  rcases downloader_enabled_or_blocked w s with ⟨t, ht⟩ | hd
  · exact ⟨.downloader, t, by rw [step_of_running _ hs hm]; exact ht⟩
  rcases main_enabled_or_blocked images s with ⟨t, ht⟩ | hmn
  · exact ⟨.main, t, by rw [step_of_running _ hs hm]; exact ht⟩
  exfalso
  have h1 := dlDone_le s.dl
  have h2 := prDone_le s.pr
  have h3 := colDone_le s.col
  obtain ⟨i1, i2, i3, i4, j2, j3, j4, i5, i6, i7, i8, i9, i10, i11, i12, i13, i14, i15, i16, i17, i18,
    i19, k1, k2⟩ := hinv
  rcases hmn with ⟨i, url, hm1, hm2, hm3, hm4⟩ | ⟨hm1, hm2⟩ | hm1
  · rcases hd with hd | ⟨n, hd, hd2⟩ | ⟨n, u, im, hd, hd2, hd3⟩ | hd
    · simp_all
    · simp_all
    · rcases hp with hp | ⟨hp, hp2, hp3⟩ | ⟨u, hp, hp2, hp3⟩ | hp
      · simp_all
      · simp_all [downloadedCap]
      · rcases hc with hc | ⟨n, hc, hc2⟩ | ⟨n, u, hc, hc2⟩ | hc <;> simp_all
      · simp_all [downloadedCap]
    · simp_all
  · rcases hd with hd | ⟨n, hd, hd2⟩ | ⟨n, u, im, hd, hd2, hd3⟩ | hd
    · simp_all
    · simp_all
    · rcases hp with hp | ⟨hp, hp2, hp3⟩ | ⟨u, hp, hp2, hp3⟩ | hp
      · simp_all
      · simp_all [downloadedCap]
      · rcases hc with hc | ⟨n, hc, hc2⟩ | ⟨n, u, hc, hc2⟩ | hc <;> simp_all
      · simp_all [downloadedCap]
    · rcases hp with hp | ⟨hp, hp2, hp3⟩ | ⟨u, hp, hp2, hp3⟩ | hp
      · simp_all
      · simp_all
      · rcases hc with hc | ⟨n, hc, hc2⟩ | ⟨n, u, hc, hc2⟩ | hc <;> simp_all
      · rcases hc with hc | ⟨n, hc, hc2⟩ | ⟨n, u, hc, hc2⟩ | hc <;> simp_all
  · exact hm hm1

/-! ## The log and the units in flight -/

theorem sendUrls_append (tr : List Event) (e : Event) :
    sendUrls (tr ++ [e]) = sendUrls tr ++ e.asSendUrl.toList := by
  unfold sendUrls
  rw [List.filterMap_append]
  cases h : e.asSendUrl <;> simp [List.filterMap, h]

theorem sendDs_append (tr : List Event) (e : Event) :
    sendDs (tr ++ [e]) = sendDs tr ++ e.asSendD.toList := by
  unfold sendDs
  rw [List.filterMap_append]
  cases h : e.asSendD <;> simp [List.filterMap, h]

theorem recvDs_append (tr : List Event) (e : Event) :
    recvDs (tr ++ [e]) = recvDs tr ++ e.asRecvD.toList := by
  unfold recvDs
  rw [List.filterMap_append]
  cases h : e.asRecvD <;> simp [List.filterMap, h]

theorem sendPs_append (tr : List Event) (e : Event) :
    sendPs (tr ++ [e]) = sendPs tr ++ e.asSendP.toList := by
  unfold sendPs
  rw [List.filterMap_append]
  cases h : e.asSendP <;> simp [List.filterMap, h]

theorem stores_append (tr : List Event) (e : Event) :
    stores (tr ++ [e]) = stores tr ++ e.asStore.toList := by
  unfold stores
  rw [List.filterMap_append]
  cases h : e.asStore <;> simp [List.filterMap, h]

theorem creates_append (p : Proc) (tr : List Event) (e : Event) :
    creates p (tr ++ [e]) = creates p tr ++ (e.asCreate p).toList := by
  unfold creates
  rw [List.filterMap_append]
  cases h : e.asCreate p <;> simp [List.filterMap, h]

theorem closers_append (c : Chan) (tr : List Event) (e : Event) :
    closers c (tr ++ [e]) = closers c tr ++ (e.asClose c).toList := by
  unfold closers
  rw [List.filterMap_append]
  cases h : e.asClose c <;> simp [List.filterMap, h]

theorem doneBy_append (tr : List Event) (e : Event) :
    doneBy (tr ++ [e]) = doneBy tr ++ e.asDone.toList := by
  unfold doneBy
  rw [List.filterMap_append]
  cases h : e.asDone <;> simp [List.filterMap, h]

theorem adds_append (tr : List Event) (e : Event) :
    adds (tr ++ [e]) = adds tr ++ e.asAdd.toList := by
  unfold adds
  rw [List.filterMap_append]
  cases h : e.asAdd <;> simp [List.filterMap, h]

theorem prints_append (tr : List Event) (e : Event) :
    prints (tr ++ [e]) = prints tr ++ e.asPrint.toList := by
  unfold prints
  rw [List.filterMap_append]
  cases h : e.asPrint <;> simp [List.filterMap, h]

theorem lastBy_append (p : Proc) (tr : List Event) (e : Event) :
    lastBy p (tr ++ [e]) = if p ∈ e.actors then some e else lastBy p tr := by
  unfold lastBy
  rw [List.filter_append]
  by_cases h : p ∈ e.actors
  · simp [h, List.filter]
  · simp [h, List.filter]

theorem collect_append (m : Registry) (units : List ImageData) (u : ImageData) :
    collect m (units ++ [u]) = mapInsert u.URL u.Data (collect m units) := by
  unfold collect
  rw [List.foldl_append]
  rfl

theorem grayscale_toImage {src : Image} {g : GrayImage} (h : grayscale src = some g) :
    g.toImage = grayImage src := by
  rw [grayscale_eq] at h
  cases h
  rfl

theorem drop_of_getElem? {α : Type} {l : List α} {i : Nat} {a : α} (h : l[i]? = some a) :
    l.drop i = a :: l.drop (i + 1) := by
  obtain ⟨hi, ha⟩ := List.getElem?_eq_some.1 h
  rw [List.drop_eq_getElem_cons hi, ha]

theorem take_of_getElem? {α : Type} {l : List α} {i : Nat} {a : α} (h : l[i]? = some a) :
    l.take (i + 1) = l.take i ++ [a] := by
  rw [List.take_succ, h]
  rfl

theorem length_le_of_getElem? {α : Type} {l : List α} {i : Nat} (h : l[i]? = none) :
    l.length ≤ i := by
  simpa using h

theorem flow_init (w : World) (images : List GoString) : Flow w images State.init := by
  constructor <;>
    simp [State.init, sendUrls, sendDs, recvDs, sendPs, stores, creates, collect]

set_option maxHeartbeats 1000000 in
theorem flow_stepMain {w : World} {images : List GoString} {s t : State}
    (hinv : Inv images.length s) (hflow : Flow w images s)
    (h : stepMain images s = some t) : Flow w images t := by
  have i10 := hinv.dlCount
  have i8 := hinv.sentLe
  have i2 := hinv.spawnDl
  have i3 := hinv.spawnPr
  have i4 := hinv.spawnCol
  clear hinv
  unfold stepMain at h
  split at h <;> (try split at h) <;> (try split at h) <;> (try split at h)
  all_goals (first | (cases h; done) | cases h)
  all_goals (try have hdrop := drop_of_getElem? ‹images[_]? = some _›)
  all_goals (try have htake := take_of_getElem? ‹images[_]? = some _›)
  all_goals simp_all [emit, State.panic, State.crash, State.fatal]
  all_goals (obtain ⟨f1, f2, f3, f4, f5, f6, f7, f8⟩ := hflow)
  all_goals (generalize hD : downloads w 0 images = D at f2)
  all_goals exact ⟨
    (by clear f2 f3 f4 f5 f6 f7 f8; clear hD; simp_all [emit, State.panic, State.crash, State.fatal, sendUrls_append, sendDs_append,
      recvDs_append, sendPs_append, stores_append, creates_append, Event.asSendUrl, Event.asSendD,
      Event.asRecvD, Event.asSendP, Event.asStore, Event.asCreate, collect_append, downloads,
      download, fetchDecode, Decoded.toOption, ImageData.gray, List.take_of_length_le, List.drop_of_length_le]),
    (by clear f1 f3 f4 f5 f6 f7 f8; rw [hD]; clear hD; simp_all [emit, State.panic, State.crash, State.fatal, sendUrls_append, sendDs_append,
      recvDs_append, sendPs_append, stores_append, creates_append, Event.asSendUrl, Event.asSendD,
      Event.asRecvD, Event.asSendP, Event.asStore, Event.asCreate, collect_append, downloads,
      download, fetchDecode, Decoded.toOption, ImageData.gray, List.take_of_length_le, List.drop_of_length_le]),
    (by clear f1 f2 f4 f5 f6 f7 f8; clear hD; simp_all [emit, State.panic, State.crash, State.fatal, sendUrls_append, sendDs_append,
      recvDs_append, sendPs_append, stores_append, creates_append, Event.asSendUrl, Event.asSendD,
      Event.asRecvD, Event.asSendP, Event.asStore, Event.asCreate, collect_append, downloads,
      download, fetchDecode, Decoded.toOption, ImageData.gray, List.take_of_length_le, List.drop_of_length_le]),
    (by clear f1 f2 f3 f5 f6 f7 f8; clear hD; simp_all [emit, State.panic, State.crash, State.fatal, sendUrls_append, sendDs_append,
      recvDs_append, sendPs_append, stores_append, creates_append, Event.asSendUrl, Event.asSendD,
      Event.asRecvD, Event.asSendP, Event.asStore, Event.asCreate, collect_append, downloads,
      download, fetchDecode, Decoded.toOption, ImageData.gray, List.take_of_length_le, List.drop_of_length_le]),
    (by clear f1 f2 f3 f4 f6 f7 f8; clear hD; simp_all [emit, State.panic, State.crash, State.fatal, sendUrls_append, sendDs_append,
      recvDs_append, sendPs_append, stores_append, creates_append, Event.asSendUrl, Event.asSendD,
      Event.asRecvD, Event.asSendP, Event.asStore, Event.asCreate, collect_append, downloads,
      download, fetchDecode, Decoded.toOption, ImageData.gray, List.take_of_length_le, List.drop_of_length_le]),
    (by clear f1 f2 f3 f4 f5 f7 f8; clear hD; simp_all [emit, State.panic, State.crash, State.fatal, sendUrls_append, sendDs_append,
      recvDs_append, sendPs_append, stores_append, creates_append, Event.asSendUrl, Event.asSendD,
      Event.asRecvD, Event.asSendP, Event.asStore, Event.asCreate, collect_append, downloads,
      download, fetchDecode, Decoded.toOption, ImageData.gray, List.take_of_length_le, List.drop_of_length_le]),
    (by clear f1 f2 f3 f4 f5 f6 f8; clear hD; simp_all [emit, State.panic, State.crash, State.fatal, sendUrls_append, sendDs_append,
      recvDs_append, sendPs_append, stores_append, creates_append, Event.asSendUrl, Event.asSendD,
      Event.asRecvD, Event.asSendP, Event.asStore, Event.asCreate, collect_append, downloads,
      download, fetchDecode, Decoded.toOption, ImageData.gray, List.take_of_length_le, List.drop_of_length_le]),
    (by clear f1 f2 f3 f4 f5 f6 f7; clear hD; simp_all [emit, State.panic, State.crash, State.fatal, sendUrls_append, sendDs_append,
      recvDs_append, sendPs_append, stores_append, creates_append, Event.asSendUrl, Event.asSendD,
      Event.asRecvD, Event.asSendP, Event.asStore, Event.asCreate, collect_append, downloads,
      download, fetchDecode, Decoded.toOption, ImageData.gray, List.take_of_length_le, List.drop_of_length_le])⟩

set_option maxHeartbeats 1000000 in
theorem flow_stepDownloader {w : World} {images : List GoString} {s t : State}
    (hinv : Inv images.length s) (hflow : Flow w images s)
    (h : stepDownloader w s = some t) : Flow w images t := by
  have i2 := hinv.spawnDl
  have i3 := hinv.spawnPr
  have i4 := hinv.spawnCol
  have i11 := hinv.dlClosed
  clear hinv
  unfold stepDownloader at h
  split at h <;> (try split at h) <;> (try split at h)
  all_goals (first | (cases h; done) | cases h)
  all_goals simp_all [emit, State.panic, State.crash, State.fatal]
  all_goals (obtain ⟨f1, f2, f3, f4, f5, f6, f7, f8⟩ := hflow)
  all_goals (generalize hD : downloads w 0 images = D at f2)
  all_goals exact ⟨
    (by clear f2 f3 f4 f5 f6 f7 f8; clear hD; simp_all [emit, State.panic, State.crash, State.fatal, sendUrls_append, sendDs_append,
      recvDs_append, sendPs_append, stores_append, creates_append, Event.asSendUrl, Event.asSendD,
      Event.asRecvD, Event.asSendP, Event.asStore, Event.asCreate, collect_append, downloads,
      download, fetchDecode, Decoded.toOption, ImageData.gray, List.take_of_length_le, List.drop_of_length_le]),
    (by clear f1 f3 f4 f5 f6 f7 f8; rw [hD]; clear hD; simp_all [emit, State.panic, State.crash, State.fatal, sendUrls_append, sendDs_append,
      recvDs_append, sendPs_append, stores_append, creates_append, Event.asSendUrl, Event.asSendD,
      Event.asRecvD, Event.asSendP, Event.asStore, Event.asCreate, collect_append, downloads,
      download, fetchDecode, Decoded.toOption, ImageData.gray, List.take_of_length_le, List.drop_of_length_le]),
    (by clear f1 f2 f4 f5 f6 f7 f8; clear hD; simp_all [emit, State.panic, State.crash, State.fatal, sendUrls_append, sendDs_append,
      recvDs_append, sendPs_append, stores_append, creates_append, Event.asSendUrl, Event.asSendD,
      Event.asRecvD, Event.asSendP, Event.asStore, Event.asCreate, collect_append, downloads,
      download, fetchDecode, Decoded.toOption, ImageData.gray, List.take_of_length_le, List.drop_of_length_le]),
    (by clear f1 f2 f3 f5 f6 f7 f8; clear hD; simp_all [emit, State.panic, State.crash, State.fatal, sendUrls_append, sendDs_append,
      recvDs_append, sendPs_append, stores_append, creates_append, Event.asSendUrl, Event.asSendD,
      Event.asRecvD, Event.asSendP, Event.asStore, Event.asCreate, collect_append, downloads,
      download, fetchDecode, Decoded.toOption, ImageData.gray, List.take_of_length_le, List.drop_of_length_le]),
    (by clear f1 f2 f3 f4 f6 f7 f8; clear hD; simp_all [emit, State.panic, State.crash, State.fatal, sendUrls_append, sendDs_append,
      recvDs_append, sendPs_append, stores_append, creates_append, Event.asSendUrl, Event.asSendD,
      Event.asRecvD, Event.asSendP, Event.asStore, Event.asCreate, collect_append, downloads,
      download, fetchDecode, Decoded.toOption, ImageData.gray, List.take_of_length_le, List.drop_of_length_le]),
    (by clear f1 f2 f3 f4 f5 f7 f8; clear hD; simp_all [emit, State.panic, State.crash, State.fatal, sendUrls_append, sendDs_append,
      recvDs_append, sendPs_append, stores_append, creates_append, Event.asSendUrl, Event.asSendD,
      Event.asRecvD, Event.asSendP, Event.asStore, Event.asCreate, collect_append, downloads,
      download, fetchDecode, Decoded.toOption, ImageData.gray, List.take_of_length_le, List.drop_of_length_le]),
    (by clear f1 f2 f3 f4 f5 f6 f8; clear hD; simp_all [emit, State.panic, State.crash, State.fatal, sendUrls_append, sendDs_append,
      recvDs_append, sendPs_append, stores_append, creates_append, Event.asSendUrl, Event.asSendD,
      Event.asRecvD, Event.asSendP, Event.asStore, Event.asCreate, collect_append, downloads,
      download, fetchDecode, Decoded.toOption, ImageData.gray, List.take_of_length_le, List.drop_of_length_le]),
    (by clear f1 f2 f3 f4 f5 f6 f7; clear hD; simp_all [emit, State.panic, State.crash, State.fatal, sendUrls_append, sendDs_append,
      recvDs_append, sendPs_append, stores_append, creates_append, Event.asSendUrl, Event.asSendD,
      Event.asRecvD, Event.asSendP, Event.asStore, Event.asCreate, collect_append, downloads,
      download, fetchDecode, Decoded.toOption, ImageData.gray, List.take_of_length_le, List.drop_of_length_le])⟩

set_option maxHeartbeats 1000000 in
theorem flow_stepProcessor {w : World} {images : List GoString} {s t : State}
    (hinv : Inv images.length s) (hflow : Flow w images s)
    (h : stepProcessor s = some t) : Flow w images t := by
  have i2 := hinv.spawnDl
  have i3 := hinv.spawnPr
  have i4 := hinv.spawnCol
  have i13 := hinv.prClosed
  clear hinv
  unfold stepProcessor at h
  split at h <;> (try split at h) <;> (try split at h)
  all_goals (first | (cases h; done) | cases h)
  all_goals (try have hg := grayscale_toImage ‹grayscale _ = some _›)
  all_goals (try have hne := grayscale_ne_none ‹ImageData›.Data)
  all_goals simp_all [emit, State.panic, State.crash, State.fatal]
  all_goals (obtain ⟨f1, f2, f3, f4, f5, f6, f7, f8⟩ := hflow)
  all_goals (generalize hD : downloads w 0 images = D at f2)
  all_goals exact ⟨
    (by clear f2 f3 f4 f5 f6 f7 f8; clear hD; simp_all [emit, State.panic, State.crash, State.fatal, sendUrls_append, sendDs_append,
      recvDs_append, sendPs_append, stores_append, creates_append, Event.asSendUrl, Event.asSendD,
      Event.asRecvD, Event.asSendP, Event.asStore, Event.asCreate, collect_append, downloads,
      download, fetchDecode, Decoded.toOption, ImageData.gray, List.take_of_length_le, List.drop_of_length_le]),
    (by clear f1 f3 f4 f5 f6 f7 f8; rw [hD]; clear hD; simp_all [emit, State.panic, State.crash, State.fatal, sendUrls_append, sendDs_append,
      recvDs_append, sendPs_append, stores_append, creates_append, Event.asSendUrl, Event.asSendD,
      Event.asRecvD, Event.asSendP, Event.asStore, Event.asCreate, collect_append, downloads,
      download, fetchDecode, Decoded.toOption, ImageData.gray, List.take_of_length_le, List.drop_of_length_le]),
    (by clear f1 f2 f4 f5 f6 f7 f8; clear hD; simp_all [emit, State.panic, State.crash, State.fatal, sendUrls_append, sendDs_append,
      recvDs_append, sendPs_append, stores_append, creates_append, Event.asSendUrl, Event.asSendD,
      Event.asRecvD, Event.asSendP, Event.asStore, Event.asCreate, collect_append, downloads,
      download, fetchDecode, Decoded.toOption, ImageData.gray, List.take_of_length_le, List.drop_of_length_le]),
    (by clear f1 f2 f3 f5 f6 f7 f8; clear hD; simp_all [emit, State.panic, State.crash, State.fatal, sendUrls_append, sendDs_append,
      recvDs_append, sendPs_append, stores_append, creates_append, Event.asSendUrl, Event.asSendD,
      Event.asRecvD, Event.asSendP, Event.asStore, Event.asCreate, collect_append, downloads,
      download, fetchDecode, Decoded.toOption, ImageData.gray, List.take_of_length_le, List.drop_of_length_le]),
    (by clear f1 f2 f3 f4 f6 f7 f8; clear hD; simp_all [emit, State.panic, State.crash, State.fatal, sendUrls_append, sendDs_append,
      recvDs_append, sendPs_append, stores_append, creates_append, Event.asSendUrl, Event.asSendD,
      Event.asRecvD, Event.asSendP, Event.asStore, Event.asCreate, collect_append, downloads,
      download, fetchDecode, Decoded.toOption, ImageData.gray, List.take_of_length_le, List.drop_of_length_le]),
    (by clear f1 f2 f3 f4 f5 f7 f8; clear hD; simp_all [emit, State.panic, State.crash, State.fatal, sendUrls_append, sendDs_append,
      recvDs_append, sendPs_append, stores_append, creates_append, Event.asSendUrl, Event.asSendD,
      Event.asRecvD, Event.asSendP, Event.asStore, Event.asCreate, collect_append, downloads,
      download, fetchDecode, Decoded.toOption, ImageData.gray, List.take_of_length_le, List.drop_of_length_le]),
    (by clear f1 f2 f3 f4 f5 f6 f8; clear hD; simp_all [emit, State.panic, State.crash, State.fatal, sendUrls_append, sendDs_append,
      recvDs_append, sendPs_append, stores_append, creates_append, Event.asSendUrl, Event.asSendD,
      Event.asRecvD, Event.asSendP, Event.asStore, Event.asCreate, collect_append, downloads,
      download, fetchDecode, Decoded.toOption, ImageData.gray, List.take_of_length_le, List.drop_of_length_le]),
    (by clear f1 f2 f3 f4 f5 f6 f7; clear hD; simp_all [emit, State.panic, State.crash, State.fatal, sendUrls_append, sendDs_append,
      recvDs_append, sendPs_append, stores_append, creates_append, Event.asSendUrl, Event.asSendD,
      Event.asRecvD, Event.asSendP, Event.asStore, Event.asCreate, collect_append, downloads,
      download, fetchDecode, Decoded.toOption, ImageData.gray, List.take_of_length_le, List.drop_of_length_le])⟩

set_option maxHeartbeats 1000000 in
theorem flow_stepCollector {w : World} {images : List GoString} {s t : State}
    (hinv : Inv images.length s) (hflow : Flow w images s)
    (h : stepCollector w s = some t) : Flow w images t := by
  have i2 := hinv.spawnDl
  have i3 := hinv.spawnPr
  have i4 := hinv.spawnCol
  clear hinv
  unfold stepCollector at h
  split at h <;> (try split at h) <;> (try split at h)
  all_goals (first | (cases h; done) | cases h)
  all_goals simp_all [emit, State.panic, State.crash, State.fatal]
  all_goals (obtain ⟨f1, f2, f3, f4, f5, f6, f7, f8⟩ := hflow)
  all_goals (generalize hD : downloads w 0 images = D at f2)
  all_goals exact ⟨
    (by clear f2 f3 f4 f5 f6 f7 f8; clear hD; simp_all [emit, State.panic, State.crash, State.fatal, sendUrls_append, sendDs_append,
      recvDs_append, sendPs_append, stores_append, creates_append, Event.asSendUrl, Event.asSendD,
      Event.asRecvD, Event.asSendP, Event.asStore, Event.asCreate, collect_append, downloads,
      download, fetchDecode, Decoded.toOption, ImageData.gray, List.take_of_length_le, List.drop_of_length_le]),
    (by clear f1 f3 f4 f5 f6 f7 f8; rw [hD]; clear hD; simp_all [emit, State.panic, State.crash, State.fatal, sendUrls_append, sendDs_append,
      recvDs_append, sendPs_append, stores_append, creates_append, Event.asSendUrl, Event.asSendD,
      Event.asRecvD, Event.asSendP, Event.asStore, Event.asCreate, collect_append, downloads,
      download, fetchDecode, Decoded.toOption, ImageData.gray, List.take_of_length_le, List.drop_of_length_le]),
    (by clear f1 f2 f4 f5 f6 f7 f8; clear hD; simp_all [emit, State.panic, State.crash, State.fatal, sendUrls_append, sendDs_append,
      recvDs_append, sendPs_append, stores_append, creates_append, Event.asSendUrl, Event.asSendD,
      Event.asRecvD, Event.asSendP, Event.asStore, Event.asCreate, collect_append, downloads,
      download, fetchDecode, Decoded.toOption, ImageData.gray, List.take_of_length_le, List.drop_of_length_le]),
    (by clear f1 f2 f3 f5 f6 f7 f8; clear hD; simp_all [emit, State.panic, State.crash, State.fatal, sendUrls_append, sendDs_append,
      recvDs_append, sendPs_append, stores_append, creates_append, Event.asSendUrl, Event.asSendD,
      Event.asRecvD, Event.asSendP, Event.asStore, Event.asCreate, collect_append, downloads,
      download, fetchDecode, Decoded.toOption, ImageData.gray, List.take_of_length_le, List.drop_of_length_le]),
    (by clear f1 f2 f3 f4 f6 f7 f8; clear hD; simp_all [emit, State.panic, State.crash, State.fatal, sendUrls_append, sendDs_append,
      recvDs_append, sendPs_append, stores_append, creates_append, Event.asSendUrl, Event.asSendD,
      Event.asRecvD, Event.asSendP, Event.asStore, Event.asCreate, collect_append, downloads,
      download, fetchDecode, Decoded.toOption, ImageData.gray, List.take_of_length_le, List.drop_of_length_le]),
    (by clear f1 f2 f3 f4 f5 f7 f8; clear hD; simp_all [emit, State.panic, State.crash, State.fatal, sendUrls_append, sendDs_append,
      recvDs_append, sendPs_append, stores_append, creates_append, Event.asSendUrl, Event.asSendD,
      Event.asRecvD, Event.asSendP, Event.asStore, Event.asCreate, collect_append, downloads,
      download, fetchDecode, Decoded.toOption, ImageData.gray, List.take_of_length_le, List.drop_of_length_le]),
    (by clear f1 f2 f3 f4 f5 f6 f8; clear hD; simp_all [emit, State.panic, State.crash, State.fatal, sendUrls_append, sendDs_append,
      recvDs_append, sendPs_append, stores_append, creates_append, Event.asSendUrl, Event.asSendD,
      Event.asRecvD, Event.asSendP, Event.asStore, Event.asCreate, collect_append, downloads,
      download, fetchDecode, Decoded.toOption, ImageData.gray, List.take_of_length_le, List.drop_of_length_le]),
    (by clear f1 f2 f3 f4 f5 f6 f7; clear hD; simp_all [emit, State.panic, State.crash, State.fatal, sendUrls_append, sendDs_append,
      recvDs_append, sendPs_append, stores_append, creates_append, Event.asSendUrl, Event.asSendD,
      Event.asRecvD, Event.asSendP, Event.asStore, Event.asCreate, collect_append, downloads,
      download, fetchDecode, Decoded.toOption, ImageData.gray, List.take_of_length_le, List.drop_of_length_le])⟩

theorem Reachable.flow {w : World} {images : List GoString} {s : State}
    (h : Reachable w images s) : Flow w images s := by
  induction h with
  | init => exact flow_init w images
  | step p hs hstep ih =>
    have hinv := hs.inv
    unfold C2g.step at hstep
    split at hstep
    · cases hstep
    · cases p
      · exact flow_stepMain hinv ih hstep
      · exact flow_stepDownloader hinv ih hstep
      · exact flow_stepProcessor hinv ih hstep
      · exact flow_stepCollector hinv ih hstep

/-! ## The log invariant is preserved by every step -/

theorem hist_init : Hist State.init := by
  constructor <;> simp [State.init, closers, doneBy, adds, lastBy, prints]

theorem Inv.wg_pos {K : Nat} {s : State} (hinv : Inv K s) :
    (s.dl.started = true → s.dl.done = 0 → s.wg ≠ 0) ∧
      (s.pr.started = true → s.pr.done = 0 → s.wg ≠ 0) ∧
      (s.col.started = true → s.col.done = 0 → s.wg ≠ 0) := by
  have h1 := dlDone_le s.dl
  have h2 := prDone_le s.pr
  have h3 := colDone_le s.col
  have hw := hinv.wgEq
  refine ⟨fun hs h0 => ?_, fun hs h0 => ?_, fun hs h0 => ?_⟩
  · have := hinv.addedDl hs
    omega
  · have := hinv.addedPr hs
    omega
  · have := hinv.addedCol hs
    omega

set_option maxHeartbeats 1000000 in
theorem hist_stepMain {images : List GoString} {s t : State}
    (hinv : Inv images.length s) (hhist : Hist s) (hm : s.main ≠ .returned)
    (h : stepMain images s = some t) : Hist t := by
  have i2 := hinv.spawnDl
  have i3 := hinv.spawnPr
  have i4 := hinv.spawnCol
  have i11 := hinv.dlClosed
  clear hinv
  unfold stepMain at h
  split at h <;> (try split at h) <;> (try split at h) <;> (try split at h)
  all_goals (first | (cases h; done) | cases h)
  all_goals simp_all [emit, State.panic, State.crash, State.fatal]
  all_goals (obtain ⟨h1, h2, h3, h4, h5, h6, h7, h8, h9, h10, h11, h12, h13, h14⟩ := hhist)
  all_goals exact ⟨
    (by clear h2 h3 h4 h5 h6 h7 h8 h9 h10 h11 h12 h13 h14; simp_all [emit, State.panic, State.crash, State.fatal, closers_append, doneBy_append, adds_append,
      lastBy_append, prints_append, Event.asClose, Event.asDone, Event.asAdd, Event.asPrint,
      Event.actors]),
    (by clear h1 h3 h4 h5 h6 h7 h8 h9 h10 h11 h12 h13 h14; simp_all [emit, State.panic, State.crash, State.fatal, closers_append, doneBy_append, adds_append,
      lastBy_append, prints_append, Event.asClose, Event.asDone, Event.asAdd, Event.asPrint,
      Event.actors]),
    (by clear h1 h2 h4 h5 h6 h7 h8 h9 h10 h11 h12 h13 h14; simp_all [emit, State.panic, State.crash, State.fatal, closers_append, doneBy_append, adds_append,
      lastBy_append, prints_append, Event.asClose, Event.asDone, Event.asAdd, Event.asPrint,
      Event.actors]),
    (by clear h1 h2 h3 h5 h6 h7 h8 h9 h10 h11 h12 h13 h14; simp_all [emit, State.panic, State.crash, State.fatal, closers_append, doneBy_append, adds_append,
      lastBy_append, prints_append, Event.asClose, Event.asDone, Event.asAdd, Event.asPrint,
      Event.actors]),
    (by clear h1 h2 h3 h4 h6 h7 h8 h9 h10 h11 h12 h13 h14; simp_all [emit, State.panic, State.crash, State.fatal, closers_append, doneBy_append, adds_append,
      lastBy_append, prints_append, Event.asClose, Event.asDone, Event.asAdd, Event.asPrint,
      Event.actors]),
    (by clear h1 h2 h3 h4 h5 h7 h8 h9 h10 h11 h12 h13 h14; simp_all [emit, State.panic, State.crash, State.fatal, closers_append, doneBy_append, adds_append,
      lastBy_append, prints_append, Event.asClose, Event.asDone, Event.asAdd, Event.asPrint,
      Event.actors]),
    (by clear h1 h2 h3 h4 h5 h6 h8 h9 h10 h11 h12 h13 h14; simp_all [emit, State.panic, State.crash, State.fatal, closers_append, doneBy_append, adds_append,
      lastBy_append, prints_append, Event.asClose, Event.asDone, Event.asAdd, Event.asPrint,
      Event.actors]),
    (by clear h1 h2 h3 h4 h5 h6 h7 h9 h10 h11 h12 h13 h14; simp_all [emit, State.panic, State.crash, State.fatal, closers_append, doneBy_append, adds_append,
      lastBy_append, prints_append, Event.asClose, Event.asDone, Event.asAdd, Event.asPrint,
      Event.actors]),
    (by
      clear h1 h2 h3 h4 h5 h6 h7 h8 h10 h11 h12 h13 h14
      first
      | (simp_all [emit, State.panic, State.crash, State.fatal, closers_append, doneBy_append, adds_append,
      lastBy_append, prints_append, Event.asClose, Event.asDone, Event.asAdd, Event.asPrint,
      Event.actors]; done)
      | (simpa [emit, State.panic, State.crash, State.fatal, closers_append, doneBy_append, adds_append,
      lastBy_append, prints_append, Event.asClose, Event.asDone, Event.asAdd, Event.asPrint,
      Event.actors] using h9)),
    (by
      clear h1 h2 h3 h4 h5 h6 h7 h8 h9 h11 h12 h13 h14
      first
      | (simp_all [emit, State.panic, State.crash, State.fatal, closers_append, doneBy_append, adds_append,
      lastBy_append, prints_append, Event.asClose, Event.asDone, Event.asAdd, Event.asPrint,
      Event.actors]; done)
      | (simpa [emit, State.panic, State.crash, State.fatal, closers_append, doneBy_append, adds_append,
      lastBy_append, prints_append, Event.asClose, Event.asDone, Event.asAdd, Event.asPrint,
      Event.actors] using h10)),
    (by clear h1 h2 h3 h4 h5 h6 h7 h8 h9 h10 h12 h13 h14; simp_all [emit, State.panic, State.crash, State.fatal, closers_append, doneBy_append, adds_append,
      lastBy_append, prints_append, Event.asClose, Event.asDone, Event.asAdd, Event.asPrint,
      Event.actors]),
    (by clear h1 h2 h3 h4 h5 h6 h7 h8 h9 h10 h11 h13 h14; simp_all [emit, State.panic, State.crash, State.fatal, closers_append, doneBy_append, adds_append,
      lastBy_append, prints_append, Event.asClose, Event.asDone, Event.asAdd, Event.asPrint,
      Event.actors]),
    (by clear h1 h2 h3 h4 h5 h6 h7 h8 h9 h10 h11 h12 h14; simp_all [emit, State.panic, State.crash, State.fatal, closers_append, doneBy_append, adds_append,
      lastBy_append, prints_append, Event.asClose, Event.asDone, Event.asAdd, Event.asPrint,
      Event.actors]),
    (by clear h1 h2 h3 h4 h5 h6 h7 h8 h9 h10 h11 h12 h13; simp_all [emit, State.panic, State.crash, State.fatal, closers_append, doneBy_append, adds_append,
      lastBy_append, prints_append, Event.asClose, Event.asDone, Event.asAdd, Event.asPrint,
      Event.actors])⟩

set_option maxHeartbeats 1000000 in
theorem hist_stepDownloader {w : World} {images : List GoString} {s t : State}
    (hinv : Inv images.length s) (hhist : Hist s) (hm : s.main ≠ .returned)
    (h : stepDownloader w s = some t) : Hist t := by
  have i2 := hinv.spawnDl
  have i3 := hinv.spawnPr
  have i4 := hinv.spawnCol
  have i11 := hinv.dlClosed
  have iw := hinv.wg_pos.1
  clear hinv
  unfold stepDownloader at h
  split at h <;> (try split at h) <;> (try split at h)
  all_goals (first | (cases h; done) | cases h)
  all_goals simp_all [emit, State.panic, State.crash, State.fatal]
  all_goals (obtain ⟨h1, h2, h3, h4, h5, h6, h7, h8, h9, h10, h11, h12, h13, h14⟩ := hhist)
  all_goals exact ⟨
    (by clear h2 h3 h4 h5 h6 h7 h8 h9 h10 h11 h12 h13 h14; simp_all [emit, State.panic, State.crash, State.fatal, closers_append, doneBy_append, adds_append,
      lastBy_append, prints_append, Event.asClose, Event.asDone, Event.asAdd, Event.asPrint,
      Event.actors]),
    (by clear h1 h3 h4 h5 h6 h7 h8 h9 h10 h11 h12 h13 h14; simp_all [emit, State.panic, State.crash, State.fatal, closers_append, doneBy_append, adds_append,
      lastBy_append, prints_append, Event.asClose, Event.asDone, Event.asAdd, Event.asPrint,
      Event.actors]),
    (by clear h1 h2 h4 h5 h6 h7 h8 h9 h10 h11 h12 h13 h14; simp_all [emit, State.panic, State.crash, State.fatal, closers_append, doneBy_append, adds_append,
      lastBy_append, prints_append, Event.asClose, Event.asDone, Event.asAdd, Event.asPrint,
      Event.actors]),
    (by clear h1 h2 h3 h5 h6 h7 h8 h9 h10 h11 h12 h13 h14; simp_all [emit, State.panic, State.crash, State.fatal, closers_append, doneBy_append, adds_append,
      lastBy_append, prints_append, Event.asClose, Event.asDone, Event.asAdd, Event.asPrint,
      Event.actors]),
    (by clear h1 h2 h3 h4 h6 h7 h8 h9 h10 h11 h12 h13 h14; simp_all [emit, State.panic, State.crash, State.fatal, closers_append, doneBy_append, adds_append,
      lastBy_append, prints_append, Event.asClose, Event.asDone, Event.asAdd, Event.asPrint,
      Event.actors]),
    (by clear h1 h2 h3 h4 h5 h7 h8 h9 h10 h11 h12 h13 h14; simp_all [emit, State.panic, State.crash, State.fatal, closers_append, doneBy_append, adds_append,
      lastBy_append, prints_append, Event.asClose, Event.asDone, Event.asAdd, Event.asPrint,
      Event.actors]),
    (by clear h1 h2 h3 h4 h5 h6 h8 h9 h10 h11 h12 h13 h14; simp_all [emit, State.panic, State.crash, State.fatal, closers_append, doneBy_append, adds_append,
      lastBy_append, prints_append, Event.asClose, Event.asDone, Event.asAdd, Event.asPrint,
      Event.actors]),
    (by clear h1 h2 h3 h4 h5 h6 h7 h9 h10 h11 h12 h13 h14; simp_all [emit, State.panic, State.crash, State.fatal, closers_append, doneBy_append, adds_append,
      lastBy_append, prints_append, Event.asClose, Event.asDone, Event.asAdd, Event.asPrint,
      Event.actors]),
    (by
      clear h1 h2 h3 h4 h5 h6 h7 h8 h10 h11 h12 h13 h14
      first
      | (simp_all [emit, State.panic, State.crash, State.fatal, closers_append, doneBy_append, adds_append,
      lastBy_append, prints_append, Event.asClose, Event.asDone, Event.asAdd, Event.asPrint,
      Event.actors]; done)
      | (simpa [emit, State.panic, State.crash, State.fatal, closers_append, doneBy_append, adds_append,
      lastBy_append, prints_append, Event.asClose, Event.asDone, Event.asAdd, Event.asPrint,
      Event.actors] using h9)),
    (by
      clear h1 h2 h3 h4 h5 h6 h7 h8 h9 h11 h12 h13 h14
      first
      | (simp_all [emit, State.panic, State.crash, State.fatal, closers_append, doneBy_append, adds_append,
      lastBy_append, prints_append, Event.asClose, Event.asDone, Event.asAdd, Event.asPrint,
      Event.actors]; done)
      | (simpa [emit, State.panic, State.crash, State.fatal, closers_append, doneBy_append, adds_append,
      lastBy_append, prints_append, Event.asClose, Event.asDone, Event.asAdd, Event.asPrint,
      Event.actors] using h10)),
    (by clear h1 h2 h3 h4 h5 h6 h7 h8 h9 h10 h12 h13 h14; simp_all [emit, State.panic, State.crash, State.fatal, closers_append, doneBy_append, adds_append,
      lastBy_append, prints_append, Event.asClose, Event.asDone, Event.asAdd, Event.asPrint,
      Event.actors]),
    (by clear h1 h2 h3 h4 h5 h6 h7 h8 h9 h10 h11 h13 h14; simp_all [emit, State.panic, State.crash, State.fatal, closers_append, doneBy_append, adds_append,
      lastBy_append, prints_append, Event.asClose, Event.asDone, Event.asAdd, Event.asPrint,
      Event.actors]),
    (by clear h1 h2 h3 h4 h5 h6 h7 h8 h9 h10 h11 h12 h14; simp_all [emit, State.panic, State.crash, State.fatal, closers_append, doneBy_append, adds_append,
      lastBy_append, prints_append, Event.asClose, Event.asDone, Event.asAdd, Event.asPrint,
      Event.actors]),
    (by clear h1 h2 h3 h4 h5 h6 h7 h8 h9 h10 h11 h12 h13; simp_all [emit, State.panic, State.crash, State.fatal, closers_append, doneBy_append, adds_append,
      lastBy_append, prints_append, Event.asClose, Event.asDone, Event.asAdd, Event.asPrint,
      Event.actors])⟩

set_option maxHeartbeats 1000000 in
theorem hist_stepProcessor {images : List GoString} {s t : State}
    (hinv : Inv images.length s) (hhist : Hist s) (hm : s.main ≠ .returned)
    (h : stepProcessor s = some t) : Hist t := by
  have i2 := hinv.spawnDl
  have i3 := hinv.spawnPr
  have i4 := hinv.spawnCol
  have i11 := hinv.dlClosed
  have iw := hinv.wg_pos.2.1
  clear hinv
  unfold stepProcessor at h
  split at h <;> (try split at h) <;> (try split at h)
  all_goals (first | (cases h; done) | cases h)
  all_goals simp_all [emit, State.panic, State.crash, State.fatal]
  all_goals (obtain ⟨h1, h2, h3, h4, h5, h6, h7, h8, h9, h10, h11, h12, h13, h14⟩ := hhist)
  all_goals exact ⟨
    (by clear h2 h3 h4 h5 h6 h7 h8 h9 h10 h11 h12 h13 h14; simp_all [emit, State.panic, State.crash, State.fatal, closers_append, doneBy_append, adds_append,
      lastBy_append, prints_append, Event.asClose, Event.asDone, Event.asAdd, Event.asPrint,
      Event.actors]),
    (by clear h1 h3 h4 h5 h6 h7 h8 h9 h10 h11 h12 h13 h14; simp_all [emit, State.panic, State.crash, State.fatal, closers_append, doneBy_append, adds_append,
      lastBy_append, prints_append, Event.asClose, Event.asDone, Event.asAdd, Event.asPrint,
      Event.actors]),
    (by clear h1 h2 h4 h5 h6 h7 h8 h9 h10 h11 h12 h13 h14; simp_all [emit, State.panic, State.crash, State.fatal, closers_append, doneBy_append, adds_append,
      lastBy_append, prints_append, Event.asClose, Event.asDone, Event.asAdd, Event.asPrint,
      Event.actors]),
    (by clear h1 h2 h3 h5 h6 h7 h8 h9 h10 h11 h12 h13 h14; simp_all [emit, State.panic, State.crash, State.fatal, closers_append, doneBy_append, adds_append,
      lastBy_append, prints_append, Event.asClose, Event.asDone, Event.asAdd, Event.asPrint,
      Event.actors]),
    (by clear h1 h2 h3 h4 h6 h7 h8 h9 h10 h11 h12 h13 h14; simp_all [emit, State.panic, State.crash, State.fatal, closers_append, doneBy_append, adds_append,
      lastBy_append, prints_append, Event.asClose, Event.asDone, Event.asAdd, Event.asPrint,
      Event.actors]),
    (by clear h1 h2 h3 h4 h5 h7 h8 h9 h10 h11 h12 h13 h14; simp_all [emit, State.panic, State.crash, State.fatal, closers_append, doneBy_append, adds_append,
      lastBy_append, prints_append, Event.asClose, Event.asDone, Event.asAdd, Event.asPrint,
      Event.actors]),
    (by clear h1 h2 h3 h4 h5 h6 h8 h9 h10 h11 h12 h13 h14; simp_all [emit, State.panic, State.crash, State.fatal, closers_append, doneBy_append, adds_append,
      lastBy_append, prints_append, Event.asClose, Event.asDone, Event.asAdd, Event.asPrint,
      Event.actors]),
    (by clear h1 h2 h3 h4 h5 h6 h7 h9 h10 h11 h12 h13 h14; simp_all [emit, State.panic, State.crash, State.fatal, closers_append, doneBy_append, adds_append,
      lastBy_append, prints_append, Event.asClose, Event.asDone, Event.asAdd, Event.asPrint,
      Event.actors]),
    (by
      clear h1 h2 h3 h4 h5 h6 h7 h8 h10 h11 h12 h13 h14
      first
      | (simp_all [emit, State.panic, State.crash, State.fatal, closers_append, doneBy_append, adds_append,
      lastBy_append, prints_append, Event.asClose, Event.asDone, Event.asAdd, Event.asPrint,
      Event.actors]; done)
      | (simpa [emit, State.panic, State.crash, State.fatal, closers_append, doneBy_append, adds_append,
      lastBy_append, prints_append, Event.asClose, Event.asDone, Event.asAdd, Event.asPrint,
      Event.actors] using h9)),
    (by
      clear h1 h2 h3 h4 h5 h6 h7 h8 h9 h11 h12 h13 h14
      first
      | (simp_all [emit, State.panic, State.crash, State.fatal, closers_append, doneBy_append, adds_append,
      lastBy_append, prints_append, Event.asClose, Event.asDone, Event.asAdd, Event.asPrint,
      Event.actors]; done)
      | (simpa [emit, State.panic, State.crash, State.fatal, closers_append, doneBy_append, adds_append,
      lastBy_append, prints_append, Event.asClose, Event.asDone, Event.asAdd, Event.asPrint,
      Event.actors] using h10)),
    (by clear h1 h2 h3 h4 h5 h6 h7 h8 h9 h10 h12 h13 h14; simp_all [emit, State.panic, State.crash, State.fatal, closers_append, doneBy_append, adds_append,
      lastBy_append, prints_append, Event.asClose, Event.asDone, Event.asAdd, Event.asPrint,
      Event.actors]),
    (by clear h1 h2 h3 h4 h5 h6 h7 h8 h9 h10 h11 h13 h14; simp_all [emit, State.panic, State.crash, State.fatal, closers_append, doneBy_append, adds_append,
      lastBy_append, prints_append, Event.asClose, Event.asDone, Event.asAdd, Event.asPrint,
      Event.actors]),
    (by clear h1 h2 h3 h4 h5 h6 h7 h8 h9 h10 h11 h12 h14; simp_all [emit, State.panic, State.crash, State.fatal, closers_append, doneBy_append, adds_append,
      lastBy_append, prints_append, Event.asClose, Event.asDone, Event.asAdd, Event.asPrint,
      Event.actors]),
    (by clear h1 h2 h3 h4 h5 h6 h7 h8 h9 h10 h11 h12 h13; simp_all [emit, State.panic, State.crash, State.fatal, closers_append, doneBy_append, adds_append,
      lastBy_append, prints_append, Event.asClose, Event.asDone, Event.asAdd, Event.asPrint,
      Event.actors])⟩

set_option maxHeartbeats 1000000 in
theorem hist_stepCollector {w : World} {images : List GoString} {s t : State}
    (hinv : Inv images.length s) (hhist : Hist s) (hm : s.main ≠ .returned)
    (h : stepCollector w s = some t) : Hist t := by
  have i2 := hinv.spawnDl
  have i3 := hinv.spawnPr
  have i4 := hinv.spawnCol
  have i11 := hinv.dlClosed
  have iw := hinv.wg_pos.2.2
  clear hinv
  unfold stepCollector at h
  split at h <;> (try split at h) <;> (try split at h)
  all_goals (first | (cases h; done) | cases h)
  all_goals simp_all [emit, State.panic, State.crash, State.fatal]
  all_goals (obtain ⟨h1, h2, h3, h4, h5, h6, h7, h8, h9, h10, h11, h12, h13, h14⟩ := hhist)
  all_goals exact ⟨
    (by clear h2 h3 h4 h5 h6 h7 h8 h9 h10 h11 h12 h13 h14; simp_all [emit, State.panic, State.crash, State.fatal, closers_append, doneBy_append, adds_append,
      lastBy_append, prints_append, Event.asClose, Event.asDone, Event.asAdd, Event.asPrint,
      Event.actors]),
    (by clear h1 h3 h4 h5 h6 h7 h8 h9 h10 h11 h12 h13 h14; simp_all [emit, State.panic, State.crash, State.fatal, closers_append, doneBy_append, adds_append,
      lastBy_append, prints_append, Event.asClose, Event.asDone, Event.asAdd, Event.asPrint,
      Event.actors]),
    (by clear h1 h2 h4 h5 h6 h7 h8 h9 h10 h11 h12 h13 h14; simp_all [emit, State.panic, State.crash, State.fatal, closers_append, doneBy_append, adds_append,
      lastBy_append, prints_append, Event.asClose, Event.asDone, Event.asAdd, Event.asPrint,
      Event.actors]),
    (by clear h1 h2 h3 h5 h6 h7 h8 h9 h10 h11 h12 h13 h14; simp_all [emit, State.panic, State.crash, State.fatal, closers_append, doneBy_append, adds_append,
      lastBy_append, prints_append, Event.asClose, Event.asDone, Event.asAdd, Event.asPrint,
      Event.actors]),
    (by clear h1 h2 h3 h4 h6 h7 h8 h9 h10 h11 h12 h13 h14; simp_all [emit, State.panic, State.crash, State.fatal, closers_append, doneBy_append, adds_append,
      lastBy_append, prints_append, Event.asClose, Event.asDone, Event.asAdd, Event.asPrint,
      Event.actors]),
    (by clear h1 h2 h3 h4 h5 h7 h8 h9 h10 h11 h12 h13 h14; simp_all [emit, State.panic, State.crash, State.fatal, closers_append, doneBy_append, adds_append,
      lastBy_append, prints_append, Event.asClose, Event.asDone, Event.asAdd, Event.asPrint,
      Event.actors]),
    (by clear h1 h2 h3 h4 h5 h6 h8 h9 h10 h11 h12 h13 h14; simp_all [emit, State.panic, State.crash, State.fatal, closers_append, doneBy_append, adds_append,
      lastBy_append, prints_append, Event.asClose, Event.asDone, Event.asAdd, Event.asPrint,
      Event.actors]),
    (by clear h1 h2 h3 h4 h5 h6 h7 h9 h10 h11 h12 h13 h14; simp_all [emit, State.panic, State.crash, State.fatal, closers_append, doneBy_append, adds_append,
      lastBy_append, prints_append, Event.asClose, Event.asDone, Event.asAdd, Event.asPrint,
      Event.actors]),
    (by
      clear h1 h2 h3 h4 h5 h6 h7 h8 h10 h11 h12 h13 h14
      first
      | (simp_all [emit, State.panic, State.crash, State.fatal, closers_append, doneBy_append, adds_append,
      lastBy_append, prints_append, Event.asClose, Event.asDone, Event.asAdd, Event.asPrint,
      Event.actors]; done)
      | (simpa [emit, State.panic, State.crash, State.fatal, closers_append, doneBy_append, adds_append,
      lastBy_append, prints_append, Event.asClose, Event.asDone, Event.asAdd, Event.asPrint,
      Event.actors] using h9)),
    (by
      clear h1 h2 h3 h4 h5 h6 h7 h8 h9 h11 h12 h13 h14
      first
      | (simp_all [emit, State.panic, State.crash, State.fatal, closers_append, doneBy_append, adds_append,
      lastBy_append, prints_append, Event.asClose, Event.asDone, Event.asAdd, Event.asPrint,
      Event.actors]; done)
      | (simpa [emit, State.panic, State.crash, State.fatal, closers_append, doneBy_append, adds_append,
      lastBy_append, prints_append, Event.asClose, Event.asDone, Event.asAdd, Event.asPrint,
      Event.actors] using h10)),
    (by clear h1 h2 h3 h4 h5 h6 h7 h8 h9 h10 h12 h13 h14; simp_all [emit, State.panic, State.crash, State.fatal, closers_append, doneBy_append, adds_append,
      lastBy_append, prints_append, Event.asClose, Event.asDone, Event.asAdd, Event.asPrint,
      Event.actors]),
    (by clear h1 h2 h3 h4 h5 h6 h7 h8 h9 h10 h11 h13 h14; simp_all [emit, State.panic, State.crash, State.fatal, closers_append, doneBy_append, adds_append,
      lastBy_append, prints_append, Event.asClose, Event.asDone, Event.asAdd, Event.asPrint,
      Event.actors]),
    (by clear h1 h2 h3 h4 h5 h6 h7 h8 h9 h10 h11 h12 h14; simp_all [emit, State.panic, State.crash, State.fatal, closers_append, doneBy_append, adds_append,
      lastBy_append, prints_append, Event.asClose, Event.asDone, Event.asAdd, Event.asPrint,
      Event.actors]),
    (by clear h1 h2 h3 h4 h5 h6 h7 h8 h9 h10 h11 h12 h13; simp_all [emit, State.panic, State.crash, State.fatal, closers_append, doneBy_append, adds_append,
      lastBy_append, prints_append, Event.asClose, Event.asDone, Event.asAdd, Event.asPrint,
      Event.actors])⟩

theorem Reachable.hist {w : World} {images : List GoString} {s : State}
    (h : Reachable w images s) : Hist s := by
  induction h with
  | init => exact hist_init
  | step p hs hstep ih =>
    have hinv := hs.inv
    unfold C2g.step at hstep
    split at hstep
    · cases hstep
    · rename_i hc
      have hm : _ ≠ MainPc.returned := fun h => hc (Or.inr h)
      cases p
      · exact hist_stepMain hinv ih hm hstep
      · exact hist_stepDownloader hinv ih hm hstep
      · exact hist_stepProcessor hinv ih hm hstep
      · exact hist_stepCollector hinv ih hm hstep

/-! ## Every step logs one event, under the condition of that event -/

theorem event_stepMain {K : Nat} {images : List GoString} {s t : State} (hinv : Inv K s)
    (h : stepMain images s = some t) : ∃ e, t.trace = s.trace ++ [e] ∧ e.guard s := by
  have i9 := hinv.urls
  clear hinv
  unfold stepMain at h
  split at h <;> (try split at h) <;> (try split at h) <;> (try split at h)
  all_goals (first | (cases h; done) | cases h)
  all_goals exact ⟨_, rfl, by
    first
    | (simp_all [Event.guard]; done)
    | (simp_all [Event.guard]; exact ⟨_, _, ⟨rfl, rfl⟩, rfl⟩)⟩

theorem event_stepDownloader {K : Nat} {w : World} {s t : State} (hinv : Inv K s)
    (h : stepDownloader w s = some t) : ∃ e, t.trace = s.trace ++ [e] ∧ e.guard s := by
  have i11 := hinv.dlClosed
  have iw := hinv.wg_pos.1
  clear hinv
  unfold stepDownloader at h
  split at h <;> (try split at h) <;> (try split at h)
  all_goals (first | (cases h; done) | cases h)
  all_goals exact ⟨_, rfl, by
    first
    | (simp_all [Event.guard]; done)
    | (simp_all [Event.guard]; exact ⟨_, _, ⟨rfl, rfl⟩, rfl⟩)⟩

theorem event_stepProcessor {K : Nat} {s t : State} (hinv : Inv K s)
    (h : stepProcessor s = some t) : ∃ e, t.trace = s.trace ++ [e] ∧ e.guard s := by
  have i13 := hinv.prClosed
  have iw := hinv.wg_pos.2.1
  clear hinv
  unfold stepProcessor at h
  split at h <;> (try split at h) <;> (try split at h)
  all_goals (first | (cases h; done) | cases h)
  all_goals (try have hne := grayscale_ne_none ‹ImageData›.Data)
  all_goals exact ⟨_, rfl, by
    first
    | (simp_all [Event.guard]; done)
    | (simp_all [Event.guard]; exact ⟨_, _, ⟨rfl, rfl⟩, rfl⟩)⟩

theorem event_stepCollector {K : Nat} {w : World} {s t : State} (hinv : Inv K s)
    (h : stepCollector w s = some t) : ∃ e, t.trace = s.trace ++ [e] ∧ e.guard s := by
  have i17 := hinv.muEq
  have iw := hinv.wg_pos.2.2
  clear hinv
  unfold stepCollector at h
  split at h <;> (try split at h) <;> (try split at h)
  all_goals (first | (cases h; done) | cases h)
  all_goals exact ⟨_, rfl, by
    first
    | (simp_all [Event.guard]; done)
    | (simp_all [Event.guard]; exact ⟨_, _, ⟨rfl, rfl⟩, rfl⟩)⟩

theorem event_step {K : Nat} {w : World} {images : List GoString} {p : Proc} {s t : State}
    (hinv : Inv K s)
    (h : step w images p s = some t) : ∃ e, t.trace = s.trace ++ [e] ∧ e.guard s := by
  unfold step at h
  split at h
  · cases h
  · cases p
    · exact event_stepMain hinv h
    · exact event_stepDownloader hinv h
    · exact event_stepProcessor hinv h
    · exact event_stepCollector hinv h

/-- Every event of the log of a reachable state was logged by a step from a
reachable state whose log is the part before the event. -/
theorem Reachable.origin {w : World} {images : List GoString} {s : State}
    (h : Reachable w images s) (pre post : List Event) (e : Event)
    (htr : s.trace = pre ++ e :: post) :
    ∃ s0, Reachable w images s0 ∧ s0.trace = pre ∧ e.guard s0 ∧
      ∃ p s1, C2g.step w images p s0 = some s1 ∧ s1.trace = pre ++ [e] := by
  induction h generalizing post with
  | init => simp [State.init] at htr
  | step p hs hstep ih =>
    rename_i s t
    obtain ⟨e1, he1, hg⟩ := event_step hs.inv hstep
    rw [he1] at htr
    rcases List.eq_nil_or_concat post with hp | ⟨post1, a, hp⟩
    · subst hp
      have h2 : s.trace ++ [e1] = pre ++ [e] := htr
      have h3 := List.append_inj' h2 rfl
      obtain ⟨h4, h5⟩ := h3
      have h6 : e1 = e := by simpa using h5
      subst h6
      exact ⟨s, hs, h4, hg, p, t, hstep, by rw [he1, h4]⟩
    · subst hp
      have h2 : s.trace ++ [e1] = (pre ++ e :: post1) ++ [a] := by
        rw [htr]; simp
      have h3 := List.append_inj' h2 rfl
      exact ih post1 h3.1

/-! ## Executions -/

theorem Reachable.of_run {w : World} {images : List GoString} {s t : State} (sched : List Proc)
    (hs : Reachable w images s) (h : C2g.run w images sched s = some t) :
    Reachable w images t := by
  induction sched generalizing s with
  | nil =>
    simp only [C2g.run, Option.some.injEq] at h
    exact h ▸ hs
  | cons p sched ih =>
    simp only [C2g.run] at h
    cases hp : C2g.step w images p s with
    | none => simp [hp] at h
    | some s1 =>
      rw [hp] at h
      exact ih (Reachable.step p hs hp) h

/-- What a concrete execution shows of its last state. -/
theorem run_shows {α : Type} {w : World} {images : List GoString} {sched : List Proc}
    (f : State → α) (v : α)
    (h : (run w images sched State.init).map f = some v) :
    ∃ t, Reachable w images t ∧ f t = v := by
  cases hr : run w images sched State.init with
  | none => simp [hr] at h
  | some t =>
    rw [hr] at h
    exact ⟨t, Reachable.init.of_run sched hr, by simpa using h⟩

theorem run_length_le {w : World} {images : List GoString} {s t : State} (sched : List Proc)
    (hs : Reachable w images s) (h : run w images sched s = some t) :
    sched.length ≤ s.measure images.length := by
  induction sched generalizing s with
  | nil => simp
  | cons p sched ih =>
    simp only [run] at h
    cases hp : step w images p s with
    | none => simp [hp] at h
    | some s1 =>
      rw [hp] at h
      have h1 := ih (Reachable.step p hs hp) h
      have h2 := measure_step hs.inv hp
      simp only [List.length_cons]
      omega

theorem status_stepMain {images : List GoString} {s t : State}
    (h : stepMain images s = some t) : t.status = s.status ∨ t.status = .panicked := by
  unfold stepMain at h
  split at h <;> (try split at h) <;> (try split at h) <;> (try split at h)
  all_goals (first | (cases h; done) | cases h)
  all_goals simp [emit, State.panic, State.crash]

theorem status_stepDownloader {w : World} {s t : State}
    (hin : w.mkdirAll "input".toList = true)
    (h : stepDownloader w s = some t) : t.status = s.status ∨ t.status = .panicked := by
  unfold stepDownloader at h
  split at h <;> (try split at h) <;> (try split at h)
  all_goals (first | (cases h; done) | cases h)
  all_goals simp_all [emit, State.panic, State.crash, State.fatal]

theorem status_stepProcessor {s t : State}
    (h : stepProcessor s = some t) : t.status = s.status ∨ t.status = .panicked := by
  unfold stepProcessor at h
  split at h <;> (try split at h) <;> (try split at h)
  all_goals (first | (cases h; done) | cases h)
  all_goals simp [emit, State.panic, State.crash]

theorem status_stepCollector {w : World} {s t : State}
    (hout : w.mkdirAll "output".toList = true)
    (h : stepCollector w s = some t) : t.status = s.status ∨ t.status = .panicked := by
  unfold stepCollector at h
  split at h <;> (try split at h) <;> (try split at h)
  all_goals (first | (cases h; done) | cases h)
  all_goals simp_all [emit, State.panic, State.crash, State.fatal]

theorem sound_stepMain {images : List GoString} {s t : State}
    (hs : s.dl.unwinding = false) (h : stepMain images s = some t) :
    t.dl.unwinding = false := by
  unfold stepMain at h
  split at h <;> (try split at h) <;> (try split at h) <;> (try split at h)
  all_goals (first | (cases h; done) | cases h)
  all_goals simp_all [emit, State.panic, State.crash]

theorem sound_stepDownloader {K : Nat} {w : World} {s t : State}
    (hnp : ∀ body, w.decode body ≠ .panic) (hinv : Inv K s)
    (h : stepDownloader w s = some t) (hs : s.dl.unwinding = false) :
    t.dl.unwinding = false := by
  have i11 := hinv.dlClosed
  have iw := hinv.wg_pos.1
  clear hinv
  unfold stepDownloader at h
  split at h <;> (try split at h) <;> (try split at h)
  all_goals (first | (cases h; done) | cases h)
  all_goals (try have hb := hnp ‹Bytes›)
  all_goals simp_all [emit, State.panic, State.crash, State.fatal]

theorem sound_stepProcessor {s t : State}
    (hs : s.dl.unwinding = false) (h : stepProcessor s = some t) :
    t.dl.unwinding = false := by
  unfold stepProcessor at h
  split at h <;> (try split at h) <;> (try split at h)
  all_goals (first | (cases h; done) | cases h)
  all_goals simp_all [emit, State.panic, State.crash]

theorem sound_stepCollector {w : World} {s t : State}
    (hs : s.dl.unwinding = false) (h : stepCollector w s = some t) :
    t.dl.unwinding = false := by
  unfold stepCollector at h
  split at h <;> (try split at h) <;> (try split at h)
  all_goals (first | (cases h; done) | cases h)
  all_goals simp_all [emit, State.panic, State.crash, State.fatal]

/-- When `image.Decode` does not panic, the downloader never panics. -/
theorem Reachable.sound {w : World} {images : List GoString} {s : State}
    (hnp : ∀ body, w.decode body ≠ .panic) (h : Reachable w images s) :
    s.dl.unwinding = false := by
  induction h with
  | init => rfl
  | step p hs hstep ih =>
    have hinv := hs.inv
    unfold C2g.step at hstep
    split at hstep
    · cases hstep
    · cases p
      · exact sound_stepMain ih hstep
      · exact sound_stepDownloader hnp hinv hstep ih
      · exact sound_stepProcessor ih hstep
      · exact sound_stepCollector ih hstep

/-- When `image.Decode` does not panic, the process does not crash. -/
theorem Reachable.not_panicked {w : World} {images : List GoString} {s : State}
    (hnp : ∀ body, w.decode body ≠ .panic) (h : Reachable w images s) :
    s.status ≠ .panicked := by
  intro hp
  have h1 := h.inv.crashed hp
  have h2 := h.sound hnp
  rw [h1] at h2
  cases h2

theorem Reachable.running {w : World} {images : List GoString} {s : State}
    (hin : w.mkdirAll "input".toList = true) (hout : w.mkdirAll "output".toList = true)
    (hnp : ∀ body, w.decode body ≠ .panic)
    (h : Reachable w images s) : s.status = .running := by
  induction h with
  | init => rfl
  | step p hs hstep ih =>
    rename_i s t
    have hnp2 := (Reachable.step p hs hstep).not_panicked hnp
    have hst : t.status = s.status ∨ t.status = .panicked := by
      unfold C2g.step at hstep
      split at hstep
      · cases hstep
      · cases p
        · exact status_stepMain hstep
        · exact status_stepDownloader hin hstep
        · exact status_stepProcessor hstep
        · exact status_stepCollector hout hstep
    rcases hst with h1 | h1
    · rw [h1, ih]
    · exact absurd h1 hnp2

theorem dl_exited_of_done {pc : DlPc} (h : pc.done = 1) (hu : pc.unwinding = false) :
    pc = .exited := by
  cases pc <;> simp_all

theorem pr_exited_of_done {pc : PrPc} (h : pc.done = 1) (hu : pc.unwinding = false) :
    pc = .exited := by
  cases pc <;> simp_all

theorem col_exited_of_done {pc : ColPc} (h : pc.done = 1) (hu : pc.unwinding = false) :
    pc = .exited := by
  cases pc <;> simp_all

theorem dl_pending_of_done {pc : DlPc} (w : World) (h : pc.done = 1) :
    pc.pending w = [] ∧ pc.pendingCreate = [] ∧ pc.closedOut = true := by
  cases pc <;> simp_all

theorem MainPc.added_of_waited {pc : MainPc} (h : pc.waited = true) : pc.added = 3 := by
  cases pc <;> simp_all

theorem MainPc.sent_of_waited {pc : MainPc} (K : Nat) (h : pc.waited = true) : pc.sent K = K := by
  cases pc <;> simp_all

/-- Once `wg.Wait()` has returned, the three stages have called `wg.Done()`,
and the processor and the collector have exited. -/
theorem Inv.exited {K : Nat} {s : State} (hinv : Inv K s) (hw : s.main.waited = true) :
    s.dl.done = 1 ∧ s.pr = .exited ∧ s.col = .exited ∧ s.wg = 0 := by
  have h0 := hinv.waited hw
  have h1 := hinv.wgEq
  rw [MainPc.added_of_waited hw, h0] at h1
  have d1 := dlDone_le s.dl
  have d2 := prDone_le s.pr
  have d3 := colDone_le s.col
  exact ⟨by omega, pr_exited_of_done (by omega) hinv.prSound,
    col_exited_of_done (by omega) hinv.colSound, h0⟩

theorem Reachable.completed {w : World} {images : List GoString} {s : State}
    (hin : w.mkdirAll "input".toList = true) (hout : w.mkdirAll "output".toList = true)
    (hnp : ∀ body, w.decode body ≠ .panic)
    (h : Reachable w images s) (hm : s.main = .returned) : s.Completed := by
  have hinv := h.inv
  have hw : s.main.waited = true := by rw [hm]; rfl
  obtain ⟨h1, h2, h3, h4⟩ := hinv.exited hw
  have h1 := dl_exited_of_done h1 (h.sound hnp)
  refine ⟨hm, h4, h.running hin hout hnp, ?_, ?_, ?_⟩
  · rw [h1]; trivial
  · rw [h2]; trivial
  · rw [h3]; trivial

/-- From every reachable state some execution leads to the end. -/
theorem Reachable.completes {w : World} {images : List GoString}
    (hin : w.mkdirAll "input".toList = true) (hout : w.mkdirAll "output".toList = true)
    (hnp : ∀ body, w.decode body ≠ .panic) :
    ∀ (n : Nat) (s : State), Reachable w images s → s.measure images.length ≤ n →
      ∃ sched t, C2g.run w images sched s = some t ∧ t.Completed := by
  intro n
  induction n with
  | zero =>
    intro s hs hn
    have hr := hs.running hin hout hnp
    unfold State.measure at hn
    rw [hr] at hn
    simp at hn
  | succ n ih =>
    intro s hs hn
    by_cases hm : s.main = .returned
    · exact ⟨[], s, rfl, hs.completed hin hout hnp hm⟩
    · obtain ⟨p, t, hstep⟩ := progress (w := w) hs.inv (hs.running hin hout hnp) hm
      have hlt := measure_step hs.inv hstep
      obtain ⟨sched, u, hrun, hu⟩ := ih t (Reachable.step p hs hstep) (by omega)
      exact ⟨p :: sched, u, by simp [C2g.run, hstep, hrun], hu⟩

/-- What the history and the map are once `wg.Wait()` has returned. -/
theorem Reachable.drained {w : World} {images : List GoString} {s : State}
    (h : Reachable w images s) (hw : s.main.waited = true) :
    sendUrls s.trace = images ∧ sendDs s.trace = downloads w 0 images ∧
      recvDs s.trace = downloads w 0 images ∧
      sendPs s.trace = (downloads w 0 images).map ImageData.gray ∧
      stores s.trace = (downloads w 0 images).map ImageData.gray ∧
      s.processedImages = expectedRegistry w images ∧
      creates .downloader s.trace = (downloads w 0 images).map (fun u => inputPath u.URL) ∧
      creates .collector s.trace = (downloads w 0 images).map (fun u => outputPath u.URL) := by
  have hinv := h.inv
  obtain ⟨f1, f2, f3, f4, f5, f6, f7, f8⟩ := h.flow
  obtain ⟨h1, h2, h3, h4⟩ := hinv.exited hw
  obtain ⟨p1, p2, _⟩ := dl_pending_of_done w h1
  have hb := (hinv.prAfter (by rw [h2]; rfl)).2
  have hsent := MainPc.sent_of_waited images.length hw
  rw [hsent] at f1 f2
  rw [p1] at f2
  rw [p2] at f7
  rw [h2] at f4
  rw [h3] at f5 f8
  rw [hb] at f3
  simp only [List.take_length, List.drop_length, downloads, DlPc.pending, List.append_nil,
    PrPc.pending, ColPc.pending, DlPc.pendingCreate, ColPc.pendingCreate] at f1 f2 f3 f4 f5 f7 f8
  have e1 : sendDs s.trace = downloads w 0 images := f2.symm
  have e2 : recvDs s.trace = downloads w 0 images := by rw [← f3, e1]
  have e3 : sendPs s.trace = (downloads w 0 images).map ImageData.gray := by rw [← f4, e2]
  have e4 : stores s.trace = (downloads w 0 images).map ImageData.gray := by rw [← f5, e3]
  refine ⟨f1, e1, e2, e3, e4, ?_, ?_, ?_⟩
  · rw [f6, e4]; rfl
  · rw [← f7, e1]
  · rw [← f8, e3]; simp [ImageData.gray]

/-! ## The map and the units that reach it -/

theorem mapKeys_mapInsert (k : GoString) (v : Image) (m : Registry) :
    mapKeys (mapInsert k v m) = if k ∈ mapKeys m then mapKeys m else mapKeys m ++ [k] := by
  induction m with
  | nil => rfl
  | cons e m ih =>
    obtain ⟨k1, v1⟩ := e
    by_cases h : k1 = k
    · have e1 : mapInsert k v ((k1, v1) :: m) = (k, v) :: m := by
        simp only [mapInsert, if_pos h]
      have e2 : k ∈ mapKeys ((k1, v1) :: m) := by
        rw [h]; exact List.mem_cons_self _ _
      rw [e1, if_pos e2, h]
      rfl
    · have e1 : mapInsert k v ((k1, v1) :: m) = (k1, v1) :: mapInsert k v m := by
        simp only [mapInsert, if_neg h]
      have e2 : mapKeys ((k1, v1) :: mapInsert k v m) = k1 :: mapKeys (mapInsert k v m) := rfl
      have e3 : mapKeys ((k1, v1) :: m) = k1 :: mapKeys m := rfl
      rw [e1, e2, e3, ih]
      by_cases hk : k ∈ mapKeys m
      · rw [if_pos hk, if_pos (List.mem_cons_of_mem _ hk)]
      · have hk2 : k ∉ k1 :: mapKeys m := by
          intro h3
          rcases List.mem_cons.1 h3 with h4 | h4
          · exact h h4.symm
          · exact hk h4
        rw [if_neg hk, if_neg hk2]
        rfl

theorem length_mapInsert (k : GoString) (v : Image) (m : Registry) :
    (mapInsert k v m).length = if k ∈ mapKeys m then m.length else m.length + 1 := by
  have h := congrArg List.length (mapKeys_mapInsert k v m)
  by_cases hk : k ∈ mapKeys m
  · rw [if_pos hk] at h ⊢
    simpa [mapKeys] using h
  · rw [if_neg hk] at h ⊢
    simpa [mapKeys] using h

theorem mapLookup_mapInsert (k k1 : GoString) (v : Image) (m : Registry) :
    mapLookup k1 (mapInsert k v m) = if k = k1 then some v else mapLookup k1 m := by
  induction m with
  | nil => simp [mapInsert, mapLookup]
  | cons e m ih =>
    obtain ⟨k2, v2⟩ := e
    unfold mapInsert
    by_cases h : k2 = k
    · subst h
      by_cases h2 : k2 = k1
      · simp [mapLookup, h2]
      · simp [mapLookup, h2]
    · simp only [h, if_false]
      by_cases h2 : k2 = k1
      · subst h2
        simp [mapLookup, Ne.symm h]
      · simp only [mapLookup, h2, if_false]
        exact ih

theorem mem_mapKeys_collect (k : GoString) (units : List ImageData) (m : Registry) :
    k ∈ mapKeys (collect m units) ↔ k ∈ mapKeys m ∨ ∃ u ∈ units, u.URL = k := by
  induction units generalizing m with
  | nil => simp [collect]
  | cons u units ih =>
    have e : collect m (u :: units) = collect (mapInsert u.URL u.Data m) units := rfl
    rw [e, ih, mapKeys_mapInsert]
    have e2 : (∃ v ∈ u :: units, v.URL = k) ↔ (u.URL = k ∨ ∃ v ∈ units, v.URL = k) := by
      simp only [List.mem_cons, exists_eq_or_imp]
    rw [e2]
    by_cases h : u.URL ∈ mapKeys m
    · rw [if_pos h]
      constructor
      · rintro (h1 | h1)
        · exact Or.inl h1
        · exact Or.inr (Or.inr h1)
      · rintro (h1 | h1 | h1)
        · exact Or.inl h1
        · exact Or.inl (h1 ▸ h)
        · exact Or.inr h1
    · rw [if_neg h, List.mem_append, List.mem_singleton]
      constructor
      · rintro ((h1 | h1) | h1)
        · exact Or.inl h1
        · exact Or.inr (Or.inl h1.symm)
        · exact Or.inr (Or.inr h1)
      · rintro (h1 | h1 | h1)
        · exact Or.inl (Or.inl h1)
        · exact Or.inl (Or.inr h1.symm)
        · exact Or.inr h1

theorem nodup_mapKeys_collect (units : List ImageData) (m : Registry)
    (h : (mapKeys m).Nodup) : (mapKeys (collect m units)).Nodup := by
  induction units generalizing m with
  | nil => exact h
  | cons u units ih =>
    have e : collect m (u :: units) = collect (mapInsert u.URL u.Data m) units := rfl
    rw [e]
    apply ih
    rw [mapKeys_mapInsert]
    split
    · exact h
    · rename_i hn
      rw [List.nodup_append]
      refine ⟨h, List.nodup_singleton _, ?_⟩
      intro a ha hb
      rw [List.mem_singleton] at hb
      exact hn (hb ▸ ha)

theorem length_collect_le (units : List ImageData) (m : Registry) :
    (collect m units).length ≤ m.length + units.length := by
  induction units generalizing m with
  | nil => simp [collect]
  | cons u units ih =>
    have e : collect m (u :: units) = collect (mapInsert u.URL u.Data m) units := rfl
    rw [e]
    have h1 := ih (mapInsert u.URL u.Data m)
    have h2 := length_mapInsert u.URL u.Data m
    simp only [List.length_cons]
    split at h2 <;> omega

theorem length_collect_eq (units : List ImageData) (m : Registry)
    (hn : (units.map ImageData.URL).Nodup) (hd : ∀ u ∈ units, u.URL ∉ mapKeys m) :
    (collect m units).length = m.length + units.length := by
  induction units generalizing m with
  | nil => simp [collect]
  | cons u units ih =>
    have e : collect m (u :: units) = collect (mapInsert u.URL u.Data m) units := rfl
    rw [e]
    simp only [List.map_cons, List.nodup_cons] at hn
    have hu := hd u (List.mem_cons_self _ _)
    rw [ih (mapInsert u.URL u.Data m) hn.2, length_mapInsert, if_neg hu]
    · simp only [List.length_cons]; omega
    · intro v hv
      rw [mapKeys_mapInsert, if_neg hu]
      intro h1
      rcases List.mem_append.1 h1 with h2 | h2
      · exact hd v (List.mem_cons_of_mem _ hv) h2
      · rw [List.mem_singleton] at h2
        exact hn.1 (List.mem_map.2 ⟨v, hv, h2⟩)

theorem mapLookup_collect_of_not_mem (k : GoString) (units : List ImageData) (m : Registry)
    (h : ∀ u ∈ units, u.URL ≠ k) : mapLookup k (collect m units) = mapLookup k m := by
  induction units generalizing m with
  | nil => rfl
  | cons u units ih =>
    have e : collect m (u :: units) = collect (mapInsert u.URL u.Data m) units := rfl
    rw [e, ih _ (fun v hv => h v (List.mem_cons_of_mem _ hv)), mapLookup_mapInsert,
      if_neg (h u (List.mem_cons_self _ _))]

theorem collect_append_list (m : Registry) (us vs : List ImageData) :
    collect m (us ++ vs) = collect (collect m us) vs := by
  unfold collect
  rw [List.foldl_append]

theorem mapLookup_collect_last (m : Registry) (us vs : List ImageData) (u : ImageData)
    (h : ∀ v ∈ vs, v.URL ≠ u.URL) :
    mapLookup u.URL (collect m (us ++ u :: vs)) = some u.Data := by
  rw [collect_append_list]
  have e : collect (collect m us) (u :: vs)
      = collect (mapInsert u.URL u.Data (collect m us)) vs := rfl
  rw [e, mapLookup_collect_of_not_mem _ _ _ h, mapLookup_mapInsert, if_pos rfl]

theorem downloads_append (w : World) (n : Nat) (l1 l2 : List GoString) :
    downloads w n (l1 ++ l2) = downloads w n l1 ++ downloads w (n + l1.length) l2 := by
  induction l1 generalizing n with
  | nil => simp [downloads]
  | cons a l1 ih =>
    show download w n a ++ downloads w (n + 1) (l1 ++ l2)
      = (download w n a ++ downloads w (n + 1) l1) ++ downloads w (n + (l1.length + 1)) l2
    have e : n + 1 + l1.length = n + (l1.length + 1) := by omega
    rw [ih, List.append_assoc, e]

theorem mem_download (w : World) (n : Nat) (url : GoString) (u : ImageData) :
    u ∈ download w n url ↔ u.URL = url ∧ fetchDecode w n url = some u.Data := by
  unfold download
  cases h : fetchDecode w n url with
  | none => simp
  | some img =>
    simp only [Option.toList, List.map_cons, List.map_nil, List.mem_singleton,
      Option.some.injEq]
    constructor
    · intro hu
      subst hu
      exact ⟨rfl, rfl⟩
    · rintro ⟨h1, h2⟩
      cases u
      simp_all

theorem mem_downloads (w : World) (n : Nat) (urls : List GoString) (u : ImageData) :
    u ∈ downloads w n urls ↔
      ∃ j, urls[j]? = some u.URL ∧ fetchDecode w (n + j) u.URL = some u.Data := by
  induction urls generalizing n with
  | nil => simp [downloads]
  | cons a urls ih =>
    simp only [downloads, List.mem_append, mem_download, ih]
    constructor
    · rintro (⟨h1, h2⟩ | ⟨j, h1, h2⟩)
      · exact ⟨0, by simp [h1], by simpa [h1] using h2⟩
      · exact ⟨j + 1, by simpa using h1, by
          have e : n + (j + 1) = n + 1 + j := by omega
          rw [e]; exact h2⟩
    · rintro ⟨j, h1, h2⟩
      cases j with
      | zero =>
        left
        simp only [List.getElem?_cons_zero, Option.some.injEq] at h1
        exact ⟨h1.symm, by simpa [h1] using h2⟩
      | succ j =>
        right
        refine ⟨j, by simpa using h1, ?_⟩
        have e : n + (j + 1) = n + 1 + j := by omega
        rw [← e]; exact h2

theorem length_download_le (w : World) (n : Nat) (url : GoString) :
    (download w n url).length ≤ 1 := by
  unfold download
  cases fetchDecode w n url <;> simp

theorem length_downloads_le (w : World) (n : Nat) (urls : List GoString) :
    (downloads w n urls).length ≤ urls.length := by
  induction urls generalizing n with
  | nil => simp [downloads]
  | cons a urls ih =>
    have h1 := ih (n + 1)
    have h2 := length_download_le w n a
    simp only [downloads, List.length_append, List.length_cons]
    omega

theorem downloads_urls_of_ok (w : World) (n : Nat) (urls : List GoString)
    (h : ∀ j url, urls[j]? = some url → (fetchDecode w (n + j) url).isSome = true) :
    (downloads w n urls).map ImageData.URL = urls := by
  induction urls generalizing n with
  | nil => simp [downloads]
  | cons a urls ih =>
    have h0 := h 0 a (by simp)
    simp only [Nat.add_zero] at h0
    obtain ⟨img, himg⟩ := Option.isSome_iff_exists.1 h0
    have h1 := ih (n + 1) (fun j url hj => by
      have := h (j + 1) url (by simpa using hj)
      have e : n + (j + 1) = n + 1 + j := by omega
      rw [← e]; exact this)
    simp [downloads, download, himg, h1]

theorem map_URL_gray (units : List ImageData) :
    (units.map ImageData.gray).map ImageData.URL = units.map ImageData.URL := by
  simp [ImageData.gray]

theorem length_expectedRegistry_le (w : World) (images : List GoString) :
    (expectedRegistry w images).length ≤ images.length := by
  unfold expectedRegistry
  have h1 := length_collect_le ((downloads w 0 images).map ImageData.gray) []
  have h2 := length_downloads_le w 0 images
  simp only [List.length_nil, List.length_map] at h1
  omega

theorem length_expectedRegistry_eq (w : World) (images : List GoString)
    (hok : ∀ i url, images[i]? = some url → (fetchDecode w i url).isSome = true)
    (hn : images.Nodup) : (expectedRegistry w images).length = images.length := by
  unfold expectedRegistry
  have hu := downloads_urls_of_ok w 0 images (fun j url hj => by simpa using hok j url hj)
  rw [length_collect_eq]
  · have := congrArg List.length hu
    simpa using this
  · rw [map_URL_gray, hu]; exact hn
  · intro u _ h
    simp [mapKeys] at h

theorem mem_mapKeys_expectedRegistry (w : World) (images : List GoString) (k : GoString) :
    k ∈ mapKeys (expectedRegistry w images) ↔
      ∃ i, images[i]? = some k ∧ (fetchDecode w i k).isSome = true := by
  unfold expectedRegistry
  rw [mem_mapKeys_collect]
  simp only [mapKeys, List.map_nil, List.not_mem_nil, false_or, List.mem_map]
  constructor
  · rintro ⟨u, ⟨v, hv, rfl⟩, hk⟩
    obtain ⟨j, h1, h2⟩ := (mem_downloads w 0 images v).1 hv
    have hk2 : v.URL = k := hk
    subst hk2
    exact ⟨j, h1, by simp at h2; simp [h2]⟩
  · rintro ⟨i, h1, h2⟩
    obtain ⟨img, himg⟩ := Option.isSome_iff_exists.1 h2
    exact ⟨_, ⟨⟨k, img⟩, (mem_downloads w 0 images ⟨k, img⟩).2 ⟨i, h1, by simpa using himg⟩, rfl⟩,
      rfl⟩

theorem mapLookup_expectedRegistry (w : World) (images : List GoString) (i : Nat)
    (k : GoString) (img : Image) (hi : images[i]? = some k) (hf : fetchDecode w i k = some img)
    (hlast : ∀ j, i < j → images[j]? = some k → fetchDecode w j k = none) :
    mapLookup k (expectedRegistry w images) = some (grayImage img) := by
  have hsplit : images = images.take i ++ k :: images.drop (i + 1) := by
    have := drop_of_getElem? hi
    rw [← this, List.take_append_drop]
  have hlen : (images.take i).length = i := by
    have := getElem?_lt hi
    rw [List.length_take]
    omega
  unfold expectedRegistry
  have hd : downloads w 0 images = downloads w 0 (images.take i) ++
      ({ URL := k, Data := img } : ImageData) :: downloads w (i + 1) (images.drop (i + 1)) := by
    conv_lhs => rw [hsplit]
    rw [downloads_append, hlen]
    simp [downloads, download, hf]
  rw [hd, List.map_append, List.map_cons]
  have := mapLookup_collect_last [] ((downloads w 0 (images.take i)).map ImageData.gray)
    ((downloads w (i + 1) (images.drop (i + 1))).map ImageData.gray)
    (ImageData.gray { URL := k, Data := img }) (by
      intro v hv
      obtain ⟨v0, hv0, rfl⟩ := List.mem_map.1 hv
      intro hEq
      have hEq2 : v0.URL = k := hEq
      obtain ⟨j, h1, h2⟩ := (mem_downloads w (i + 1) (images.drop (i + 1)) v0).1 hv0
      rw [List.getElem?_drop, hEq2] at h1
      have h3 := hlast (i + 1 + j) (by omega) h1
      rw [hEq2, h3] at h2
      cases h2)
  exact this

/-! ## Concrete executions are reachable -/

theorem reachable_exec (w : World) (images : List GoString) (sched : List Proc) :
    Reachable w images (exec w images sched) := by
  unfold exec
  cases hr : run w images sched State.init with
  | none => exact Reachable.init
  | some t => exact Reachable.init.of_run sched hr

theorem mem_prints_returned {w : World} {images : List GoString} {s : State}
    (h : Reachable w images s) {n : Nat} (hn : n ∈ prints s.trace) :
    s.main = .returned ∧ n = s.processedImages.length := by
  have hp := h.hist.printed
  by_cases hm : s.main = .returned
  · rw [if_pos hm] at hp
    rw [hp, List.mem_singleton] at hn
    exact ⟨hm, hn⟩
  · rw [if_neg hm] at hp
    rw [hp] at hn
    cases hn

theorem waited_of_returned {s : State} (hm : s.main = .returned) : s.main.waited = true := by
  rw [hm]; rfl

theorem step_none_of_ended {w : World} {images : List GoString} {s : State}
    (h : s.status ≠ .running ∨ s.main = .returned) (p : Proc) : step w images p s = none := by
  unfold step
  rw [if_pos h]

theorem scenarioWorld_decode_returns : ∀ body, scenarioWorld.decode body ≠ .panic := by
  intro body
  show (if body = bytesA then Decoded.image imgA else Decoded.error) ≠ .panic
  split <;> simp

/-! ## Closes and sends in the log -/

theorem closers_ne_nil (c : Chan) (p : Proc) (pre post : List Event) :
    closers c (pre ++ Event.close c p :: post) ≠ [] := by
  unfold closers
  rw [List.filterMap_append, List.filterMap_cons]
  simp [Event.asClose]

theorem guard_not_closed {w : World} {images : List GoString} {s : State}
    (h : Reachable w images s) (e : Event) (c : Chan) (hg : e.guard s)
    (hc : e.sendsOn = some c) : closers c s.trace = [] := by
  have hh := h.hist
  cases e <;> simp [Event.sendsOn] at hc
  · subst hc
    have h1 := hh.closeU
    rw [hg.2] at h1
    simpa using h1
  · subst hc
    have h1 := hh.closeD
    rw [hg.2] at h1
    simpa using h1
  · subst hc
    have h1 := hh.closeP
    rw [hg.2] at h1
    simpa using h1

/-- No send on a channel follows its close. -/
theorem no_send_after_close {w : World} {images : List GoString} {s : State}
    (h : Reachable w images s) (c : Chan) (p : Proc) (pre post : List Event)
    (htr : s.trace = pre ++ Event.close c p :: post) :
    ∀ e ∈ post, e.sendsOn ≠ some c := by
  intro e he hc
  obtain ⟨a, b, hab⟩ := List.append_of_mem he
  have htr2 : s.trace = (pre ++ Event.close c p :: a) ++ e :: b := by
    rw [htr, hab]; simp
  obtain ⟨s0, hs0, ht0, hg, _⟩ := h.origin _ _ e htr2
  have h1 := guard_not_closed hs0 e c hg hc
  rw [ht0] at h1
  exact closers_ne_nil c p pre a h1

theorem closers_cases {w : World} {images : List GoString} {s : State}
    (h : Reachable w images s) (c : Chan) :
    closers c s.trace = [] ∨ closers c s.trace = [c.writer] := by
  have hh := h.hist
  cases c
  · have h1 := hh.closeU
    by_cases hb : s.urlsClosed = true
    · rw [if_pos hb] at h1; exact Or.inr h1
    · rw [if_neg hb] at h1; exact Or.inl h1
  · have h1 := hh.closeD
    by_cases hb : s.downloadedClosed = true
    · rw [if_pos hb] at h1; exact Or.inr h1
    · rw [if_neg hb] at h1; exact Or.inl h1
  · have h1 := hh.closeP
    by_cases hb : s.processedClosed = true
    · rw [if_pos hb] at h1; exact Or.inr h1
    · rw [if_neg hb] at h1; exact Or.inl h1

theorem closers_of_waited {w : World} {images : List GoString} {s : State}
    (h : Reachable w images s) (hw : s.main.waited = true) (c : Chan) :
    closers c s.trace = [c.writer] := by
  have hh := h.hist
  have hinv := h.inv
  obtain ⟨e1, e2, e3, _⟩ := hinv.exited hw
  cases c
  · have h1 := hh.closeU
    have hb : s.urlsClosed = true := by
      rw [hinv.urls]
      cases hm : s.main <;> simp_all
    rw [if_pos hb] at h1; exact h1
  · have h1 := hh.closeD
    have hb : s.downloadedClosed = true := by
      rw [hinv.dlClosed]; exact (dl_pending_of_done w e1).2.2
    rw [if_pos hb] at h1; exact h1
  · have h1 := hh.closeP
    have hb : s.processedClosed = true := by
      rw [hinv.prClosed, e2]; rfl
    rw [if_pos hb] at h1; exact h1

/-- What holds when `main` closes `urlsCh`. -/
theorem close_urls_origin {w : World} {images : List GoString} {s : State}
    (h : Reachable w images s) (p : Proc) (pre post : List Event)
    (htr : s.trace = pre ++ Event.close .urlsCh p :: post) :
    p = .main ∧ sendUrls pre = images := by
  obtain ⟨s0, hs0, ht0, hg, _⟩ := h.origin _ _ _ htr
  have hg2 : p = .main ∧ s0.main = .closeUrls := hg
  have f1 := hs0.flow.urlsSent
  rw [hg2.2, ht0] at f1
  simp at f1
  exact ⟨hg2.1, f1⟩

/-- Only the downloader closes `downloadedCh`. -/
theorem close_downloaded_writer {w : World} {images : List GoString} {s : State}
    (h : Reachable w images s) (p : Proc) (pre post : List Event)
    (htr : s.trace = pre ++ Event.close .downloadedCh p :: post) : p = .downloader := by
  obtain ⟨s0, hs0, ht0, hg, _⟩ := h.origin _ _ _ htr
  have hg2 : p = .downloader ∧ (s0.dl = .closeOut ∨ s0.dl = .unwindCloseOut) := hg
  exact hg2.1

/-- What holds when the downloader closes `downloadedCh`, if `image.Decode`
does not panic. -/
theorem close_downloaded_origin {w : World} {images : List GoString} {s : State}
    (hnp : ∀ body, w.decode body ≠ .panic)
    (h : Reachable w images s) (p : Proc) (pre post : List Event)
    (htr : s.trace = pre ++ Event.close .downloadedCh p :: post) :
    closers .urlsCh pre = [.main] ∧ sendUrls pre = images ∧
      sendDs pre = downloads w 0 images := by
  obtain ⟨s0, hs0, ht0, hg, _⟩ := h.origin _ _ _ htr
  have hg2 : p = .downloader ∧ (s0.dl = .closeOut ∨ s0.dl = .unwindCloseOut) := hg
  have hso := hs0.sound hnp
  have hdl : s0.dl = .closeOut := by
    rcases hg2.2 with h1 | h1
    · exact h1
    · rw [h1] at hso; cases hso
  have hinv := hs0.inv
  have hu : s0.urlsClosed = true := hinv.dlAfter (by rw [hdl]; rfl)
  have hcl := hs0.hist.closeU
  rw [if_pos hu, ht0] at hcl
  have hsent : s0.main.sent images.length = images.length :=
    MainPc.sent_of_closedUrls _ _ (by rw [← hinv.urls]; exact hu)
  have f1 := hs0.flow.urlsSent
  have f2 := hs0.flow.dlSent
  rw [hsent, ht0] at f1 f2
  rw [hdl] at f2
  simp [downloads] at f1 f2
  exact ⟨hcl, f1, f2.symm⟩

/-- What holds when the processor closes `processedCh`. -/
theorem close_processed_origin {w : World} {images : List GoString} {s : State}
    (h : Reachable w images s) (p : Proc) (pre post : List Event)
    (htr : s.trace = pre ++ Event.close .processedCh p :: post) :
    p = .processor ∧ closers .downloadedCh pre = [.downloader] ∧ recvDs pre = sendDs pre ∧
      sendPs pre = (recvDs pre).map ImageData.gray := by
  obtain ⟨s0, hs0, ht0, hg, _⟩ := h.origin _ _ _ htr
  have hg2 : p = .processor ∧ (s0.pr = .closeOut ∨ s0.pr = .unwindCloseOut) := hg
  have hinv := hs0.inv
  have hso := hinv.prSound
  have hpr : s0.pr = .closeOut := by
    rcases hg2.2 with h1 | h1
    · exact h1
    · rw [h1] at hso; cases hso
  obtain ⟨hd, hb⟩ := hinv.prAfter (by rw [hpr]; rfl)
  have hcl := hs0.hist.closeD
  rw [if_pos hd, ht0] at hcl
  have f3 := hs0.flow.buf
  have f4 := hs0.flow.prSent
  rw [hb, ht0] at f3
  rw [hpr, ht0] at f4
  simp at f3 f4
  exact ⟨hg2.1, hcl, f3.symm, f4.symm⟩

/-- Every panic in the log was raised in the downloader, at its call of
`image.Decode`. -/
theorem panic_origin {w : World} {images : List GoString} {s : State}
    (h : Reachable w images s) (p : Proc) (pre post : List Event)
    (htr : s.trace = pre ++ Event.panic p :: post) :
    p = .downloader ∧ ∃ s0, Reachable w images s0 ∧ s0.trace = pre ∧
      ∃ n url body, s0.dl = .decode n url body := by
  obtain ⟨s0, hs0, ht0, hg, _⟩ := h.origin _ _ _ htr
  have hg2 : p = .downloader ∧ ∃ n url body, s0.dl = .decode n url body := hg
  exact ⟨hg2.1, s0, hs0, ht0, hg2.2⟩

/-! ## The `WaitGroup` in the log -/

theorem length_eq_counts (l : List Proc) :
    l.length = l.count .main + l.count .downloader + l.count .processor + l.count .collector := by
  induction l with
  | nil => rfl
  | cons p l ih =>
    cases p <;> simp [List.count_cons, ih] <;> omega

theorem doneBy_split (pre post : List Event) (p : Proc) :
    doneBy (pre ++ Event.wgDone p :: post) = doneBy pre ++ p :: doneBy post := by
  unfold doneBy
  rw [List.filterMap_append, List.filterMap_cons]
  rfl

theorem done_count_le {w : World} {images : List GoString} {s : State}
    (h : Reachable w images s) (p : Proc) : (doneBy s.trace).count p ≤ 1 := by
  have hh := h.hist
  cases p
  · rw [hh.doneMain]; omega
  · rw [hh.doneDl]; exact dlDone_le _
  · rw [hh.donePr]; exact prDone_le _
  · rw [hh.doneCol]; exact colDone_le _

theorem lastBy_of_done {w : World} {images : List GoString} {s : State}
    (h : Reachable w images s) (p : Proc) (hp : p ∈ doneBy s.trace) :
    p ≠ .main ∧ lastBy p s.trace = some (.wgDone p) := by
  have hh := h.hist
  have hc : 1 ≤ (doneBy s.trace).count p := List.one_le_count_iff.2 hp
  cases p
  · rw [hh.doneMain] at hc; omega
  · rw [hh.doneDl] at hc
    exact ⟨by decide, hh.exitDl (by have := dlDone_le s.dl; omega)⟩
  · rw [hh.donePr] at hc
    exact ⟨by decide, hh.exitPr (by have := prDone_le s.pr; omega)⟩
  · rw [hh.doneCol] at hc
    exact ⟨by decide, hh.exitCol (by have := colDone_le s.col; omega)⟩

/-- After its `wg.Done()` a stage does nothing more. -/
theorem no_event_after_done {w : World} {images : List GoString} {s : State}
    (h : Reachable w images s) (p : Proc) (pre post : List Event)
    (htr : s.trace = pre ++ Event.wgDone p :: post) :
    p ≠ .main ∧ ∀ e ∈ post, p ∉ e.actors := by
  have hmem : p ∈ doneBy s.trace := by
    rw [htr, doneBy_split]
    exact List.mem_append_right _ (List.mem_cons_self _ _)
  obtain ⟨hne, hlast⟩ := lastBy_of_done h p hmem
  refine ⟨hne, ?_⟩
  intro e he hact
  have hle := done_count_le h p
  rw [htr, doneBy_split, List.count_append, List.count_cons_self] at hle
  have hfe : e ∈ post.filter (fun e => decide (p ∈ e.actors)) :=
    List.mem_filter.2 ⟨he, by simpa using hact⟩
  have hne2 : post.filter (fun e => decide (p ∈ e.actors)) ≠ [] :=
    List.ne_nil_of_mem hfe
  unfold lastBy at hlast
  rw [htr, List.filter_append, List.filter_cons] at hlast
  have hl2 : (post.filter (fun e => decide (p ∈ e.actors))).getLast? = some (.wgDone p) := by
    rw [List.getLast?_append] at hlast
    split at hlast
    · rw [List.getLast?_cons] at hlast
      obtain ⟨x, hx⟩ := Option.isSome_iff_exists.1 (List.getLast?_isSome.2 hne2)
      rw [hx] at hlast ⊢
      simpa using hlast
    · obtain ⟨x, hx⟩ := Option.isSome_iff_exists.1 (List.getLast?_isSome.2 hne2)
      rw [hx] at hlast ⊢
      simpa using hlast
  have hin : Event.wgDone p ∈ post := (List.mem_filter.1 (List.mem_of_getLast?_eq_some hl2)).1
  have hin2 : p ∈ doneBy post := by
    unfold doneBy
    exact List.mem_filterMap.2 ⟨_, hin, rfl⟩
  have := List.one_le_count_iff.2 hin2
  omega

/-- A stage that closes a channel has closed it before its `wg.Done()`. -/
theorem closed_before_done {w : World} {images : List GoString} {s : State}
    (h : Reachable w images s) (p : Proc) (pre post : List Event)
    (htr : s.trace = pre ++ Event.wgDone p :: post) :
    (p = .downloader → closers .downloadedCh pre = [.downloader]) ∧
      (p = .processor → closers .processedCh pre = [.processor]) := by
  obtain ⟨s0, hs0, ht0, hg, _⟩ := h.origin _ _ _ htr
  constructor
  · intro hp
    subst hp
    have hg2 : s0.dl = .wgDone ∨ s0.dl = .unwindWgDone := hg
    have hc : s0.downloadedClosed = true := by
      rw [hs0.inv.dlClosed]
      rcases hg2 with h1 | h1 <;> rw [h1] <;> rfl
    have := hs0.hist.closeD
    rw [if_pos hc, ht0] at this
    exact this
  · intro hp
    subst hp
    have hg2 : s0.pr = .wgDone ∨ s0.pr = .unwindWgDone := hg
    have hc : s0.processedClosed = true := by
      rw [hs0.inv.prClosed]
      rcases hg2 with h1 | h1 <;> rw [h1] <;> rfl
    have := hs0.hist.closeP
    rw [if_pos hc, ht0] at this
    exact this

theorem adds_sum {w : World} {images : List GoString} {s : State}
    (h : Reachable w images s) :
    (adds s.trace = [] ∨ adds s.trace = [3]) ∧
      (adds s.trace).sum = s.wg + (doneBy s.trace).length := by
  have hh := h.hist
  have hinv := h.inv
  have hw := hinv.wgEq
  have ha := hh.added
  rw [length_eq_counts, hh.doneMain, hh.doneDl, hh.donePr, hh.doneCol]
  by_cases h0 : s.main.added = 0
  · rw [if_pos h0] at ha
    rw [ha]
    refine ⟨Or.inl rfl, ?_⟩
    simp only [List.sum_nil]
    omega
  · rw [if_neg h0] at ha
    rw [ha]
    refine ⟨Or.inr rfl, ?_⟩
    have h3 : s.main.added = 3 := by
      cases hm : s.main <;> simp_all
    simp only [List.sum_cons, List.sum_nil]
    omega

/-- What holds when `main` reads `len(processedImages)` at line 72. -/
theorem print_origin {w : World} {images : List GoString} {s : State}
    (h : Reachable w images s) (n : Nat) (pre post : List Event)
    (htr : s.trace = pre ++ Event.print n :: post) :
    ∃ s0, Reachable w images s0 ∧ s0.trace = pre ∧ s0.wg = 0 ∧
      n = s0.processedImages.length ∧
      s0.processedImages = collect [] (stores pre) ∧
      (doneBy pre).count .downloader = 1 ∧ (doneBy pre).count .processor = 1 ∧
      (doneBy pre).count .collector = 1 ∧
      stores pre = sendPs pre ∧
      creates .collector pre = (sendPs pre).map (fun u => outputPath u.URL) := by
  obtain ⟨s0, hs0, ht0, hg, _⟩ := h.origin _ _ _ htr
  have hg2 : s0.main = .print ∧ n = s0.processedImages.length := hg
  have hw : s0.main.waited = true := by rw [hg2.1]; rfl
  obtain ⟨e1, e2, e3, e4⟩ := hs0.inv.exited hw
  obtain ⟨_, _, _, d4, d5, _, _, d8⟩ := hs0.drained hw
  have hh := hs0.hist
  have c1 := hh.doneDl
  have c2 := hh.donePr
  have c3 := hh.doneCol
  have freg := hs0.flow.registry
  rw [e1] at c1
  rw [e2] at c2
  rw [e3] at c3
  rw [ht0] at c1 c2 c3 d4 d5 d8 freg
  refine ⟨s0, hs0, ht0, e4, hg2.2, freg, c1, c2, c3, by rw [d4, d5], ?_⟩
  rw [d8, d4, List.map_map]
  rfl

/-! ## C1: the number that the driver reports -/

/-- C1, as stated, fails when an identifier occurs twice: with the
identifiers `"a", "a"`, both fetched and decoded with success, the driver
reports `1`, not `2`, because the map `processedImages` has one entry for
each URL (line 154). -/
theorem C1_duplicate_identifiers_counterexample :
    Reachable scenarioWorld idsAA (exec scenarioWorld idsAA schedAA) ∧
      (exec scenarioWorld idsAA schedAA).Completed ∧
      (fetchDecode scenarioWorld 0 "a".toList).isSome = true ∧
      (fetchDecode scenarioWorld 1 "a".toList).isSome = true ∧
      idsAA.length = 2 ∧
      prints (exec scenarioWorld idsAA schedAA).trace = [1] ∧
      (exec scenarioWorld idsAA schedAA).processedImages.length = 1 := by
  refine ⟨reachable_exec _ _ _, ?_, by decide, by decide, by decide, by decide, by decide⟩
  refine ⟨by decide, by decide, by decide, ?_, ?_, ?_⟩
  · have h : (exec scenarioWorld idsAA schedAA).dl = .exited := by rfl
    rw [h]; trivial
  · have h : (exec scenarioWorld idsAA schedAA).pr = .exited := by rfl
    rw [h]; trivial
  · have h : (exec scenarioWorld idsAA schedAA).col = .exited := by rfl
    rw [h]; trivial

/-- C1, amended: every number `n` that the driver prints (line 72) is
`len(processedImages)` read after the pipeline has drained, it is at most
`len(images)`, and it equals `len(images)` when fetch and decode succeed for
every identifier and the identifiers are pairwise distinct. -/
theorem C1_reported_size_le_and_eq_when_distinct (w : World) (images : List GoString)
    (s : State) (h : Reachable w images s) (n : Nat) (hn : n ∈ prints s.trace) :
    n = s.processedImages.length ∧ s.main = .returned ∧ n ≤ images.length ∧
      ((∀ i url, images[i]? = some url → (fetchDecode w i url).isSome = true) →
        images.Nodup → n = images.length) := by
  obtain ⟨hm, hlen⟩ := mem_prints_returned h hn
  have hd := (h.drained (waited_of_returned hm)).2.2.2.2.2.1
  rw [hd] at hlen
  refine ⟨by rw [hd]; exact hlen, hm, ?_, ?_⟩
  · rw [hlen]; exact length_expectedRegistry_le w images
  · intro hok hnd
    rw [hlen]; exact length_expectedRegistry_eq w images hok hnd

/-- C1, amended, on the single identifier `"a"`: the driver prints `1`. -/
theorem C1_reported_size_witness :
    Reachable scenarioWorld idsA (exec scenarioWorld idsA schedA) ∧
      1 ∈ prints (exec scenarioWorld idsA schedA).trace ∧
      (∀ i url, idsA[i]? = some url → (fetchDecode scenarioWorld i url).isSome = true) ∧
      idsA.Nodup ∧
      1 = (exec scenarioWorld idsA schedA).processedImages.length ∧
      1 ≤ idsA.length ∧ 1 = idsA.length := by
  have hok : ∀ i url, idsA[i]? = some url → (fetchDecode scenarioWorld i url).isSome = true := by
    intro i url hi
    cases i with
    | zero =>
      have e : url = "a".toList := by
        have : idsA[0]? = some "a".toList := rfl
        rw [this] at hi
        exact (Option.some.inj hi).symm
      rw [e]; decide
    | succ i => cases i <;> cases hi
  have hnd : idsA.Nodup := by decide
  have hp : 1 ∈ prints (exec scenarioWorld idsA schedA).trace := by decide
  have h := C1_reported_size_le_and_eq_when_distinct scenarioWorld idsA
    (exec scenarioWorld idsA schedA) (reachable_exec _ _ _) 1 hp
  exact ⟨reachable_exec _ _ _, hp, hok, hnd, h.1, h.2.2.1, h.2.2.2 hok hnd⟩

/-! ## C2: the map holds the successful fetches, and nothing else -/

/-- C2: once `wg.Wait()` has returned, the keys of `processedImages` are
exactly the identifiers for which `http.Get` and `image.Decode` both
succeeded, every key occurs once, the key of such an identifier maps to the
gray version of its decoded image (of its last successful occurrence, when
the identifier occurs more than once), and the map is the one computed from
the successful items alone, so that a failed item leaves the entries of the
others as they are; the number printed is the size of that map. -/
theorem C2_registry_holds_successful_items (w : World) (images : List GoString) (s : State)
    (h : Reachable w images s) (hw : s.main.waited = true) :
    (∀ k, k ∈ mapKeys s.processedImages ↔
        ∃ i, images[i]? = some k ∧ (fetchDecode w i k).isSome = true) ∧
      (mapKeys s.processedImages).Nodup ∧
      (∀ i k img, images[i]? = some k → fetchDecode w i k = some img →
        (∀ j, i < j → images[j]? = some k → fetchDecode w j k = none) →
        mapLookup k s.processedImages = some (grayImage img)) ∧
      s.processedImages = expectedRegistry w images ∧
      (∀ n, n ∈ prints s.trace → n = (expectedRegistry w images).length) := by
  have hd := (h.drained hw).2.2.2.2.2.1
  refine ⟨?_, ?_, ?_, hd, ?_⟩
  · intro k
    rw [hd]
    exact mem_mapKeys_expectedRegistry w images k
  · rw [hd]
    unfold expectedRegistry
    exact nodup_mapKeys_collect _ _ (by simp [mapKeys])
  · intro i k img hi hf hlast
    rw [hd]
    exact mapLookup_expectedRegistry w images i k img hi hf hlast
  · intro n hn
    rw [← hd]
    exact (mem_prints_returned h hn).2

/-- C2 on the scenario of the specification: with the identifiers `"a"` and
`"b"`, the fetch of `"a"` succeeding and the fetch of `"b"` failing, the map
has the one key `"a"`, which maps to the gray version of the decoded image,
and the driver prints `1`. -/
theorem C2_scenario_witness :
    Reachable scenarioWorld idsAB (exec scenarioWorld idsAB schedAB) ∧
      (exec scenarioWorld idsAB schedAB).main.waited = true ∧
      fetchDecode scenarioWorld 0 "a".toList = some imgA ∧
      fetchDecode scenarioWorld 1 "b".toList = none ∧
      mapKeys (exec scenarioWorld idsAB schedAB).processedImages = ["a".toList] ∧
      mapLookup "a".toList (exec scenarioWorld idsAB schedAB).processedImages
        = some (grayImage imgA) ∧
      (exec scenarioWorld idsAB schedAB).processedImages = expectedRegistry scenarioWorld idsAB ∧
      prints (exec scenarioWorld idsAB schedAB).trace = [1] ∧
      (expectedRegistry scenarioWorld idsAB).length = 1 := by
  have hw : (exec scenarioWorld idsAB schedAB).main.waited = true := by decide
  have hp : prints (exec scenarioWorld idsAB schedAB).trace = [1] := by decide
  have h := C2_registry_holds_successful_items scenarioWorld idsAB
    (exec scenarioWorld idsAB schedAB) (reachable_exec _ _ _) hw
  have hlast : ∀ j, 0 < j → idsAB[j]? = some "a".toList →
      fetchDecode scenarioWorld j "a".toList = none := by
    intro j hj hi
    cases j with
    | zero => cases hj
    | succ j =>
      cases j with
      | zero =>
        have e : idsAB[1]? = some "b".toList := rfl
        rw [e] at hi
        exact absurd (Option.some.inj hi) (by decide)
      | succ j => cases hi
  exact ⟨reachable_exec _ _ _, hw, rfl, rfl, by decide,
    h.2.2.1 0 "a".toList imgA rfl rfl hlast, h.2.2.2.1, hp,
    (h.2.2.2.2 1 (by rw [hp]; exact List.mem_singleton.2 rfl)).symm⟩

/-! ## C3 and C4: the conversion to gray -/

theorem Image.eq_of {a b : Image} (hb : a.Bounds = b.Bounds) (ha : ∀ x y, a.At x y = b.At x y) :
    a = b := by
  cases a with
  | mk ab aa al =>
    cases b with
    | mk bb ba bl =>
      simp only at hb ha
      subst hb
      have : aa = ba := funext (fun x => funext (fun y => ha x y))
      subst this
      rfl

theorem grayImage_idem (src : Image) : grayImage (grayImage src) = grayImage src := by
  apply Image.eq_of
  · rw [grayImage_Bounds]
  · intro x y
    rw [grayImage_At (grayImage src), grayImage_Bounds, grayImage_At src]
    by_cases hc : src.Bounds.Contains x y = true
    · rw [if_pos hc, if_pos hc]
      rfl
    · rw [if_neg hc, if_neg hc]

theorem gray_unit (u : ImageData) :
    ∃ grayImg, grayscale u.Data = some grayImg ∧
      u.gray = { URL := u.URL, Data := grayImg.toImage } :=
  ⟨_, grayscale_eq u.Data, rfl⟩

/-- C3: the units the processor has sent on `processedCh`, followed by the
unit it holds, are the units it received from `downloadedCh`, in the same
order, each converted; once its loop has ended it has sent one unit for each
unit received; the processor never panics, and the process does not crash
unless `image.Decode` panics in the downloader; and the conversion of a unit
(lines 130-139) returns, keeps the URL and the bounds, and puts at every point inside the
bounds the gray value `Y = (19595*R + 38470*G + 7471*B + 2^15) >> 24` of the
16-bit channels of the source pixel, with `Y ≤ 255`. -/
theorem C3_processor_sends_each_unit_converted (w : World) (images : List GoString)
    (s : State) (h : Reachable w images s) :
    (recvDs s.trace).map ImageData.gray = sendPs s.trace ++ s.pr.pending ∧
      s.pr.pending.length ≤ 1 ∧
      (s.pr.afterLoop = true → sendPs s.trace = (recvDs s.trace).map ImageData.gray ∧
        (sendPs s.trace).length = (recvDs s.trace).length ∧
        (sendPs s.trace).map ImageData.URL = (recvDs s.trace).map ImageData.URL) ∧
      s.pr.unwinding = false ∧
      ((∀ body, w.decode body ≠ .panic) → s.status ≠ .panicked) ∧
      (∀ u : ImageData,
        (∃ grayImg, grayscale u.Data = some grayImg ∧
          u.gray = { URL := u.URL, Data := grayImg.toImage }) ∧
        u.gray.URL = u.URL ∧ u.gray.Data.Bounds = u.Data.Bounds ∧
        ∀ x y, u.Data.Bounds.Contains x y = true → (u.Data.At x y).Valid →
          u.gray.Data.At x y = Color.Gray (lumaSpec (u.Data.At x y).RGBA) ∧
          lumaSpec (u.Data.At x y).RGBA ≤ 255) := by
  have hf := h.flow.prSent
  refine ⟨hf, ?_, ?_, h.inv.prSound, fun hnp => h.not_panicked hnp, ?_⟩
  · cases hp : s.pr <;> simp
  · intro ha
    have hp : s.pr.pending = [] := by
      cases hpc : s.pr <;> simp_all
    rw [hp, List.append_nil] at hf
    refine ⟨hf.symm, ?_, ?_⟩
    · rw [← hf, List.length_map]
    · rw [← hf, map_URL_gray]
  · intro u
    refine ⟨gray_unit u, rfl, grayImage_Bounds u.Data, ?_⟩
    intro x y hc hv
    have hg := grayModel_eq_lumaSpec (u.Data.At x y) hv
    have hat : u.gray.Data.At x y = Color.Gray (grayModel (u.Data.At x y)) := by
      show (grayImage u.Data).At x y = _
      rw [grayImage_At, if_pos hc]
    rw [hat, hg.1]
    exact ⟨rfl, hg.1 ▸ hg.2⟩

/-- C3 on the scenario: the processor received the unit of `"a"` and sent
it converted; its red pixel became the gray value 76; nothing panicked. -/
theorem C3_scenario_witness :
    Reachable scenarioWorld idsAB (exec scenarioWorld idsAB schedAB) ∧
      (exec scenarioWorld idsAB schedAB).pr.afterLoop = true ∧
      (∀ body, scenarioWorld.decode body ≠ .panic) ∧
      (exec scenarioWorld idsAB schedAB).status ≠ .panicked ∧
      imgA.Bounds.Contains 0 0 = true ∧ (imgA.At 0 0).Valid ∧
      (recvDs (exec scenarioWorld idsAB schedAB).trace).map ImageData.URL = ["a".toList] ∧
      sendPs (exec scenarioWorld idsAB schedAB).trace
        = (recvDs (exec scenarioWorld idsAB schedAB).trace).map ImageData.gray ∧
      (sendPs (exec scenarioWorld idsAB schedAB).trace).length
        = (recvDs (exec scenarioWorld idsAB schedAB).trace).length ∧
      (ImageData.gray { URL := "a".toList, Data := imgA }).Data.Bounds = imgA.Bounds ∧
      (ImageData.gray { URL := "a".toList, Data := imgA }).Data.At 0 0 = Color.Gray 76 := by
  have ha : (exec scenarioWorld idsAB schedAB).pr.afterLoop = true := by decide
  have hc : imgA.Bounds.Contains 0 0 = true := by decide
  have hv : (imgA.At 0 0).Valid := by
    show (Color.Other 65535 0 0 65535).Valid
    unfold Color.Valid
    decide
  have h := C3_processor_sends_each_unit_converted scenarioWorld idsAB
    (exec scenarioWorld idsAB schedAB) (reachable_exec _ _ _)
  have hu := (h.2.2.2.2.2 { URL := "a".toList, Data := imgA }).2.2
  exact ⟨reachable_exec _ _ _, ha, scenarioWorld_decode_returns,
    h.2.2.2.2.1 scenarioWorld_decode_returns, hc, hv, by decide, (h.2.2.1 ha).1,
    (h.2.2.1 ha).2.1, hu.1, (hu.2 0 0 hc hv).1⟩

/-- C4: converting an image that was converted gives the same image: the
same bounds and the same color at every point; and the gray value of a gray
pixel of value `Y ≤ 255`, whose 16-bit channels are `R = G = B = Y*257`, is
`Y` again. -/
theorem C4_grayscale_idempotent (src : Image) :
    grayImage (grayImage src) = grayImage src ∧
      (grayImage (grayImage src)).Bounds = (grayImage src).Bounds ∧
      (∀ x y, (grayImage (grayImage src)).At x y = (grayImage src).At x y) ∧
      (∀ u : ImageData, u.gray.gray = u.gray) ∧
      (∀ Y, Y ≤ 255 → (Color.Gray Y).RGBA = (Y * 257, Y * 257, Y * 257, 0xffff) ∧
        lumaSpec (Color.Gray Y).RGBA = Y ∧ grayModel (Color.Gray Y) = Y) := by
  have hi := grayImage_idem src
  refine ⟨hi, by rw [hi], fun x y => by rw [hi], ?_, ?_⟩
  · intro u
    show ({ URL := u.URL, Data := grayImage (grayImage u.Data) } : ImageData)
      = { URL := u.URL, Data := grayImage u.Data }
    rw [grayImage_idem]
  · intro Y hY
    have h1 := gray_RGBA Y hY
    refine ⟨h1, ?_, rfl⟩
    rw [h1]
    exact lumaSpec_gray Y hY

/-- C4 on the image of the scenario and on the gray value 200. -/
theorem C4_grayscale_idempotent_witness :
    grayImage (grayImage imgA) = grayImage imgA ∧ (200 : Nat) ≤ 255 ∧
      (Color.Gray 200).RGBA = (51400, 51400, 51400, 0xffff) ∧
      lumaSpec (Color.Gray 200).RGBA = 200 ∧ grayModel (Color.Gray 200) = 200 := by
  have h := C4_grayscale_idempotent imgA
  have h2 := h.2.2.2.2 200 (by decide)
  exact ⟨h.1, by decide, h2.1, h2.2.1, h2.2.2⟩

/-! ## C5: the outcome of saving a file does not reach the data -/

theorem downloads_congr (w1 w2 : World) (hget : w1.httpGet = w2.httpGet)
    (hdec : w1.decode = w2.decode) (n : Nat) (urls : List GoString) :
    downloads w1 n urls = downloads w2 n urls := by
  induction urls generalizing n with
  | nil => rfl
  | cons url urls ih =>
    simp only [downloads, download, fetchDecode, hget, hdec, ih]

/-- C5: the units sent, converted and stored do not depend on
`os.Create` and `png.Encode`.  In every reachable state the units sent on
`downloadedCh` with the one in hand are the successful fetches of the
identifiers received, whatever the saving did, and every unit the collector
received is stored or in hand; and two executions over environments with the
same `http.Get` and `image.Decode`, both past `wg.Wait()`, have sent the same
units on both channels, stored the same units and hold the same map. -/
theorem C5_persistence_does_not_reach_data (w1 w2 : World) (images : List GoString)
    (s1 s2 : State) (hget : w1.httpGet = w2.httpGet) (hdec : w1.decode = w2.decode)
    (h1 : Reachable w1 images s1) (h2 : Reachable w2 images s2)
    (hw1 : s1.main.waited = true) (hw2 : s2.main.waited = true) :
    sendDs s1.trace = sendDs s2.trace ∧ sendPs s1.trace = sendPs s2.trace ∧
      stores s1.trace = stores s2.trace ∧ s1.processedImages = s2.processedImages ∧
      sendDs s1.trace = downloads w1 0 images ∧
      stores s1.trace = (downloads w1 0 images).map ImageData.gray ∧
      (∀ s, Reachable w1 images s →
        downloads w1 0 (images.take (s.main.sent images.length))
          = sendDs s.trace ++ s.dl.pending w1 ∧
        sendPs s.trace = stores s.trace ++ s.col.pending ∧
        s.processedImages = collect [] (stores s.trace)) := by
  obtain ⟨_, a2, _, a4, a5, a6, _, _⟩ := h1.drained hw1
  obtain ⟨_, b2, _, b4, b5, b6, _, _⟩ := h2.drained hw2
  have e := downloads_congr w1 w2 hget hdec 0 images
  refine ⟨by rw [a2, b2, e], by rw [a4, b4, e], by rw [a5, b5, e], ?_, a2, a5, ?_⟩
  · rw [a6, b6]
    unfold expectedRegistry
    rw [e]
  · intro s hs
    have f := hs.flow
    refine ⟨?_, f.colStored, f.registry⟩
    have hsplit : images = images.take (s.main.sent images.length)
        ++ images.drop (s.main.sent images.length) := (List.take_append_drop _ _).symm
    have hlen : (images.take (s.main.sent images.length)).length = s.main.sent images.length := by
      rw [List.length_take]
      have := hs.inv.sentLe
      omega
    have f2 := f.dlSent
    rw [← List.append_assoc] at f2
    have e2 : downloads w1 0 images = downloads w1 0 (images.take (s.main.sent images.length)) ++
        downloads w1 (s.main.sent images.length) (images.drop (s.main.sent images.length)) := by
      conv_lhs => rw [hsplit]
      rw [downloads_append, hlen, Nat.zero_add]
    rw [e2] at f2
    exact List.append_cancel_right f2

/-- C5 on the scenario, executed once with every file written and once with
no file created: the same unit was sent and the same map results. -/
theorem C5_scenario_witness :
    scenarioWorld.httpGet = persistFailWorld.httpGet ∧
      scenarioWorld.decode = persistFailWorld.decode ∧
      Reachable scenarioWorld idsAB (exec scenarioWorld idsAB schedAB) ∧
      Reachable persistFailWorld idsAB (exec persistFailWorld idsAB schedPersistFail) ∧
      (exec scenarioWorld idsAB schedAB).main.waited = true ∧
      (exec persistFailWorld idsAB schedPersistFail).main.waited = true ∧
      sendDs (exec scenarioWorld idsAB schedAB).trace
        = sendDs (exec persistFailWorld idsAB schedPersistFail).trace ∧
      sendPs (exec scenarioWorld idsAB schedAB).trace
        = sendPs (exec persistFailWorld idsAB schedPersistFail).trace ∧
      stores (exec scenarioWorld idsAB schedAB).trace
        = stores (exec persistFailWorld idsAB schedPersistFail).trace ∧
      (exec scenarioWorld idsAB schedAB).processedImages
        = (exec persistFailWorld idsAB schedPersistFail).processedImages ∧
      (sendDs (exec persistFailWorld idsAB schedPersistFail).trace).map ImageData.URL
        = ["a".toList] ∧
      mapKeys (exec persistFailWorld idsAB schedPersistFail).processedImages = ["a".toList] := by
  have hw1 : (exec scenarioWorld idsAB schedAB).main.waited = true := by decide
  have hw2 : (exec persistFailWorld idsAB schedPersistFail).main.waited = true := by decide
  have h := C5_persistence_does_not_reach_data scenarioWorld persistFailWorld idsAB
    (exec scenarioWorld idsAB schedAB) (exec persistFailWorld idsAB schedPersistFail) rfl rfl
    (reachable_exec _ _ _) (reachable_exec _ _ _) hw1 hw2
  exact ⟨rfl, rfl, reachable_exec _ _ _, reachable_exec _ _ _, hw1, hw2, h.1, h.2.1, h.2.2.1,
    h.2.2.2.1, by decide, by decide⟩

/-! ## C6: the pipeline drains -/

/-- C6, as stated, fails in two ways.  When `os.MkdirAll` fails: without
identifiers, after `main` has closed `urlsCh`, the collector cannot make the
directory `output` and calls `log.Fatal` (line 148), which ends the process.
When `image.Decode` panics: with both directories made and the one identifier
`"a"` sent and `urlsCh` closed, the panic at line 94 runs the deferred calls of
the downloader and ends the process.  In both executions `wg.Wait()` has not
returned, nothing is printed, and no goroutine moves any more. -/
theorem C6_aborted_executions_counterexample :
    (Reachable noOutputWorld [] (exec noOutputWorld [] schedMkdir) ∧
      (exec noOutputWorld [] schedMkdir).urlsClosed = true ∧
      (exec noOutputWorld [] schedMkdir).status = .fatal ∧
      (exec noOutputWorld [] schedMkdir).main = .wgWait ∧
      (exec noOutputWorld [] schedMkdir).wg = 3 ∧
      prints (exec noOutputWorld [] schedMkdir).trace = [] ∧
      ¬ (exec noOutputWorld [] schedMkdir).Completed ∧
      ¬ ∃ p t, step noOutputWorld [] p (exec noOutputWorld [] schedMkdir) = some t) ∧
    (Reachable decodePanicWorld idsA (exec decodePanicWorld idsA schedPanic) ∧
      decodePanicWorld.mkdirAll "input".toList = true ∧
      decodePanicWorld.mkdirAll "output".toList = true ∧
      sendUrls (exec decodePanicWorld idsA schedPanic).trace = idsA ∧
      (exec decodePanicWorld idsA schedPanic).urlsClosed = true ∧
      (exec decodePanicWorld idsA schedPanic).status = .panicked ∧
      (exec decodePanicWorld idsA schedPanic).main = .wgWait ∧
      (exec decodePanicWorld idsA schedPanic).wg = 2 ∧
      prints (exec decodePanicWorld idsA schedPanic).trace = [] ∧
      ¬ (exec decodePanicWorld idsA schedPanic).Completed ∧
      ¬ ∃ p t, step decodePanicWorld idsA p (exec decodePanicWorld idsA schedPanic) = some t) := by
  have hs : (exec noOutputWorld [] schedMkdir).status = .fatal := by decide
  have hp : (exec decodePanicWorld idsA schedPanic).status = .panicked := by decide
  refine ⟨⟨reachable_exec _ _ _, by decide, hs, by decide, by decide, by decide, ?_, ?_⟩,
    ⟨reachable_exec _ _ _, rfl, rfl, by decide, by decide, hp, by decide, by decide, by decide,
      ?_, ?_⟩⟩
  · intro hc
    have := hc.2.2.1
    rw [hs] at this
    cases this
  · rintro ⟨p, t, hstep⟩
    rw [step_none_of_ended (Or.inl (by rw [hs]; decide)) p] at hstep
    cases hstep
  · intro hc
    have := hc.2.2.1
    rw [hp] at this
    cases this
  · rintro ⟨p, t, hstep⟩
    rw [step_none_of_ended (Or.inl (by rw [hp]; decide)) p] at hstep
    cases hstep

/-- C6, amended: when `os.MkdirAll` succeeds for `input` and for `output`
and `image.Decode` does not panic (it returns an image or an error), then for
every list of identifiers and whatever the fetches, the decodings and the
saving of files do: every reachable state has completed (the three stages
have exited and `main` has returned from `wg.Wait()`) or some goroutine can
move, so no state is deadlocked; an execution has at most
`14 * len(images) + 24` steps; from every reachable state some execution
leads to completion, and an execution that cannot be continued has
completed; and without identifiers the completed pipeline holds an empty map
and has printed `0`. -/
theorem C6_pipeline_drains_when_no_stage_aborts (w : World) (images : List GoString)
    (hin : w.mkdirAll "input".toList = true) (hout : w.mkdirAll "output".toList = true)
    (hnp : ∀ body, w.decode body ≠ .panic) :
    (∀ s, Reachable w images s → s.Completed ∨ ∃ p t, step w images p s = some t) ∧
      (∀ sched t, run w images sched State.init = some t →
        sched.length ≤ 14 * images.length + 24) ∧
      (∀ s, Reachable w images s → ∃ sched t, run w images sched s = some t ∧ t.Completed) ∧
      (∀ s, Reachable w images s → (∀ p, step w images p s = none) → s.Completed) ∧
      (images = [] → ∀ s, Reachable w images s → s.Completed →
        s.processedImages = [] ∧ prints s.trace = [0]) := by
  have hdl : ∀ s, Reachable w images s → s.Completed ∨ ∃ p t, step w images p s = some t := by
    intro s hs
    by_cases hm : s.main = .returned
    · exact Or.inl (hs.completed hin hout hnp hm)
    · exact Or.inr (progress hs.inv (hs.running hin hout hnp) hm)
  refine ⟨hdl, ?_, ?_, ?_, ?_⟩
  · intro sched t hrun
    have h := run_length_le sched Reachable.init hrun
    have e : State.init.measure images.length = 14 * images.length + 24 := by
      simp [State.measure, State.init, urlCost, bufferCost]
      omega
    omega
  · intro s hs
    exact Reachable.completes hin hout hnp _ s hs (Nat.le_refl _)
  · intro s hs hnone
    rcases hdl s hs with hc | ⟨p, t, hstep⟩
    · exact hc
    · rw [hnone p] at hstep
      cases hstep
  · intro himg s hs hc
    have hd := (hs.drained (waited_of_returned hc.1)).2.2.2.2.2.1
    have hp := hs.hist.printed
    rw [if_pos hc.1] at hp
    subst himg
    have e : expectedRegistry w [] = [] := rfl
    rw [e] at hd
    rw [hp, hd]
    exact ⟨rfl, rfl⟩

/-- C6, amended, on the scenario and on the empty list of identifiers: the
executions end completed, within the bound on their length; from the state
after the first send some execution leads to completion; and without
identifiers the map is empty and `0` is printed. -/
theorem C6_pipeline_drains_witness :
    scenarioWorld.mkdirAll "input".toList = true ∧
      scenarioWorld.mkdirAll "output".toList = true ∧
      (∀ body, scenarioWorld.decode body ≠ .panic) ∧
      (exec scenarioWorld idsAB schedAB).Completed ∧
      schedAB.length ≤ 14 * idsAB.length + 24 ∧
      (∃ sched t, run scenarioWorld idsAB sched (exec scenarioWorld idsAB schedSent) = some t ∧
        t.Completed) ∧
      ((exec scenarioWorld idsAB schedSent).Completed ∨
        ∃ p t, step scenarioWorld idsAB p (exec scenarioWorld idsAB schedSent) = some t) ∧
      (exec scenarioWorld [] schedEmpty).Completed ∧
      (exec scenarioWorld [] schedEmpty).processedImages = [] ∧
      prints (exec scenarioWorld [] schedEmpty).trace = [0] := by
  have hnp := scenarioWorld_decode_returns
  have h := C6_pipeline_drains_when_no_stage_aborts scenarioWorld idsAB rfl rfl hnp
  have h0 := C6_pipeline_drains_when_no_stage_aborts scenarioWorld [] rfl rfl hnp
  have hnone : ∀ p, step scenarioWorld idsAB p (exec scenarioWorld idsAB schedAB) = none :=
    step_none_of_ended (Or.inr (by decide))
  have hnone0 : ∀ p, step scenarioWorld [] p (exec scenarioWorld [] schedEmpty) = none :=
    step_none_of_ended (Or.inr (by decide))
  have hrun : run scenarioWorld idsAB schedAB State.init
      = some (exec scenarioWorld idsAB schedAB) := by
    have hsome : (run scenarioWorld idsAB schedAB State.init).isSome = true := by decide
    obtain ⟨t, ht⟩ := Option.isSome_iff_exists.1 hsome
    unfold exec
    rw [ht]
    rfl
  have hc0 := h0.2.2.2.1 _ (reachable_exec _ _ _) hnone0
  have hk0 := h0.2.2.2.2 rfl _ (reachable_exec _ _ _) hc0
  exact ⟨rfl, rfl, hnp, h.2.2.2.1 _ (reachable_exec _ _ _) hnone, h.2.1 schedAB _ hrun,
    h.2.2.1 _ (reachable_exec _ _ _), h.1 _ (reachable_exec _ _ _), hc0, hk0.1, hk0.2⟩

/-! ## C7: the channels are closed at most once, by their writers -/

/-- C7, as stated, fails in two ways.  Not every execution closes each
channel: when the collector cannot make the directory `output`, `log.Fatal`
ends the process with `urlsCh` closed and the other two channels never
closed.  And a close can come before the writer's input is exhausted: when
`image.Decode` panics on the first of the identifiers `"a"`, `"b"`, the
deferred `close(out)` of the downloader closes `downloadedCh` while `urlsCh`
is open and `"b"` has not been sent. -/
theorem C7_close_counterexample :
    (Reachable noOutputWorld [] (exec noOutputWorld [] schedMkdir) ∧
      (¬ ∃ p t, step noOutputWorld [] p (exec noOutputWorld [] schedMkdir) = some t) ∧
      closers .urlsCh (exec noOutputWorld [] schedMkdir).trace = [.main] ∧
      closers .downloadedCh (exec noOutputWorld [] schedMkdir).trace = [] ∧
      closers .processedCh (exec noOutputWorld [] schedMkdir).trace = []) ∧
    (Reachable decodePanicWorld idsAB (exec decodePanicWorld idsAB schedPanicClose) ∧
      closers .downloadedCh (exec decodePanicWorld idsAB schedPanicClose).trace
        = [.downloader] ∧
      closers .urlsCh (exec decodePanicWorld idsAB schedPanicClose).trace = [] ∧
      (exec decodePanicWorld idsAB schedPanicClose).urlsClosed = false ∧
      sendUrls (exec decodePanicWorld idsAB schedPanicClose).trace = ["a".toList] ∧
      idsAB = ["a".toList, "b".toList]) := by
  have hs : (exec noOutputWorld [] schedMkdir).status = .fatal := by decide
  refine ⟨⟨reachable_exec _ _ _, ?_, by decide, by decide, by decide⟩,
    ⟨reachable_exec _ _ _, by decide, by decide, by decide, by decide, rfl⟩⟩
  rintro ⟨p, t, hstep⟩
  rw [step_none_of_ended (Or.inl (by rw [hs]; decide)) p] at hstep
  cases hstep

/-- C7, amended: in every reachable state each channel was closed at most
once, by its writer (`urlsCh` by `main`, `downloadedCh` by the downloader,
`processedCh` by the processor), and exactly once when `wg.Wait()` has
returned; no send on a channel follows its close in the log, and no
goroutine panics on a channel: the processor and the collector never panic,
and every panic in the log is the downloader's, raised at its call of
`image.Decode`.  At the close of `urlsCh` every identifier has been sent; at
the close of `processedCh` the channel `downloadedCh` is closed and empty and
every unit received has been sent converted; and when `image.Decode` does
not panic, the process does not crash and at the close of `downloadedCh` the
channel `urlsCh` is closed, every identifier has been received and every
unit there is to send has been sent.  A send is one event of the log, so the
sends before a close have completed. -/
theorem C7_channels_closed_at_most_once_by_writer (w : World) (images : List GoString)
    (s : State) (h : Reachable w images s) :
    (∀ c, closers c s.trace = [] ∨ closers c s.trace = [c.writer]) ∧
      (s.main.waited = true → ∀ c, closers c s.trace = [c.writer]) ∧
      (∀ c p pre post, s.trace = pre ++ Event.close c p :: post →
        p = c.writer ∧ ∀ e ∈ post, e.sendsOn ≠ some c) ∧
      (s.pr.unwinding = false ∧ s.col.unwinding = false) ∧
      (∀ p pre post, s.trace = pre ++ Event.panic p :: post →
        p = .downloader ∧ ∃ s0, Reachable w images s0 ∧ s0.trace = pre ∧
          ∃ n url body, s0.dl = .decode n url body) ∧
      (∀ p pre post, s.trace = pre ++ Event.close .urlsCh p :: post → sendUrls pre = images) ∧
      (∀ p pre post, s.trace = pre ++ Event.close .processedCh p :: post →
        closers .downloadedCh pre = [.downloader] ∧ recvDs pre = sendDs pre ∧
        sendPs pre = (recvDs pre).map ImageData.gray) ∧
      ((∀ body, w.decode body ≠ .panic) →
        s.status ≠ .panicked ∧ s.dl.unwinding = false ∧
        ∀ p pre post, s.trace = pre ++ Event.close .downloadedCh p :: post →
          closers .urlsCh pre = [.main] ∧ sendUrls pre = images ∧
          sendDs pre = downloads w 0 images) := by
  refine ⟨closers_cases h, fun hw => closers_of_waited h hw, ?_,
    ⟨h.inv.prSound, h.inv.colSound⟩, ?_, ?_, ?_, ?_⟩
  · intro c p pre post htr
    refine ⟨?_, no_send_after_close h c p pre post htr⟩
    cases c
    · exact (close_urls_origin h p pre post htr).1
    · exact close_downloaded_writer h p pre post htr
    · exact (close_processed_origin h p pre post htr).1
  · intro p pre post htr
    exact panic_origin h p pre post htr
  · intro p pre post htr
    exact (close_urls_origin h p pre post htr).2
  · intro p pre post htr
    exact (close_processed_origin h p pre post htr).2
  · intro hnp
    refine ⟨h.not_panicked hnp, h.sound hnp, ?_⟩
    intro p pre post htr
    exact close_downloaded_origin hnp h p pre post htr

/-- C7, amended, on the scenario, executed to the end: `image.Decode` does
not panic, the process has not crashed, and each channel was closed once, by
its writer. -/
theorem C7_scenario_witness :
    Reachable scenarioWorld idsAB (exec scenarioWorld idsAB schedAB) ∧
      (exec scenarioWorld idsAB schedAB).main.waited = true ∧
      (∀ body, scenarioWorld.decode body ≠ .panic) ∧
      (exec scenarioWorld idsAB schedAB).status ≠ .panicked ∧
      closers .urlsCh (exec scenarioWorld idsAB schedAB).trace = [.main] ∧
      closers .downloadedCh (exec scenarioWorld idsAB schedAB).trace = [.downloader] ∧
      closers .processedCh (exec scenarioWorld idsAB schedAB).trace = [.processor] := by
  have hw : (exec scenarioWorld idsAB schedAB).main.waited = true := by decide
  have hnp := scenarioWorld_decode_returns
  have h := C7_channels_closed_at_most_once_by_writer scenarioWorld idsAB
    (exec scenarioWorld idsAB schedAB) (reachable_exec _ _ _)
  exact ⟨reachable_exec _ _ _, hw, hnp, (h.2.2.2.2.2.2.2 hnp).1, h.2.1 hw .urlsCh,
    h.2.1 hw .downloadedCh, h.2.1 hw .processedCh⟩

/-! ## C8: the barrier -/

/-- C8: `wg.Add` is called at most once, with 3, and the counter is what was
added less the number of `wg.Done()` calls; `main` never calls `wg.Done()`
and each stage calls it at most once, and exactly once when `wg.Wait()` has
returned; a stage does nothing after its `wg.Done()`, and the downloader and
the processor have closed their output channels before it; and when `main`
reads `len(processedImages)` (line 72) the counter is zero, the three stages
have called `wg.Done()`, every unit the collector received has been stored in
the map, and `os.Create` has been called for the output path of each of
them. -/
theorem C8_barrier_released_after_all_stages_exit (w : World) (images : List GoString)
    (s : State) (h : Reachable w images s) :
    (adds s.trace = [] ∨ adds s.trace = [3]) ∧
      (adds s.trace).sum = s.wg + (doneBy s.trace).length ∧
      (doneBy s.trace).count .main = 0 ∧
      (∀ p, (doneBy s.trace).count p ≤ 1) ∧
      (s.main.waited = true → s.wg = 0 ∧ adds s.trace = [3] ∧
        (doneBy s.trace).count .downloader = 1 ∧ (doneBy s.trace).count .processor = 1 ∧
        (doneBy s.trace).count .collector = 1) ∧
      (∀ p pre post, s.trace = pre ++ Event.wgDone p :: post →
        p ≠ .main ∧ (∀ e ∈ post, p ∉ e.actors) ∧
        (p = .downloader → closers .downloadedCh pre = [.downloader]) ∧
        (p = .processor → closers .processedCh pre = [.processor])) ∧
      (∀ n pre post, s.trace = pre ++ Event.print n :: post →
        ∃ s0, Reachable w images s0 ∧ s0.trace = pre ∧ s0.wg = 0 ∧
          n = s0.processedImages.length ∧
          s0.processedImages = collect [] (stores pre) ∧
          (doneBy pre).count .downloader = 1 ∧ (doneBy pre).count .processor = 1 ∧
          (doneBy pre).count .collector = 1 ∧
          stores pre = sendPs pre ∧
          creates .collector pre = (sendPs pre).map (fun u => outputPath u.URL)) := by
  have hh := h.hist
  refine ⟨(adds_sum h).1, (adds_sum h).2, hh.doneMain, done_count_le h, ?_, ?_, ?_⟩
  · intro hw
    obtain ⟨e1, e2, e3, e4⟩ := h.inv.exited hw
    have c1 := hh.doneDl
    have c2 := hh.donePr
    have c3 := hh.doneCol
    have ha := hh.added
    rw [e1] at c1
    rw [e2] at c2
    rw [e3] at c3
    rw [MainPc.added_of_waited hw] at ha
    exact ⟨e4, ha, c1, c2, c3⟩
  · intro p pre post htr
    obtain ⟨h1, h2⟩ := no_event_after_done h p pre post htr
    obtain ⟨h3, h4⟩ := closed_before_done h p pre post htr
    exact ⟨h1, h2, h3, h4⟩
  · intro n pre post htr
    exact print_origin h n pre post htr

/-- C8 on the scenario, executed to the end: 3 was added once, the stages
called `wg.Done()` once each, the downloader first, and the counter is
zero. -/
theorem C8_scenario_witness :
    Reachable scenarioWorld idsAB (exec scenarioWorld idsAB schedAB) ∧
      (exec scenarioWorld idsAB schedAB).main.waited = true ∧
      (exec scenarioWorld idsAB schedAB).wg = 0 ∧
      adds (exec scenarioWorld idsAB schedAB).trace = [3] ∧
      doneBy (exec scenarioWorld idsAB schedAB).trace = [.downloader, .processor, .collector] ∧
      (doneBy (exec scenarioWorld idsAB schedAB).trace).count .downloader = 1 ∧
      (doneBy (exec scenarioWorld idsAB schedAB).trace).count .processor = 1 ∧
      (doneBy (exec scenarioWorld idsAB schedAB).trace).count .collector = 1 ∧
      creates .collector (exec scenarioWorld idsAB schedAB).trace = ["output/a.png".toList] := by
  have hw : (exec scenarioWorld idsAB schedAB).main.waited = true := by decide
  have h := C8_barrier_released_after_all_stages_exit scenarioWorld idsAB
    (exec scenarioWorld idsAB schedAB) (reachable_exec _ _ _)
  have h5 := h.2.2.2.2.1 hw
  exact ⟨reachable_exec _ _ _, hw, h5.1, h5.2.1, by decide, h5.2.2.1, h5.2.2.2.1, h5.2.2.2.2,
    by decide⟩

/-! ## C9: the order of sending and saving in the downloader -/

/-- C9, as stated, fails: in the scenario, right after the downloader has
sent the unit of `"a"` on `downloadedCh` (line 101), it has not called
`os.Create` (line 107) at all; the call is its next step. -/
theorem C9_send_precedes_persist_counterexample :
    Reachable scenarioWorld idsAB (exec scenarioWorld idsAB schedSent) ∧
      (sendDs (exec scenarioWorld idsAB schedSent).trace).map ImageData.URL = ["a".toList] ∧
      creates .downloader (exec scenarioWorld idsAB schedSent).trace = [] ∧
      (exec scenarioWorld idsAB schedSent).dl.pendingCreate = ["input/a.png".toList] ∧
      (exec scenarioWorld idsAB schedSent).dl = .create 0 "a".toList imgA := by
  exact ⟨reachable_exec _ _ _, by decide, by decide, by decide, rfl⟩

/-- C9, amended: the downloader sends the unit first and saves the decoded
image afterwards.  Every send on `downloadedCh` follows the successful decode
of its identifier directly (among the downloader's events), and at that
moment `os.Create` has been called for the units sent before and not for the
unit being sent; every `os.Create` of the downloader follows directly the
send of the unit whose file it creates; and in every state the input paths of
the units sent are the paths for which `os.Create` was called, followed by
the path that is to be created next, if any. -/
theorem C9_unit_is_sent_before_it_is_saved (w : World) (images : List GoString) (s : State)
    (h : Reachable w images s) :
    (∀ u pre post, s.trace = pre ++ Event.sendD u :: post →
        lastBy .downloader pre = some (.decode u.URL true) ∧
        creates .downloader pre = (sendDs pre).map (fun v => inputPath v.URL) ∧
        (creates .downloader pre).length = (sendDs pre).length) ∧
      (∀ path ok pre post, s.trace = pre ++ Event.create .downloader path ok :: post →
        ∃ u, lastBy .downloader pre = some (.sendD u) ∧ path = inputPath u.URL ∧
          (creates .downloader pre).length + 1 = (sendDs pre).length) ∧
      (sendDs s.trace).map (fun v => inputPath v.URL)
        = creates .downloader s.trace ++ s.dl.pendingCreate ∧
      s.dl.pendingCreate.length ≤ 1 := by
  refine ⟨?_, ?_, h.flow.dlCreates, ?_⟩
  · intro u pre post htr
    obtain ⟨s0, hs0, ht0, hg, _⟩ := h.origin _ _ _ htr
    have hg2 : (∃ n, s0.dl = .send n u.URL u.Data) ∧ s0.downloadedClosed = false := hg
    obtain ⟨⟨n, hn⟩, _⟩ := hg2
    have hl := hs0.hist.sendLast n u.URL u.Data hn
    have hc := hs0.flow.dlCreates
    rw [hn] at hc
    simp only [DlPc.pendingCreate, List.append_nil] at hc
    rw [ht0] at hl hc
    refine ⟨hl, hc.symm, ?_⟩
    rw [← hc, List.length_map]
  · intro path ok pre post htr
    obtain ⟨s0, hs0, ht0, hg, _⟩ := h.origin _ _ _ htr
    have hg2 : ∃ n url img, s0.dl = .create n url img ∧ path = inputPath url := hg
    obtain ⟨n, url, img, hn, hp⟩ := hg2
    have hl := hs0.hist.createLast n url img hn
    have hc := hs0.flow.dlCreates
    rw [hn] at hc
    simp only [DlPc.pendingCreate] at hc
    rw [ht0] at hl hc
    refine ⟨{ URL := url, Data := img }, hl, hp, ?_⟩
    have := congrArg List.length hc
    simp only [List.length_map, List.length_append, List.length_singleton] at this
    omega
  · cases hd : s.dl <;> simp

/-- C9, amended, on the scenario: right after the send of the unit of `"a"`
no file was created and `input/a.png` is to be created next; at the end it
was created. -/
theorem C9_scenario_witness :
    Reachable scenarioWorld idsAB (exec scenarioWorld idsAB schedSent) ∧
      (sendDs (exec scenarioWorld idsAB schedSent).trace).map (fun v => inputPath v.URL)
        = creates .downloader (exec scenarioWorld idsAB schedSent).trace
          ++ (exec scenarioWorld idsAB schedSent).dl.pendingCreate ∧
      (sendDs (exec scenarioWorld idsAB schedSent).trace).map (fun v => inputPath v.URL)
        = ["input/a.png".toList] ∧
      creates .downloader (exec scenarioWorld idsAB schedSent).trace = [] ∧
      creates .downloader (exec scenarioWorld idsAB schedAB).trace = ["input/a.png".toList] := by
  have h := C9_unit_is_sent_before_it_is_saved scenarioWorld idsAB
    (exec scenarioWorld idsAB schedSent) (reachable_exec _ _ _)
  exact ⟨reachable_exec _ _ _, h.2.2.1, by decide, by decide, by decide⟩

end C2g
